import Mathlib

/-! RME HDSPe 32-bit LTC arithmetic (`hdspe_ltc_math.c`) and TCO module (`hdspe_tco.c`).

A shallow embedding of the time-code arithmetic of the snd-hdspe driver, of its LTC input
rate estimator and of its LTC output scheduler.

Conventions of the embedding:

* a C `u32` / `unsigned int` is a `Nat` (the functions below only ever look at
  the low 32 bits of such an argument);
* a C `int` is an `Int`; C's `/` and `%` on `int` are `Int.tdiv` and `Int.tmod`
  (truncation towards zero);
* a conversion `int → u32` is `toU32` (reduction modulo `2^32`), a conversion
  `u32 → int` is `toInt32` (two's complement);
* `x << k` on an `int` that is then stored into a `u32` is `shl32 x k`;
* a C truth value `df` is an `Int`, true when it is non-zero.
-/

namespace Hdspe

/-- Conversion of a C `int` to `u32`: the value modulo `2^32`. -/
def toU32 (i : Int) : Nat := (i % 4294967296).toNat

/-- Conversion of a `u32` to a C `int`: two's complement reading of the low 32 bits. -/
def toInt32 (n : Nat) : Int :=
  if n % 4294967296 < 2147483648 then ((n % 4294967296 : Nat) : Int)
  else ((n % 4294967296 : Nat) : Int) - 4294967296

/-- Result of an `int` operation, wrapped to 32 bits (two's complement). -/
def wrapInt (i : Int) : Int := toInt32 (toU32 i)

/-- The bit pattern of `x << k` for an `int` `x`, as a `u32`. -/
def shl32 (x : Int) (k : Nat) : Nat := (toU32 x <<< k) % 4294967296

/-- Model of `hdspe_ltc_fpd`: frames per day. The product `24*60*60*fps` is 32-bit `int`
arithmetic: it is exact for `fps` from -24855 to 24855 and wraps beyond. -/
def hdspe_ltc_fpd (fps df : Int) : Int :=
  if df ≠ 0 then 24 * 107892 else wrapInt (24 * 60 * 60 * fps)

/-- Model of `hdspe_ltc32_parse`: hours, minutes, seconds and frames of a 32-bit LTC code. -/
def hdspe_ltc32_parse (ltc : Nat) : Int × Int × Int × Int :=
  ( ((((ltc >>> 28) &&& 0x03) * 10 + ((ltc >>> 24) &&& 0x0f) : Nat) : Int),
    ((((ltc >>> 20) &&& 0x07) * 10 + ((ltc >>> 16) &&& 0x0f) : Nat) : Int),
    ((((ltc >>> 12) &&& 0x07) * 10 + ((ltc >>> 8) &&& 0x0f) : Nat) : Int),
    ((((ltc >>> 4) &&& 0x03) * 10 + ((ltc >>> 0) &&& 0x0f) : Nat) : Int) )

/-- Model of `hdspe_ltc32_compose`: 32-bit LTC code of an hours, minutes, seconds, frames
quadruple. -/
def hdspe_ltc32_compose (h m s f : Int) : Nat :=
  let H := Int.tdiv h 10
  let M := Int.tdiv m 10
  let S := Int.tdiv s 10
  let F := Int.tdiv f 10
  let h := h - H * 10
  let m := m - M * 10
  let s := s - S * 10
  let f := f - F * 10
  (((((((((toU32 H &&& 0x03) <<< 28) ||| ((toU32 h &&& 0x0f) <<< 24))
    ||| ((toU32 M &&& 0x07) <<< 20)) ||| ((toU32 m &&& 0x0f) <<< 16))
    ||| ((toU32 S &&& 0x07) <<< 12)) ||| ((toU32 s &&& 0x0f) <<< 8))
    ||| ((toU32 F &&& 0x03) <<< 4)) ||| (toU32 f &&& 0x0f))

/-- Model of `hdspe_ltc32_cmp`: difference of the two masked codes. Both masked values
are below `2^30`, so the conversions to `int` and the subtraction are exact. -/
def hdspe_ltc32_cmp (ltc1 ltc2 : Nat) : Int :=
  toInt32 (ltc1 &&& 0x3f7f7f3f) - toInt32 (ltc2 &&& 0x3f7f7f3f)

/-- Model of `hdspe_ltc32_to_frames_df`: frames since midnight of a drop-frame code. The
sum is at most 5209545, so the `unsigned` arithmetic never wraps. -/
def hdspe_ltc32_to_frames_df (ltc : Nat) : Nat :=
  ((ltc >>> 28) &&& 0x3) * 1078920
  + ((ltc >>> 24) &&& 0xf) * 107892
  + ((ltc >>> 20) &&& 0x7) * 17982
  + ((ltc >>> 16) &&& 0xf) * 1798
  + ((ltc >>> 12) &&& 0x7) * 300
  + ((ltc >>> 8) &&& 0xf) * 30
  + ((ltc >>> 4) &&& 0x3) * 10
  + (ltc &&& 0xf)

/-- Model of `hdspe_ltc32_to_frames_ndf`: frames since midnight of a non-drop-frame code.
`fps` is converted to `unsigned` and the arithmetic is modulo `2^32`. -/
def hdspe_ltc32_to_frames_ndf (ltc : Nat) (fps : Int) : Nat :=
  ((((ltc >>> 28) &&& 0x3) * 36000
    + ((ltc >>> 24) &&& 0xf) * 3600
    + ((ltc >>> 20) &&& 0x7) * 600
    + ((ltc >>> 16) &&& 0xf) * 60
    + ((ltc >>> 12) &&& 0x7) * 10
    + ((ltc >>> 8) &&& 0xf)) * toU32 fps
    + ((ltc >>> 4) &&& 0x3) * 10
    + (ltc &&& 0xf)) % 4294967296

/-- Model of `hdspe_ltc32_to_frames`: frames since midnight. -/
def hdspe_ltc32_to_frames (ltc : Nat) (fps df : Int) : Nat :=
  if df ≠ 0 then hdspe_ltc32_to_frames_df ltc else hdspe_ltc32_to_frames_ndf ltc fps

/-- The return expression of `hdspe_ltc32_from_frames`:
`((H&3)<<28)|(h<<24)|(M<<20)|(m<<16)|(S<<12)|(s<<8)|(F<<4)|f` on `int`s,
returned as `u32`. -/
def ltc32_pack (H h M m S s F f : Int) : Nat :=
  ((((((((toU32 H &&& 3) <<< 28) ||| shl32 h 24) ||| shl32 M 20) ||| shl32 m 16)
    ||| shl32 S 12) ||| shl32 s 8) ||| shl32 F 4) ||| toU32 f

/-- Model of `hdspe_ltc32_from_frames`: 32-bit LTC code of a frame count since midnight.
The model is the code's result when `fpd` is positive and, without drop-frame, `fps` is
positive, which covers drop-frame with every `fps` and the frame rates 24, 25 and 30: the
`int` arithmetic is then exact, since once `f` is in `0 .. fpd-1` every quotient and
remainder taken here is between 0 and `f`. For other arguments the code overflows an `int`
or divides by zero (`fps = 0` without drop-frame); there the model follows `Int.tdiv` and
`Int.tmod` without wrapping and says nothing about the code. -/
def hdspe_ltc32_from_frames (frames fps df : Int) : Nat :=
  let fpd := hdspe_ltc_fpd fps df
  let f := Int.tmod frames fpd
  let f := if f < 0 then f + fpd else f
  if ¬ (df ≠ 0) then
    let s := Int.tdiv f fps
    let f := f - s * fps
    let F := Int.tdiv f 10
    let f := f - F * 10
    let m := Int.tdiv s 60
    let s := s - m * 60
    let S := Int.tdiv s 10
    let s := s - S * 10
    let h := Int.tdiv m 60
    let m := m - h * 60
    let M := Int.tdiv m 10
    let m := m - M * 10
    let H := Int.tdiv h 10
    let h := h - H * 10
    ltc32_pack H h M m S s F f
  else
    let H := Int.tdiv f 1078920
    let f := f - H * 1078920
    let h := Int.tdiv f 107892
    let f := f - h * 107892
    let M := Int.tdiv f 17982
    let f := f - M * 17982
    if f < 1800 then
      let m := 0
      let S := Int.tdiv f 300
      let f := f - S * 300
      let s := Int.tdiv f 30
      let f := f - s * 30
      let F := Int.tdiv f 10
      let f := f - F * 10
      ltc32_pack H h M m S s F f
    else
      let f := f - 1800
      let m := Int.tdiv f 1798
      let f := f - (m * 1798 - 2)
      let m := m + 1
      let S := Int.tdiv f 300
      let f := f - S * 300
      let s := Int.tdiv f 30
      let f := f - s * 30
      let F := Int.tdiv f 10
      let f := f - F * 10
      ltc32_pack H h M m S s F f

/-- Model of `hdspe_ltc32_decr`: decrement a 32-bit LTC code by one frame. The nested
conditionals follow the source; each conditional yields the `tco` built so far
together with the locals that the source assigns inside it and reads after it. -/
def hdspe_ltc32_decr (tci : Nat) (fps df : Int) : Nat :=
  let f : Int := ((tci &&& 0xf : Nat) : Int)
  let f : Int := f - 1
  let f : Int :=
    if df ≠ 0 ∧ f < 2 ∧ (tci &&& 0x00007ff0) = 0 ∧ (tci &&& 0x000f0000) ≠ 0 then f - 2 else f
  let (tco, f) : Nat × Int :=
    if f < 0 then
      let F : Int := ((((tci >>> 4) &&& 0x3 : Nat) : Int)) - 1
      let f : Int := 9
      let (tco, F, f) : Nat × Int × Int :=
        if F < 0 then
          let s : Int := ((((tci >>> 8) &&& 0xf : Nat) : Int)) - 1
          let F : Int := Int.tdiv (fps - 1) 10
          let f : Int := fps - 1 - F * 10
          let (tco, s) : Nat × Int :=
            if s < 0 then
              let S : Int := ((((tci >>> 12) &&& 0x7 : Nat) : Int)) - 1
              let s : Int := 9
              let (tco, S) : Nat × Int :=
                if S < 0 then
                  let m : Int := ((((tci >>> 16) &&& 0xf : Nat) : Int)) - 1
                  let S : Int := 5
                  let (tco, m) : Nat × Int :=
                    if m < 0 then
                      let M : Int := ((((tci >>> 20) &&& 0x7 : Nat) : Int)) - 1
                      let m : Int := 9
                      let (tco, M) : Nat × Int :=
                        if M < 0 then
                          let h : Int := ((((tci >>> 24) &&& 0xf : Nat) : Int)) - 1
                          let M : Int := 5
                          let (tco, h) : Nat × Int :=
                            if h < 0 then
                              let H : Int := ((((tci >>> 28) &&& 0x3 : Nat) : Int)) - 1
                              let h : Int := 9
                              let (H, h) : Int × Int := if H < 0 then (2, 3) else (H, h)
                              (shl32 H 28, h)
                            else (tci &&& 0x30000000, h)
                          (tco ||| shl32 h 24, M)
                        else (tci &&& 0x3f000000, M)
                      (tco ||| shl32 M 20, m)
                    else (tci &&& 0x3f700000, m)
                  (tco ||| shl32 m 16, S)
                else (tci &&& 0x3f7f0000, S)
              (tco ||| shl32 S 12, s)
            else (tci &&& 0x3f7f7000, s)
          (tco ||| shl32 s 8, F, f)
        else (tci &&& 0x3f7f7f00, F, f)
      (tco ||| shl32 F 4, f)
    else (tci &&& 0x3f7f7f30, f)
  tco ||| toU32 f

/-- Model of `hdspe_ltc32_incr`: increment a 32-bit LTC code by one frame. All locals of
the source stay between 0 and `2^30`, so they are natural numbers here; each
conditional yields the `tco` built so far together with the locals that the
source assigns inside it and reads after it (`f` because of the drop-frame
skip `if (df) f = 2`). -/
def hdspe_ltc32_incr (tci : Nat) (fps df : Int) : Nat :=
  let f : Nat := (tci >>> 0) &&& 0xf
  let F : Nat := (tci >>> 4) &&& 0x3
  let f : Nat := f + 1
  let (F, f) : Nat × Nat := if f ≥ 10 then (F + 1, 0) else (F, f)
  let (tco, F, f) : Nat × Nat × Nat :=
    if ((10 * F + f : Nat) : Int) ≥ fps then
      let s : Nat := ((tci >>> 8) &&& 0xf) + 1
      let F : Nat := 0
      let f : Nat := 0
      let (tco, s, f) : Nat × Nat × Nat :=
        if s ≥ 10 then
          let S : Nat := ((tci >>> 12) &&& 0x7) + 1
          let s : Nat := 0
          let (tco, S, f) : Nat × Nat × Nat :=
            if S ≥ 6 then
              let m : Nat := ((tci >>> 16) &&& 0xf) + 1
              let S : Nat := 0
              let (tco, m, f) : Nat × Nat × Nat :=
                if m ≥ 10 then
                  let M : Nat := ((tci >>> 20) &&& 0x7) + 1
                  let m : Nat := 0
                  let (tco, M) : Nat × Nat :=
                    if M ≥ 6 then
                      let h : Nat := ((tci >>> 24) &&& 0xf) + 1
                      let H : Nat := (tci >>> 28) &&& 0x3
                      let M : Nat := 0
                      let (H, h) : Nat × Nat := if h ≥ 10 then (H + 1, 0) else (H, h)
                      let (H, h) : Nat × Nat := if 10 * H + h ≥ 24 then (0, 0) else (H, h)
                      (0 ||| ((H <<< 28) ||| (h <<< 24)), M)
                    else (tci &&& 0x3f000000, M)
                  (tco ||| (M <<< 20), m, f)
                else (tci &&& 0x3f700000, m, if df ≠ 0 then 2 else f)
              (tco ||| (m <<< 16), S, f)
            else (tci &&& 0x3f7f0000, S, f)
          (tco ||| (S <<< 12), s, f)
        else (tci &&& 0x3f7f7000, s, f)
      (tco ||| (s <<< 8), F, f)
    else (tci &&& 0x3f7f7f00, F, f)
  tco ||| ((F <<< 4) ||| (f <<< 0))

/-- Model of `hdspe_ltc32_running`: LTC running direction. `ltc1+1` is `u32` arithmetic. -/
def hdspe_ltc32_running (ltc1 ltc2 : Nat) (fps df : Int) : Int :=
  if (((ltc1 + 1) % 4294967296) &&& 0x3f7f7f3f) = (ltc2 &&& 0x3f7f7f3f) ∨
      hdspe_ltc32_cmp (hdspe_ltc32_incr ltc1 fps df) ltc2 = 0 then 1
  else if hdspe_ltc32_cmp (hdspe_ltc32_incr ltc2 fps df) ltc1 = 0 then -1
  else 0

/-- Model of `hdspe_ltc32_add_frames`: add `n` frames. The frame count is converted to
`int` and the sum `frames+n` is 32-bit `int` arithmetic. -/
def hdspe_ltc32_add_frames (n : Int) (ltc : Nat) (fps df : Int) : Nat :=
  let frames : Int := toInt32 (hdspe_ltc32_to_frames ltc fps df)
  hdspe_ltc32_from_frames (wrapInt (frames + n)) fps df

/-- Model of `hdspe_ltc32_diff_frames`: difference of two codes in frames. The model is
the code's result when `fpd` is positive; the sum `diff + fpd` is then exact. -/
def hdspe_ltc32_diff_frames (ltc1 ltc2 : Nat) (fps df : Int) : Nat :=
  let frames1 : Int := toInt32 (hdspe_ltc32_to_frames ltc1 fps df)
  let frames2 : Int := toInt32 (hdspe_ltc32_to_frames ltc2 fps df)
  let diff : Int := wrapInt (frames1 - frames2)
  let fpd : Int := hdspe_ltc_fpd fps df
  let diff : Int := Int.tmod diff fpd
  toU32 (if diff < 0 then diff + fpd else diff)

/-! ## Specification-level notions used to state the properties -/

/-- The four supported frame-rate contexts: 24, 25, 30 fps and 30 fps drop-frame. -/
def LtcContext (fps df : Int) : Prop :=
  (fps = 24 ∧ df = 0) ∨ (fps = 25 ∧ df = 0) ∨ (fps = 30 ∧ df = 0) ∨ (fps = 30 ∧ df = 1)

/-- The quadruple `h:m:s:f` is a valid time of day in the context `(fps, df)`:
the fields are in range and, in drop-frame, frames 0 and 1 of the first second
of a minute that is not a multiple of ten do not exist (the loop of
`test_format`). -/
def ValidHMSF (fps df h m s f : Int) : Prop :=
  0 ≤ h ∧ h < 24 ∧ 0 ≤ m ∧ m < 60 ∧ 0 ≤ s ∧ s < 60 ∧ 0 ≤ f ∧ f < fps ∧
    (df ≠ 0 → ¬ (s = 0 ∧ f < 2 ∧ m % 10 ≠ 0))

/-- The value of the packed BCD code of `h:m:s:f` as a sum of its eight digit
fields (no flag bits). -/
def tcode (h m s f : Nat) : Nat :=
  (h / 10) * 268435456 + (h % 10) * 16777216 + (m / 10) * 1048576 + (m % 10) * 65536
    + (s / 10) * 4096 + (s % 10) * 256 + (f / 10) * 16 + f % 10

/-- Validity of `h:m:s:f` for natural numbers, with `fps` a natural number and
the drop-frame flag a proposition. -/
def ValidN (fps : Nat) (drop : Prop) (h m s f : Nat) : Prop :=
  h < 24 ∧ m < 60 ∧ s < 60 ∧ f < fps ∧ (drop → ¬ (s = 0 ∧ f < 2 ∧ m % 10 ≠ 0))

/-- Frames since midnight of `h:m:s:f`, non-drop-frame. -/
def frameNdf (fps h m s f : Nat) : Nat := ((h * 60 + m) * 60 + s) * fps + f

/-- Frames since midnight of `h:m:s:f`, 30 fps drop-frame: two frame numbers are
skipped in every minute that is not a multiple of ten. -/
def frameDf (h m s f : Nat) : Nat :=
  h * 107892 + (m / 10) * 17982 + (m % 10) * 1798 + s * 30 + f

/-- The time of day one frame after `h:m:s:f`: the next frame number, carrying
into seconds, minutes and hours, skipping frame numbers 0 and 1 at the start of
a drop-frame minute that is not a multiple of ten, and wrapping at midnight. -/
def nextN (fps : Nat) (drop : Prop) [Decidable drop] (h m s f : Nat) : Nat × Nat × Nat × Nat :=
  if f + 1 < fps then (h, m, s, f + 1)
  else if s + 1 < 60 then (h, m, s + 1, 0)
  else if m + 1 < 60 then (h, m + 1, 0, if drop ∧ (m + 1) % 10 ≠ 0 then 2 else 0)
  else if h + 1 < 24 then (h + 1, 0, 0, 0)
  else (0, 0, 0, 0)

/-- The time of day one frame before `h:m:s:f`, wrapping at midnight; in
drop-frame the frame before `m:00:02` of a minute that is not a multiple of ten
is `59:29` of the minute before. -/
def prevN (fps : Nat) (drop : Prop) [Decidable drop] (h m s f : Nat) : Nat × Nat × Nat × Nat :=
  if 1 ≤ f ∧ ¬ (drop ∧ f < 3 ∧ s = 0 ∧ m % 10 ≠ 0) then (h, m, s, f - 1)
  else if 1 ≤ s then (h, m, s - 1, fps - 1)
  else if 1 ≤ m then (h, m - 1, 59, fps - 1)
  else if 1 ≤ h then (h - 1, 59, 59, fps - 1)
  else (23, 59, 59, fps - 1)

/-- The time of day of drop-frame frame count `k` (below one day): hours from
the 107892 frames of an hour, the ten-minute block from its 17982 frames, and
inside a block a first minute of 1800 frames followed by nine minutes of 1798
frames whose frame numbers start at 2. -/
def hmsfDf (k : Nat) : Nat × Nat × Nat × Nat :=
  if k % 1078920 % 107892 % 17982 < 1800 then
    (k / 1078920 * 10 + k % 1078920 / 107892, k % 1078920 % 107892 / 17982 * 10,
      k % 1078920 % 107892 % 17982 / 300 * 10 + k % 1078920 % 107892 % 17982 % 300 / 30,
      k % 1078920 % 107892 % 17982 % 300 % 30)
  else
    (k / 1078920 * 10 + k % 1078920 / 107892,
      k % 1078920 % 107892 / 17982 * 10 + ((k % 1078920 % 107892 % 17982 - 1800) / 1798 + 1),
      ((k % 1078920 % 107892 % 17982 - 1800) % 1798 + 2) / 300 * 10
        + ((k % 1078920 % 107892 % 17982 - 1800) % 1798 + 2) % 300 / 30,
      ((k % 1078920 % 107892 % 17982 - 1800) % 1798 + 2) % 300 % 30)

/-- The supported contexts, with `fps` a natural number. -/
def CtxN (fps : Nat) (df : Int) : Prop :=
  (fps = 24 ∨ fps = 25 ∨ fps = 30) ∧ (df ≠ 0 → fps = 30)

/-- Frames per day as a natural number. -/
def fpdN (fps : Nat) (df : Int) : Nat := if df ≠ 0 then 2589408 else 86400 * fps

/-- Frames since midnight of `h:m:s:f` in the context `(fps, df)`. -/
def frameN (fps : Nat) (df : Int) (h m s f : Nat) : Nat :=
  if df ≠ 0 then frameDf h m s f else frameNdf fps h m s f

/-- The time of day of frame count `k` in the context `(fps, df)`. -/
def hmsfOf (fps : Nat) (df : Int) (k : Nat) : Nat × Nat × Nat × Nat :=
  if df ≠ 0 then hmsfDf k else (k / fps / 60 / 60, k / fps / 60 % 60, k / fps % 60, k % fps)

/-- The four units nibbles of a 32-bit LTC code (bits 0-3, 8-11, 16-19 and 24-27) are
decimal digits. -/
def BcdClean (x : Nat) : Prop :=
  (x >>> 0) &&& 0xf ≤ 9 ∧ (x >>> 8) &&& 0xf ≤ 9 ∧ (x >>> 16) &&& 0xf ≤ 9 ∧ (x >>> 24) &&& 0xf ≤ 9

/-- Composition of `hdspe_ltc32_compose` after `hdspe_ltc32_parse`. -/
def compose_parse (x : Nat) : Nat :=
  hdspe_ltc32_compose (hdspe_ltc32_parse x).1 (hdspe_ltc32_parse x).2.1
    (hdspe_ltc32_parse x).2.2.1 (hdspe_ltc32_parse x).2.2.2

/-- Chronological order of two times of day: lexicographic order of hours, minutes,
seconds and frame numbers. -/
def LexLt (h m s f h2 m2 s2 f2 : Nat) : Prop :=
  h < h2 ∨ (h = h2 ∧ (m < m2 ∨ (m = m2 ∧ (s < s2 ∨ (s = s2 ∧ f < f2)))))

/-! ## The TCO module: LTC input rate estimator and LTC output scheduler (`hdspe_tco.c`)

A `u64` is a `Nat` below `2^64`; `u64` arithmetic is reduced modulo `2^64`. -/

/-- Conversion of an integer value to `u64`: the value modulo `2^64`. -/
def toU64 (i : Int) : Nat := (i % 18446744073709551616).toNat

/-- Conversion of a `u64` to a signed 64-bit integer (two's complement). -/
def toInt64 (n : Nat) : Int :=
  if n % 18446744073709551616 < 9223372036854775808 then
    ((n % 18446744073709551616 : Nat) : Int)
  else ((n % 18446744073709551616 : Nat) : Int) - 18446744073709551616

/-- The constant `LTC_CACHE_SIZE` of `hdspe_core.h`. -/
def LTC_CACHE_SIZE : Nat := 60

/-- The fields of `struct hdspe_tco` (`hdspe_core.h`) that the LTC input estimator and
the LTC output scheduler read and write. The array `ltc_duration[LTC_CACHE_SIZE]` is a
function of the slot index. -/
structure hdspe_tco where
  -- Index of the LTC frame rate (`enum hdspe_ltc_frame_rate`), 0 .. 3.
  ltc_fps : Nat
  -- Drop-frame setting (`enum hdspe_bool`).
  ltc_drop : Nat
  -- Requested LTC output start time code, `0xffffffff` when no request is pending.
  ltc_out : Nat
  -- Frame count at which LTC output shall start (`u64`).
  ltc_out_frame_count : Nat
  -- Output time code was handed to the hardware in this period.
  ltc_set : Bool
  -- LTC output is running.
  ltc_run : Bool
  -- A new LTC frame was announced since the last period interrupt.
  ltc_changed : Bool
  -- Last LTC input time code (`u32`).
  ltc_in : Nat
  -- The frame counter at the start of the current period (`u64`).
  ltc_time : Nat
  -- Frame count at the start of the current LTC input frame (`u64`).
  ltc_in_frame_count : Nat
  -- Time of the previous LTC frame announcement in ns (`u64`), 0 when there is none.
  prev_ltc_time : Nat
  -- Sum of the entries of `ltc_duration` (`u64`).
  ltc_duration_sum : Nat
  -- Ring buffer of the last `LTC_CACHE_SIZE` frame durations in ns (`u32` each).
  ltc_duration : Nat → Nat
  -- Number of LTC frames announced (`u32`).
  ltc_count : Nat
  -- Estimated input pull factor (`u32`).
  ltc_in_pullfac : Nat
  -- Pull factor at the previous estimate (`u32`).
  last_ltc_in_pullfac : Nat

/-- The state that `kzalloc` leaves in `hdspe_init_tco`: every field zero. -/
def hdspe_tco_zero : hdspe_tco :=
  { ltc_fps := 0, ltc_drop := 0, ltc_out := 0, ltc_out_frame_count := 0, ltc_set := false,
    ltc_run := false, ltc_changed := false, ltc_in := 0, ltc_time := 0,
    ltc_in_frame_count := 0, prev_ltc_time := 0, ltc_duration_sum := 0,
    ltc_duration := fun _ => 0, ltc_count := 0, ltc_in_pullfac := 0,
    last_ltc_in_pullfac := 0 }

/-- The value of the local `newtc` of `hdspe_tco_mtc`: the MIDI message `buf` of `count`
bytes is a full time code message, or a quarter frame message with piece number 0 or 4.
Reading `buf[i]` is `buf.getD i 0`. -/
def mtc_newtc (buf : List Nat) (count : Int) : Bool :=
  let newtc : Bool :=
    if count = 10 ∧ buf.getD 0 0 = 0xf0 ∧ buf.getD 1 0 = 0x7f ∧ buf.getD 2 0 = 0x7f ∧
        buf.getD 3 0 = 0x01 ∧ buf.getD 4 0 = 0x01 ∧ buf.getD 9 0 = 0xf7 then true
    else false
  if count = 2 ∧ buf.getD 0 0 = 0xf1 then
    let piecenr := (buf.getD 1 0 >>> 4) &&& 0xf
    decide (piecenr = 0 ∨ piecenr = 4)
  else newtc

/-- Model of `hdspe_tco_mtc`: on a new-frame message at time `now` (the value of
`ktime_get_real_ns()`, a `u64`), the duration since the previous announcement replaces the
ring slot `ltc_count % LTC_CACHE_SIZE` and the running sum is updated; the subtraction
and the addition on `ltc_duration_sum` are `u64` arithmetic and the stored duration is
the `u32` truncation of `now - prev_ltc_time`. -/
def hdspe_tco_mtc (c : hdspe_tco) (buf : List Nat) (count : Int) (now : Nat) : hdspe_tco :=
  if mtc_newtc buf count then
    let c1 : hdspe_tco :=
      if c.prev_ltc_time > 0 then
        let n := c.ltc_count % LTC_CACHE_SIZE
        let sum1 := (c.ltc_duration_sum + 18446744073709551616 - c.ltc_duration n)
          % 18446744073709551616
        let d := ((now + 18446744073709551616 - c.prev_ltc_time) % 18446744073709551616)
          % 4294967296
        let sum2 := (sum1 + d) % 18446744073709551616
        { c with ltc_duration_sum := sum2,
                 ltc_duration := fun i => if i = n then d else c.ltc_duration i }
      else c
    { c1 with prev_ltc_time := now, ltc_count := (c1.ltc_count + 1) % 4294967296,
              ltc_changed := true }
  else c

/-- Model of the estimate `realfps1k` in `hdspe_tco_period_elapsed`, for the running sum
`ltc_duration_sum` and the frame rate `fps` read from the TCO:
`sum == 0 ? fps*1000 : 1000000000 / (u32)div_u64(sum, LTC_CACHE_SIZE*1000)`.
The result is `none` when the divisor is zero. -/
def period_elapsed_realfps1k (ltc_duration_sum fps : Nat) : Option Int :=
  if ltc_duration_sum = 0 then some (wrapInt ((fps : Int) * 1000))
  else
    let d := (ltc_duration_sum / (LTC_CACHE_SIZE * 1000)) % 4294967296
    if d = 0 then none else some (toInt32 (1000000000 / d))

/-- Model of the value stored in `ltc_in_pullfac` by `hdspe_tco_period_elapsed`:
`(realfps1k + fps/2) / fps` in `int` arithmetic, stored as `u32`. The result is `none`
when a divisor is zero. -/
def period_elapsed_pullfac (ltc_duration_sum fps : Nat) : Option Nat :=
  match period_elapsed_realfps1k ltc_duration_sum fps with
  | none => none
  | some realfps1k =>
    if fps = 0 then none
    else some (toU32 (Int.tdiv (wrapInt (realfps1k + Int.tdiv (fps : Int) 2)) (fps : Int)))

/-- Model of the table `hdspe_fps_tab`. -/
def hdspe_fps_tab (i : Nat) : Nat := [24, 25, 30, 30].getD i 0

/-- Model of the table `hdspe_scale_tab`. -/
def hdspe_scale_tab (i : Nat) : Nat := [1000, 1000, 999, 1000].getD i 0

/-- Model of `hdspe_ltc_offset`: offsets needed when starting time code, for the frame
rate `fps` and the frequency class `f` (`enum hdspe_freq`). -/
def hdspe_ltc_offset (fps f : Nat) : Nat :=
  if fps = 24 then (if f = 2 then 13 else if f = 3 then 16 else 0)
  else if fps = 25 then (if f = 2 then 15 else if f = 3 then 16 else 0)
  else if fps = 30 then (if f = 2 then 13 else if f = 3 then 14 else 0)
  else 0

/-- Model of `hdspe_sample_rate_freq` (`hdspe_common.c`): frequency class of a sample
rate; `HDSPE_FREQ_32KHZ`, `HDSPE_FREQ_44_1KHZ` and `HDSPE_FREQ_48KHZ` are 1, 2 and 3. -/
def hdspe_sample_rate_freq (rate : Nat) : Nat :=
  let (rate, speed_coef) :=
    if rate ≥ 112000 then (rate / 4, 6)
    else if rate ≥ 56000 then (rate / 2, 3)
    else (rate, 0)
  let f := if rate < 38050 then 1 else if rate < 46050 then 2 else 3
  f + speed_coef

/-- Model of `hdspe_speed_factor` (`hdspe_common.c`), from the quad speed and double
speed bits of the control register. -/
def hdspe_speed_factor (qs ds : Bool) : Nat := if qs then 4 else if ds then 2 else 1

/-- Model of `hdspe_tco_get_sample_rate`, from the 48 kHz bit of TCO register 2. -/
def hdspe_tco_get_sample_rate (tco_48KHz : Bool) : Nat := if tco_48KHz then 48000 else 44100

/-- What `hdspe_tco_start_timecode` reads outside `struct hdspe_tco`. -/
structure tco_start_env where
  -- The value of `hdspe->frame_count`, the current period frame counter (`u64`).
  frame_count : Nat
  -- The value of `hdspe_period_size(hdspe)` (`u32`).
  period_size : Nat
  -- The 48 kHz bit of TCO register 2.
  tco_48KHz : Bool
  -- The quad speed bit of the control register.
  qs : Bool
  -- The double speed bit of the control register.
  ds : Bool
  -- Seconds of the wall clock (`ktime_get_real_ts64`).
  tv_sec : Int
  -- Nanoseconds of the wall clock.
  tv_nsec : Int
  -- Hour, minute and second that the kernel's `time64_to_tm` gives for a time in
  -- seconds.
  tm : Int → Int × Int × Int

/-- The result of `hdspe_tco_start_timecode`: its locals at the call of
`hdspe_tco_set_timecode`, and `struct hdspe_tco` when it returns. -/
structure tco_start_result where
  -- Frame duration in samples, `sr * 1000 / (fps * scale)`.
  fs : Nat
  -- Number of LTC frames by which the request is moved.
  n : Int
  -- The local `ltc.fc`, the frame count at which the staged time code starts.
  fc : Nat
  -- The local `ltc.tc`, the staged time code.
  tc : Nat
  -- The local `offset` (`s32`), handed to `hdspe_tco_set_timecode` as its `u16`
  -- parameter.
  offset : Int
  -- The out-of-range warning is issued.
  warn : Bool
  -- The fields of `struct hdspe_tco` on return.
  state : hdspe_tco

/-- Model of `hdspe_tco_start_timecode`. `cfc` and `ltc.fc` are `u64`, `ps` and `fs` are
`u32`, `n` is `int` and `offset` is `s32`: `2 * ps` and `n * fs` are `u32` arithmetic,
sums and differences with `cfc` or `ltc.fc` are `u64` arithmetic, and the quotients
assigned to `n` are `u64` values converted to `int`. The time code is then handed to the
hardware (`hdspe_tco_set_timecode` sets `ltc_set`), the request is cleared and LTC output
runs. The table index `ltc_fps` is 0 .. 3, which makes `fs` positive. -/
def hdspe_tco_start_timecode (c : hdspe_tco) (env : tco_start_env) : tco_start_result :=
  let cfc := env.frame_count
  let ps := env.period_size
  let sr := hdspe_tco_get_sample_rate env.tco_48KHz
  let speedfactor := hdspe_speed_factor env.qs env.ds
  let tc := c.ltc_out
  let fc := c.ltc_out_frame_count
  let fps := hdspe_fps_tab c.ltc_fps
  let scale := hdspe_scale_tab c.ltc_fps
  let df : Int := if c.ltc_drop ≠ 0 then 1 else 0
  let fc := fc / speedfactor
  let cfc := cfc / speedfactor
  let ps := ps / speedfactor
  let fs := ((sr * 1000) % 4294967296) / (fps * scale)
  let (tc, fc) :=
    if tc &&& 0x3f7f7f3f = 0x3f7f7f3f then
      let t := env.tm (toInt64 (toU64 (env.tv_sec + (fc : Int))))
      (hdspe_ltc32_compose t.1 t.2.1 t.2.2 0,
        toU64 ((cfc : Int) - Int.tdiv env.tv_nsec ((1000000000 / sr : Nat) : Int)))
    else (tc, fc)
  let fc := if fc = 18446744073709551615 then cfc else fc
  let horizon := (cfc + (2 * ps) % 4294967296) % 18446744073709551616
  let n : Int :=
    if fc > (horizon + fs) % 18446744073709551616 then
      toInt32 (toU64 (-(((fc + 18446744073709551616 - horizon) % 18446744073709551616 : Nat)
        : Int)) / fs)
    else if fc < horizon then
      toInt32 ((((horizon + 18446744073709551616 - fc) % 18446744073709551616) / fs + 1)
        % 18446744073709551616)
    else 0
  let fc := (fc + (toU32 n * fs) % 4294967296) % 18446744073709551616
  let tc := hdspe_ltc32_add_frames n tc (fps : Int) df
  let offset : Int := toInt32 ((fc + 18446744073709551616 - (cfc + ps) % 18446744073709551616)
    % 18446744073709551616)
  let offset : Int :=
    wrapInt (offset - (hdspe_ltc_offset fps (hdspe_sample_rate_freq sr) : Int))
  let warn : Bool := decide (offset < 0 ∨ toU32 offset &&& 0xffffc000 ≠ 0)
  { fs := fs, n := n, fc := fc, tc := tc, offset := offset, warn := warn,
    state := { c with ltc_set := true, ltc_out := 0xffffffff, ltc_run := true } }

/-- A call of `hdspe_tco_mtc`: the MIDI message and the time of the call. -/
structure mtc_event where
  -- The bytes of the message.
  buf : List Nat
  -- The length handed to `hdspe_tco_mtc`.
  count : Int
  -- The value of `ktime_get_real_ns()` at the call.
  now : Nat

/-- The state after a sequence of calls of `hdspe_tco_mtc`. -/
def run_mtc (c : hdspe_tco) (evs : List mtc_event) : hdspe_tco :=
  evs.foldl (fun c e => hdspe_tco_mtc c e.buf e.count e.now) c

/-- Sum of the slots `0 .. k-1` of a ring buffer. -/
def sumTo (d : Nat → Nat) : Nat → Nat
  | 0 => 0
  | k + 1 => sumTo d k + d k

/-- A quarter frame message with piece number 0, announcing a new frame at time `now`. -/
def quarter_frame (now : Nat) : mtc_event := { buf := [0xf1, 0x00], count := 2, now := now }

/-- The estimator invariant: the running sum is the sum of the ring buffer, and the
entries and the frame counter are 32-bit values. -/
def EstInv (c : hdspe_tco) : Prop :=
  c.ltc_duration_sum = sumTo c.ltc_duration LTC_CACHE_SIZE ∧
    (∀ i, c.ltc_duration i < 4294967296) ∧ c.ltc_count < 4294967296 ∧
    c.prev_ltc_time < 18446744073709551616


/-- A pending request to start LTC output at 01:00:00:00 (30 fps, no drop-frame) at frame
count `fc`. -/
def request_at (fc : Nat) : hdspe_tco :=
  { hdspe_tco_zero with ltc_fps := 3, ltc_out := 0x01000000, ltc_out_frame_count := fc }

/-- Single speed at 48 kHz with the frame counter at `cfc` and period size `ps`; the wall
clock is not read for a request with an explicit time code. -/
def env_48k (cfc ps : Nat) : tco_start_env :=
  { frame_count := cfc, period_size := ps, tco_48KHz := true, qs := false, ds := false,
    tv_sec := 0, tv_nsec := 0, tm := fun _ => (0, 0, 0) }

/-- The 32-bit code `x` is a valid time code of the context `(fps, df)`: it has no bit
outside the value mask `0x3f7f7f3f`, its units nibbles are decimal digits, and it parses
to a valid time of day. -/
def ValidCode (fps df : Int) (x : Nat) : Prop :=
  x &&& 0x3f7f7f3f = x ∧ BcdClean x ∧
    ValidHMSF fps df (hdspe_ltc32_parse x).1 (hdspe_ltc32_parse x).2.1
      (hdspe_ltc32_parse x).2.2.1 (hdspe_ltc32_parse x).2.2.2

/-- The local `cfc` of `hdspe_tco_start_timecode` after the reduction to single speed. -/
def start_cfc (env : tco_start_env) : Nat :=
  env.frame_count / hdspe_speed_factor env.qs env.ds

/-- The local `ps` of `hdspe_tco_start_timecode` after the reduction to single speed. -/
def start_ps (env : tco_start_env) : Nat :=
  env.period_size / hdspe_speed_factor env.qs env.ds

/-- The local `fs` of `hdspe_tco_start_timecode`: `sr * 1000 / (ltc.fps * ltc.scale)`. -/
def start_fs (c : hdspe_tco) (env : tco_start_env) : Nat :=
  ((hdspe_tco_get_sample_rate env.tco_48KHz * 1000) % 4294967296)
    / (hdspe_fps_tab c.ltc_fps * hdspe_scale_tab c.ltc_fps)

/-- The locals `ltc.tc` and `ltc.fc` of `hdspe_tco_start_timecode` after the two
sentinels, real clock time and 'now', are resolved. -/
def start_target (c : hdspe_tco) (env : tco_start_env) : Nat × Nat :=
  let cfc := start_cfc env
  let sr := hdspe_tco_get_sample_rate env.tco_48KHz
  let tc := c.ltc_out
  let fc := c.ltc_out_frame_count / hdspe_speed_factor env.qs env.ds
  let (tc, fc) :=
    if tc &&& 0x3f7f7f3f = 0x3f7f7f3f then
      let t := env.tm (toInt64 (toU64 (env.tv_sec + (fc : Int))))
      (hdspe_ltc32_compose t.1 t.2.1 t.2.2 0,
        toU64 ((cfc : Int) - Int.tdiv env.tv_nsec ((1000000000 / sr : Nat) : Int)))
    else (tc, fc)
  (tc, if fc = 18446744073709551615 then cfc else fc)

/-- The number of frames `n` that `hdspe_tco_start_timecode` chooses for the current
frame count `cfc`, the period size `ps`, the frame size `fs` and the resolved target
frame `fc`. -/
def start_n (cfc ps fs fc : Nat) : Int :=
  let horizon := (cfc + (2 * ps) % 4294967296) % 18446744073709551616
  if fc > (horizon + fs) % 18446744073709551616 then
    toInt32 (toU64 (-(((fc + 18446744073709551616 - horizon) % 18446744073709551616 : Nat)
      : Int)) / fs)
  else if fc < horizon then
    toInt32 ((((horizon + 18446744073709551616 - fc) % 18446744073709551616) / fs + 1)
      % 18446744073709551616)
  else 0

/-- The statement `ltc.fc += n * fs` of `hdspe_tco_start_timecode`. -/
def start_fc (fs fc : Nat) (n : Int) : Nat :=
  (fc + (toU32 n * fs) % 4294967296) % 18446744073709551616

/-- The local `offset` of `hdspe_tco_start_timecode` for the compensated target frame
`fc` and the start offset `coff` of `hdspe_ltc_offset`. -/
def start_offset (cfc ps fc coff : Nat) : Int :=
  wrapInt (toInt32 ((fc + 18446744073709551616 - (cfc + ps) % 18446744073709551616)
    % 18446744073709551616) - (coff : Int))

/-- Model of `struct hdspe_ltc` (`hdspe_tco.c`): a time code and its status. -/
structure hdspe_ltc where
  -- Frame count at the start of the LTC frame (`u64`).
  fc : Nat
  -- The 32-bit LTC code.
  tc : Nat
  -- 999 or 1000.
  scale : Nat
  -- 24, 25 or 30.
  fps : Nat
  -- Drop-frame format.
  df : Bool

/-- What `hdspe_tco_period_elapsed` reads outside `struct hdspe_tco`. -/
structure tco_period_env where
  -- What `hdspe_tco_start_timecode` reads; `frame_count` is also stored in `ltc_time`.
  start : tco_start_env
  -- TCO register 0 as read by `hdspe_tco_read_ltc`: the incoming time code.
  tco0 : Nat
  -- TCO register 1 as read by `hdspe_tco_read_ltc`: offset, frame rate and drop-frame flag.
  tco1 : Nat

/-- Model of `hdspe_tco_read_ltc`: the incoming time code, its frame count
`frame_count - offset * speed_factor` (the product is `u32`, the difference `u64`
arithmetic), and the frame rate and drop-frame flag of TCO register 1
(`HDSPE_TCO1_LTC_Format_MSB|LSB` is `0xc00`, `HDSPE_TCO1_set_drop_frame_flag` is `0x200`). -/
def hdspe_tco_read_ltc (env : tco_period_env) : hdspe_ltc :=
  let tco1 := env.tco1
  let offset := ((tco1 >>> 16) &&& 0x7F) ||| ((tco1 >>> 17) &&& 0x3F80)
  let framerate := (tco1 &&& 0xc00) >>> 10
  { fc := (env.start.frame_count + 18446744073709551616
        - (offset * hdspe_speed_factor env.start.qs env.start.ds) % 4294967296)
        % 18446744073709551616,
    tc := env.tco0,
    scale := hdspe_scale_tab framerate,
    fps := hdspe_fps_tab framerate,
    df := decide ((tco1 &&& 0x200) >>> 9 ≠ 0) }

/-- Model of `hdspe_tco_reset_timecode` on `struct hdspe_tco`: the staged time code was
picked up by the hardware. -/
def hdspe_tco_reset_timecode (c : hdspe_tco) : hdspe_tco := { c with ltc_set := false }

/-- Model of `hdspe_tco_period_elapsed`, invoked at every audio interrupt. The result is
`none` when the pull factor estimate divides by zero. -/
def hdspe_tco_period_elapsed (c : hdspe_tco) (env : tco_period_env) : Option hdspe_tco :=
  let c : hdspe_tco := { c with ltc_time := env.start.frame_count }
  let r : Option hdspe_tco :=
    if c.ltc_changed then
      let ltc := hdspe_tco_read_ltc env
      let tc := hdspe_ltc32_incr ltc.tc (ltc.fps : Int) (if ltc.df then 1 else 0)
      let c : hdspe_tco :=
        { c with ltc_in := tc, ltc_in_frame_count := ltc.fc, ltc_changed := false }
      match period_elapsed_pullfac c.ltc_duration_sum ltc.fps with
      | none => none
      | some pullfac => some { c with ltc_in_pullfac := pullfac, last_ltc_in_pullfac := pullfac }
    else some c
  match r with
  | none => none
  | some c =>
    let c : hdspe_tco := if c.ltc_set then hdspe_tco_reset_timecode c else c
    let c : hdspe_tco :=
      if c.ltc_out ≠ 0xffffffff then (hdspe_tco_start_timecode c env.start).state else c
    some c

/-- Model of `hdspe_update_frame_count` (`hdspe_pcm.c`): the frame counter
`(u64)hw_pointer_wrap_count * hdspe_hw_buffer_size() + (hw_pointer & ~(period_size - 1))`
for the `u32` values `hw_pointer_wrap_count`, `hw_pointer` and `period_size`; the buffer
size is `(1<<16)/4`. -/
def hdspe_update_frame_count (hw_pointer_wrap_count hw_pointer period_size : Nat) : Nat :=
  (hw_pointer_wrap_count * 16384
    + (hw_pointer &&& (4294967295 - (period_size + 4294967295) % 4294967296)))
    % 18446744073709551616

/-- Single speed at 48 kHz or, with `ds`, double speed, or with `qs`, quad speed, with
the frame counter at `cfc` and period size `ps`. -/
def env_48k_speed (cfc ps : Nat) (qs ds : Bool) : tco_start_env :=
  { frame_count := cfc, period_size := ps, tco_48KHz := true, qs := qs, ds := ds,
    tv_sec := 0, tv_nsec := 0, tm := fun _ => (0, 0, 0) }

/-- The number of frames by which a target frame `fc` that is not later than the window
is moved: none for a target at or after the horizon `cfc + 2 * ps`, and otherwise one more
than the whole frames between the target and the horizon. -/
def frames_to_horizon (cfc ps fs fc : Nat) : Nat :=
  if fc < cfc + 2 * ps then (cfc + 2 * ps - fc) / fs + 1 else 0

/-- New-frame announcements at the times `t0`, `t0 + d`, ..., `t0 + (k-1) * d`: a source
whose frames arrive every `d` ns. -/
def steady_events (t0 d k : Nat) : List mtc_event :=
  (List.range k).map (fun i => quarter_frame (t0 + i * d))

/-- A period interrupt at 48 kHz single speed at which TCO register 1 reports 30 fps
input (frame-rate field 3) and TCO register 0 reads zero. -/
def period_env_30fps (cfc ps : Nat) : tco_period_env :=
  { start := env_48k cfc ps, tco0 := 0, tco1 := 0xc00 }

/-! ## Bit operations as arithmetic -/

theorem land_div_two_pow (x m k : Nat) : (x &&& m) / 2 ^ k = (x / 2 ^ k) &&& (m / 2 ^ k) := by
  apply Nat.eq_of_testBit_eq
  intro i
  simp only [← Nat.shiftRight_eq_div_pow, Nat.testBit_shiftRight, Nat.testBit_and]

theorem land_mod_two_pow (x m k : Nat) : (x &&& m) % 2 ^ k = (x % 2 ^ k) &&& (m % 2 ^ k) := by
  apply Nat.eq_of_testBit_eq
  intro i
  simp only [Nat.testBit_mod_two_pow, Nat.testBit_and]
  cases decide (i < k) <;> simp

theorem land_split (k x m : Nat) :
    x &&& m = 2 ^ k * ((x / 2 ^ k) &&& (m / 2 ^ k)) + ((x % 2 ^ k) &&& (m % 2 ^ k)) := by
  rw [← land_div_two_pow, ← land_mod_two_pow]
  exact (Nat.div_add_mod _ _).symm

theorem lor_eq_add (k a b : Nat) (ha : a % 2 ^ k = 0) (hb : b < 2 ^ k) : a ||| b = a + b := by
  have h := Nat.mul_add_lt_is_or hb (a / 2 ^ k)
  have e : 2 ^ k * (a / 2 ^ k) = a := by
    have := Nat.div_add_mod a (2 ^ k)
    omega
  rw [e] at h
  exact h.symm

theorem land_field (a b x : Nat) : x &&& ((2 ^ a - 1) * 2 ^ b) = (x / 2 ^ b % 2 ^ a) * 2 ^ b := by
  rw [land_split b x]
  have h1 : (2 ^ a - 1) * 2 ^ b / 2 ^ b = 2 ^ a - 1 := Nat.mul_div_cancel _ (by positivity)
  have h2 : (2 ^ a - 1) * 2 ^ b % 2 ^ b = 0 := Nat.mul_mod_left _ _
  rw [h1, h2, Nat.and_pow_two_sub_one_eq_mod]
  simp [Nat.mul_comm]

theorem land_bytes (x m : Nat) : x &&& m =
    ((x % 256) &&& (m % 256)) + 256 * ((x / 256 % 256) &&& (m / 256 % 256))
    + 65536 * ((x / 65536 % 256) &&& (m / 65536 % 256))
    + 16777216 * ((x / 16777216) &&& (m / 16777216)) := by
  rw [land_split 8 x, land_split 8 (x / 2 ^ 8), land_split 8 (x / 2 ^ 8 / 2 ^ 8)]
  have e1 : x / 2 ^ 8 / 2 ^ 8 = x / 65536 := by omega
  have e2 : x / 2 ^ 8 / 2 ^ 8 / 2 ^ 8 = x / 16777216 := by omega
  have e3 : m / 2 ^ 8 / 2 ^ 8 = m / 65536 := by omega
  have e4 : m / 2 ^ 8 / 2 ^ 8 / 2 ^ 8 = m / 16777216 := by omega
  have e5 : x / 2 ^ 8 % 2 ^ 8 = x / 256 % 256 := by omega
  have e6 : m / 2 ^ 8 % 2 ^ 8 = m / 256 % 256 := by omega
  have e7 : x / 65536 % 2 ^ 8 = x / 65536 % 256 := by omega
  have e8 : m / 65536 % 2 ^ 8 = m / 65536 % 256 := by omega
  have e9 : x % 2 ^ 8 = x % 256 := by omega
  have e10 : m % 2 ^ 8 = m % 256 := by omega
  rw [e2, e1, e4, e3, e5, e6, e7, e8, e9, e10]
  omega

theorem land_00 (y : Nat) : y &&& 0 = 0 := by simp

theorem land_0f (y : Nat) : y &&& 0x0f = y % 16 := Nat.and_pow_two_sub_one_eq_mod y 4

theorem land_03 (y : Nat) : y &&& 0x03 = y % 4 := Nat.and_pow_two_sub_one_eq_mod y 2

theorem land_07 (y : Nat) : y &&& 0x07 = y % 8 := Nat.and_pow_two_sub_one_eq_mod y 3

theorem land_3f (y : Nat) : y &&& 0x3f = y % 64 := Nat.and_pow_two_sub_one_eq_mod y 6

theorem land_7f (y : Nat) : y &&& 0x7f = y % 128 := Nat.and_pow_two_sub_one_eq_mod y 7

theorem land_30 (y : Nat) : y &&& 0x30 = (y / 16 % 4) * 16 := land_field 2 4 y

theorem land_70 (y : Nat) : y &&& 0x70 = (y / 16 % 8) * 16 := land_field 3 4 y

theorem land_f0 (y : Nat) : y &&& 0xf0 = (y / 16 % 16) * 16 := land_field 4 4 y

theorem mask_3f7f7f3f (x : Nat) : x &&& 0x3f7f7f3f =
    x % 64 + 256 * (x / 256 % 128) + 65536 * (x / 65536 % 128)
      + 16777216 * (x / 16777216 % 64) := by
  rw [land_bytes x]
  norm_num [land_00, land_0f, land_03, land_07, land_3f, land_7f, land_30, land_70, land_f0]

theorem mask_3f7f7f30 (x : Nat) : x &&& 0x3f7f7f30 =
    16 * (x / 16 % 4) + 256 * (x / 256 % 128) + 65536 * (x / 65536 % 128)
      + 16777216 * (x / 16777216 % 64) := by
  rw [land_bytes x]
  norm_num [land_00, land_0f, land_03, land_07, land_3f, land_7f, land_30, land_70, land_f0]
  omega

theorem mask_3f7f7f00 (x : Nat) : x &&& 0x3f7f7f00 =
    256 * (x / 256 % 128) + 65536 * (x / 65536 % 128) + 16777216 * (x / 16777216 % 64) := by
  rw [land_bytes x]
  norm_num [land_00, land_0f, land_03, land_07, land_3f, land_7f, land_30, land_70, land_f0]

theorem mask_3f7f7000 (x : Nat) : x &&& 0x3f7f7000 =
    4096 * (x / 4096 % 8) + 65536 * (x / 65536 % 128) + 16777216 * (x / 16777216 % 64) := by
  rw [land_bytes x]
  norm_num [land_00, land_0f, land_03, land_07, land_3f, land_7f, land_30, land_70, land_f0]
  omega

theorem mask_3f7f0000 (x : Nat) : x &&& 0x3f7f0000 =
    65536 * (x / 65536 % 128) + 16777216 * (x / 16777216 % 64) := by
  rw [land_bytes x]
  norm_num [land_00, land_0f, land_03, land_07, land_3f, land_7f, land_30, land_70, land_f0]

theorem mask_3f700000 (x : Nat) : x &&& 0x3f700000 =
    1048576 * (x / 1048576 % 8) + 16777216 * (x / 16777216 % 64) := by
  rw [land_bytes x]
  norm_num [land_00, land_0f, land_03, land_07, land_3f, land_7f, land_30, land_70, land_f0]
  omega

theorem mask_3f000000 (x : Nat) : x &&& 0x3f000000 = 16777216 * (x / 16777216 % 64) := by
  rw [land_bytes x]
  norm_num [land_00, land_0f, land_03, land_07, land_3f, land_7f, land_30, land_70, land_f0]

theorem mask_30000000 (x : Nat) : x &&& 0x30000000 = 268435456 * (x / 268435456 % 4) := by
  rw [land_bytes x]
  norm_num [land_00, land_0f, land_03, land_07, land_3f, land_7f, land_30, land_70, land_f0]
  omega

theorem mask_00007ff0 (x : Nat) : x &&& 0x00007ff0 = 16 * (x / 16 % 2048) := by
  rw [land_bytes x]
  norm_num [land_00, land_0f, land_03, land_07, land_3f, land_7f, land_30, land_70, land_f0]
  omega

theorem mask_000f0000 (x : Nat) : x &&& 0x000f0000 = 65536 * (x / 65536 % 16) := by
  rw [land_bytes x]
  norm_num [land_00, land_0f, land_03, land_07, land_3f, land_7f, land_30, land_70, land_f0]

theorem shr_0 (x : Nat) : x >>> 0 = x := rfl

theorem shr_4 (x : Nat) : x >>> 4 = x / 16 := Nat.shiftRight_eq_div_pow x 4

theorem shr_8 (x : Nat) : x >>> 8 = x / 256 := Nat.shiftRight_eq_div_pow x 8

theorem shr_12 (x : Nat) : x >>> 12 = x / 4096 := Nat.shiftRight_eq_div_pow x 12

theorem shr_16 (x : Nat) : x >>> 16 = x / 65536 := Nat.shiftRight_eq_div_pow x 16

theorem shr_20 (x : Nat) : x >>> 20 = x / 1048576 := Nat.shiftRight_eq_div_pow x 20

theorem shr_24 (x : Nat) : x >>> 24 = x / 16777216 := Nat.shiftRight_eq_div_pow x 24

theorem shr_28 (x : Nat) : x >>> 28 = x / 268435456 := Nat.shiftRight_eq_div_pow x 28

theorem shl_0 (x : Nat) : x <<< 0 = x := rfl

theorem shl_4 (x : Nat) : x <<< 4 = x * 16 := Nat.shiftLeft_eq x 4

theorem shl_8 (x : Nat) : x <<< 8 = x * 256 := Nat.shiftLeft_eq x 8

theorem shl_12 (x : Nat) : x <<< 12 = x * 4096 := Nat.shiftLeft_eq x 12

theorem shl_16 (x : Nat) : x <<< 16 = x * 65536 := Nat.shiftLeft_eq x 16

theorem shl_20 (x : Nat) : x <<< 20 = x * 1048576 := Nat.shiftLeft_eq x 20

theorem shl_24 (x : Nat) : x <<< 24 = x * 16777216 := Nat.shiftLeft_eq x 24

theorem shl_28 (x : Nat) : x <<< 28 = x * 268435456 := Nat.shiftLeft_eq x 28

theorem field_of_parts (P W x hi d lo : Nat) (hx : x = hi * (P * W) + d * P + lo)
    (hlo : lo < P) (hd : d < W) : x / P % W = d := by
  subst hx
  have hP : 0 < P := by omega
  have e : hi * (P * W) + d * P + lo = lo + P * (hi * W + d) := by ring
  rw [e, Nat.add_mul_div_left _ _ hP, Nat.div_eq_of_lt hlo, Nat.zero_add,
    Nat.mul_comm hi W, Nat.mul_add_mod, Nat.mod_eq_of_lt hd]

theorem tcode_fields (h m s f : Nat) (hh : h < 40) (hm : m < 80) (hs : s < 80) (hf : f < 40) :
    tcode h m s f % 16 = f % 10 ∧ tcode h m s f / 16 % 4 = f / 10 ∧
    tcode h m s f / 256 % 16 = s % 10 ∧ tcode h m s f / 4096 % 8 = s / 10 ∧
    tcode h m s f / 65536 % 16 = m % 10 ∧ tcode h m s f / 1048576 % 8 = m / 10 ∧
    tcode h m s f / 16777216 % 16 = h % 10 ∧ tcode h m s f / 268435456 % 4 = h / 10 := by
  refine ⟨?_, ?_, ?_, ?_, ?_, ?_, ?_, ?_⟩
  · have := field_of_parts 1 16 (tcode h m s f) ((h / 10) * 16777216 + (h % 10) * 1048576
      + (m / 10) * 65536 + (m % 10) * 4096 + (s / 10) * 256 + (s % 10) * 16 + (f / 10)) (f % 10) 0
      (by unfold tcode; omega) (by omega) (by omega)
    simpa using this
  · exact field_of_parts 16 4 _ ((h / 10) * 4194304 + (h % 10) * 262144 + (m / 10) * 16384
      + (m % 10) * 1024 + (s / 10) * 64 + (s % 10) * 4) (f / 10) (f % 10)
      (by unfold tcode; omega) (by omega) (by omega)
  · exact field_of_parts 256 16 _ ((h / 10) * 65536 + (h % 10) * 4096 + (m / 10) * 256
      + (m % 10) * 16 + (s / 10)) (s % 10) ((f / 10) * 16 + f % 10)
      (by unfold tcode; omega) (by omega) (by omega)
  · exact field_of_parts 4096 8 _ ((h / 10) * 8192 + (h % 10) * 512 + (m / 10) * 32
      + (m % 10) * 2) (s / 10) ((s % 10) * 256 + (f / 10) * 16 + f % 10)
      (by unfold tcode; omega) (by omega) (by omega)
  · exact field_of_parts 65536 16 _ ((h / 10) * 256 + (h % 10) * 16 + (m / 10)) (m % 10)
      ((s / 10) * 4096 + (s % 10) * 256 + (f / 10) * 16 + f % 10)
      (by unfold tcode; omega) (by omega) (by omega)
  · exact field_of_parts 1048576 8 _ ((h / 10) * 32 + (h % 10) * 2) (m / 10)
      ((m % 10) * 65536 + (s / 10) * 4096 + (s % 10) * 256 + (f / 10) * 16 + f % 10)
      (by unfold tcode; omega) (by omega) (by omega)
  · exact field_of_parts 16777216 16 _ (h / 10) (h % 10)
      ((m / 10) * 1048576 + (m % 10) * 65536 + (s / 10) * 4096 + (s % 10) * 256
        + (f / 10) * 16 + f % 10)
      (by unfold tcode; omega) (by omega) (by omega)
  · exact field_of_parts 268435456 4 _ 0 (h / 10)
      ((h % 10) * 16777216 + (m / 10) * 1048576 + (m % 10) * 65536 + (s / 10) * 4096
        + (s % 10) * 256 + (f / 10) * 16 + f % 10)
      (by unfold tcode; omega) (by omega) (by omega)

theorem tcode_fields2 (h m s f : Nat) (hh : h < 40) (hm : m < 80) (hs : s < 80) (hf : f < 40) :
    tcode h m s f % 64 = f / 10 * 16 + f % 10 ∧
    tcode h m s f / 256 % 128 = s / 10 * 16 + s % 10 ∧
    tcode h m s f / 65536 % 128 = m / 10 * 16 + m % 10 ∧
    tcode h m s f / 16777216 % 64 = h / 10 * 16 + h % 10 ∧
    tcode h m s f / 16 % 2048 = s / 10 * 256 + s % 10 * 16 + f / 10 ∧
    tcode h m s f < 1073741824 := by
  refine ⟨?_, ?_, ?_, ?_, ?_, ?_⟩
  · have := field_of_parts 1 64 (tcode h m s f) ((h / 10) * 4194304 + (h % 10) * 262144 + (m / 10) * 16384
      + (m % 10) * 1024 + (s / 10) * 64 + (s % 10) * 4) (f / 10 * 16 + f % 10) 0
      (by unfold tcode; omega) (by omega) (by omega)
    simpa using this
  · exact field_of_parts 256 128 _ ((h / 10) * 8192 + (h % 10) * 512 + (m / 10) * 32
      + (m % 10) * 2) (s / 10 * 16 + s % 10) ((f / 10) * 16 + f % 10)
      (by unfold tcode; omega) (by omega) (by omega)
  · exact field_of_parts 65536 128 _ ((h / 10) * 32 + (h % 10) * 2) (m / 10 * 16 + m % 10)
      ((s / 10) * 4096 + (s % 10) * 256 + (f / 10) * 16 + f % 10)
      (by unfold tcode; omega) (by omega) (by omega)
  · exact field_of_parts 16777216 64 _ 0 (h / 10 * 16 + h % 10)
      ((m / 10) * 1048576 + (m % 10) * 65536 + (s / 10) * 4096 + (s % 10) * 256
        + (f / 10) * 16 + f % 10)
      (by unfold tcode; omega) (by omega) (by omega)
  · exact field_of_parts 16 2048 _ ((h / 10) * 8192 + (h % 10) * 512 + (m / 10) * 32
      + (m % 10) * 2) (s / 10 * 256 + s % 10 * 16 + f / 10) (f % 10)
      (by unfold tcode; omega) (by omega) (by omega)
  · unfold tcode; omega

theorem lor_add_4 (a b : Nat) (ha : a % 16 = 0) (hb : b < 16) : a ||| b = a + b :=
  lor_eq_add 4 a b ha hb

theorem lor_add_8 (a b : Nat) (ha : a % 256 = 0) (hb : b < 256) : a ||| b = a + b :=
  lor_eq_add 8 a b ha hb

theorem lor_add_12 (a b : Nat) (ha : a % 4096 = 0) (hb : b < 4096) : a ||| b = a + b :=
  lor_eq_add 12 a b ha hb

theorem lor_add_16 (a b : Nat) (ha : a % 65536 = 0) (hb : b < 65536) : a ||| b = a + b :=
  lor_eq_add 16 a b ha hb

theorem lor_add_20 (a b : Nat) (ha : a % 1048576 = 0) (hb : b < 1048576) : a ||| b = a + b :=
  lor_eq_add 20 a b ha hb

theorem lor_add_24 (a b : Nat) (ha : a % 16777216 = 0) (hb : b < 16777216) : a ||| b = a + b :=
  lor_eq_add 24 a b ha hb

theorem lor_add_28 (a b : Nat) (ha : a % 268435456 = 0) (hb : b < 268435456) : a ||| b = a + b :=
  lor_eq_add 28 a b ha hb


/-! ## Increment and decrement on valid codes -/

set_option maxHeartbeats 4000000 in
theorem incr_tcode (fps : Nat) (df : Int) (h m s f : Nat) (hfps : fps = 24 ∨ fps = 25 ∨ fps = 30)
    (hv : ValidN fps (df ≠ 0) h m s f) :
    hdspe_ltc32_incr (tcode h m s f) (fps : Int) df =
      tcode (nextN fps (df ≠ 0) h m s f).1 (nextN fps (df ≠ 0) h m s f).2.1
        (nextN fps (df ≠ 0) h m s f).2.2.1 (nextN fps (df ≠ 0) h m s f).2.2.2 := by
  obtain ⟨h1, h2, h3, h4, -⟩ := hv
  obtain ⟨e0, e1, e2, e3, e4, e5, e6, e7⟩ := tcode_fields h m s f (by omega) (by omega) (by omega) (by omega)
  obtain ⟨g0, g1, g2, g3, g4, hx⟩ := tcode_fields2 h m s f (by omega) (by omega) (by omega) (by omega)
  generalize tcode h m s f = x at *
  unfold hdspe_ltc32_incr nextN
  simp only [land_0f, land_03, land_07, shr_0, shr_4, shr_8, shr_12, shr_16, shr_20, shr_24, shr_28,
    mask_3f7f7f00, mask_3f7f7000, mask_3f7f0000, mask_3f700000, mask_3f000000,
    shl_0, shl_4, shl_8, shl_12, shl_16, shl_20, shl_24, shl_28, e0, e1, e2, e3, e4, e5, e6, e7,
    g0, g1, g2, g3, g4]
  clear e0 e1 e2 e3 e4 e5 e6 e7 g0 g1 g2 g3 g4 hx
  split_ifs
  all_goals dsimp only at *
  all_goals first
    | omega
    | (simp (disch := omega) only [Nat.zero_or, lor_add_4, lor_add_8, lor_add_12, lor_add_16, lor_add_20,
        lor_add_24, lor_add_28]
       unfold tcode
       omega)

theorem toU32_of_nonneg (i : Int) (h0 : 0 ≤ i) (h1 : i < 4294967296) : toU32 i = i.toNat := by
  unfold toU32
  rw [Int.emod_eq_of_lt h0 h1]

theorem shl32_of_nonneg (i : Int) (k : Nat) (h0 : 0 ≤ i) (h1 : i.toNat * 2 ^ k < 4294967296) :
    shl32 i k = i.toNat * 2 ^ k := by
  unfold shl32
  have h2 : i.toNat < 4294967296 := by
    have : 1 ≤ 2 ^ k := Nat.one_le_two_pow
    nlinarith
  rw [toU32_of_nonneg i h0 (by omega), Nat.shiftLeft_eq, Nat.mod_eq_of_lt h1]

theorem shl32_4 (i : Int) (h0 : 0 ≤ i) (h1 : i < 16) : shl32 i 4 = i.toNat * 16 :=
  shl32_of_nonneg i 4 h0 (by omega)

theorem shl32_8 (i : Int) (h0 : 0 ≤ i) (h1 : i < 16) : shl32 i 8 = i.toNat * 256 :=
  shl32_of_nonneg i 8 h0 (by omega)

theorem shl32_12 (i : Int) (h0 : 0 ≤ i) (h1 : i < 16) : shl32 i 12 = i.toNat * 4096 :=
  shl32_of_nonneg i 12 h0 (by omega)

theorem shl32_16 (i : Int) (h0 : 0 ≤ i) (h1 : i < 16) : shl32 i 16 = i.toNat * 65536 :=
  shl32_of_nonneg i 16 h0 (by omega)

theorem shl32_20 (i : Int) (h0 : 0 ≤ i) (h1 : i < 16) : shl32 i 20 = i.toNat * 1048576 :=
  shl32_of_nonneg i 20 h0 (by omega)

theorem shl32_24 (i : Int) (h0 : 0 ≤ i) (h1 : i < 16) : shl32 i 24 = i.toNat * 16777216 :=
  shl32_of_nonneg i 24 h0 (by omega)

theorem shl32_28 (i : Int) (h0 : 0 ≤ i) (h1 : i < 16) : shl32 i 28 = i.toNat * 268435456 :=
  shl32_of_nonneg i 28 h0 (by omega)


set_option maxHeartbeats 4000000 in
theorem decr_tcode (fps : Nat) (df : Int) (h m s f : Nat) (hfps : fps = 24 ∨ fps = 25 ∨ fps = 30)
    (hv : ValidN fps (df ≠ 0) h m s f) :
    hdspe_ltc32_decr (tcode h m s f) (fps : Int) df =
      tcode (prevN fps (df ≠ 0) h m s f).1 (prevN fps (df ≠ 0) h m s f).2.1
        (prevN fps (df ≠ 0) h m s f).2.2.1 (prevN fps (df ≠ 0) h m s f).2.2.2 := by
  obtain ⟨h1, h2, h3, h4, h5⟩ := hv
  obtain ⟨e0, e1, e2, e3, e4, e5, e6, e7⟩ := tcode_fields h m s f (by omega) (by omega) (by omega) (by omega)
  obtain ⟨g0, g1, g2, g3, g4, hx⟩ := tcode_fields2 h m s f (by omega) (by omega) (by omega) (by omega)
  have hF : Int.tdiv ((fps : Int) - 1) 10 = 2 := by
    rcases hfps with rfl | rfl | rfl <;> rfl
  generalize tcode h m s f = x at *
  unfold hdspe_ltc32_decr prevN
  simp only [land_0f, land_03, land_07, shr_0, shr_4, shr_8, shr_12, shr_16, shr_20, shr_24, shr_28,
      mask_3f7f7f00, mask_3f7f7000, mask_3f7f0000, mask_3f700000, mask_3f000000, mask_3f7f7f30,
      mask_30000000, mask_00007ff0, mask_000f0000,
      e0, e1, e2, e3, e4, e5, e6, e7, g0, g1, g2, g3, g4, hF]
  clear e0 e1 e2 e3 e4 e5 e6 e7 g0 g1 g2 g3 g4 hx hF
  split_ifs
  all_goals dsimp only at *
  all_goals first
    | omega
    | (simp (disch := omega) only [shl32_4, shl32_8, shl32_12, shl32_16, shl32_20, shl32_24,
        shl32_28, toU32_of_nonneg]
       simp (disch := omega) only [Nat.zero_or, lor_add_4, lor_add_8, lor_add_12, lor_add_16,
        lor_add_20, lor_add_24, lor_add_28]
       unfold tcode
       omega)

/-! ## Conversions between `int` and `u32` -/

theorem toU32_natCast (n : Nat) (hn : n < 4294967296) : toU32 (n : Int) = n := by
  rw [toU32_of_nonneg _ (by omega) (by omega)]
  simp

theorem toInt32_of_lt (n : Nat) (hn : n < 2147483648) : toInt32 n = (n : Int) := by
  unfold toInt32
  have h1 : n % 4294967296 = n := Nat.mod_eq_of_lt (by omega)
  rw [h1, if_pos hn]

theorem wrapInt_of_range (i : Int) (h0 : -2147483648 ≤ i) (h1 : i < 2147483648) : wrapInt i = i := by
  unfold wrapInt toInt32 toU32
  split_ifs <;> omega

theorem tmod_neg_natCast (a : Nat) (b : Int) : Int.tmod (-(a : Int)) b = -(Int.tmod a b) := by
  cases a with
  | zero => simp
  | succ k =>
    cases b with
    | ofNat c => rfl
    | negSucc c => rfl

theorem tmod_fix (n b : Int) (hb : 0 < b) :
    (if Int.tmod n b < 0 then Int.tmod n b + b else Int.tmod n b) = n % b := by
  have h1 := Int.tmod_def n b
  have hlt : Int.tmod n b < b := Int.tmod_lt_of_pos n hb
  have hgt : -b < Int.tmod n b := by
    rcases le_total 0 n with hn | hn
    · have := Int.tmod_nonneg b hn
      omega
    · obtain ⟨a, ha⟩ := Int.eq_ofNat_of_zero_le (show 0 ≤ -n by omega)
      have e : n = -(a : Int) := by omega
      have := Int.tmod_lt_of_pos (a : Int) hb
      rw [e, tmod_neg_natCast]
      omega
  split_ifs with hneg
  · have e : Int.tmod n b + b = n + b * (1 - Int.tdiv n b) := by rw [h1]; ring
    rw [e, ← Int.add_mul_emod_self_left n b (1 - Int.tdiv n b), ← e]
    exact (Int.emod_eq_of_lt (by omega) (by omega)).symm
  · have e : Int.tmod n b = n + b * (- Int.tdiv n b) := by rw [h1]; ring
    rw [← Int.add_mul_emod_self_left n b (- Int.tdiv n b), ← e]
    exact (Int.emod_eq_of_lt (by omega) (by omega)).symm

theorem pack_int (H h M m S s F f : Int)
    (hb : (0 ≤ H ∧ H < 4) ∧ (0 ≤ h ∧ h < 16) ∧ (0 ≤ M ∧ M < 16) ∧ (0 ≤ m ∧ m < 16) ∧
      (0 ≤ S ∧ S < 16) ∧ (0 ≤ s ∧ s < 16) ∧ (0 ≤ F ∧ F < 16) ∧ (0 ≤ f ∧ f < 16)) :
    ltc32_pack H h M m S s F f =
      H.toNat * 268435456 + h.toNat * 16777216 + M.toNat * 1048576 + m.toNat * 65536
        + S.toNat * 4096 + s.toNat * 256 + F.toNat * 16 + f.toNat := by
  obtain ⟨⟨a1, a2⟩, ⟨b1, b2⟩, ⟨c1, c2⟩, ⟨d1, d2⟩, ⟨e1, e2⟩, ⟨g1, g2⟩, ⟨i1, i2⟩, ⟨j1, j2⟩⟩ := hb
  unfold ltc32_pack
  rw [shl32_4 F i1 i2, shl32_8 s g1 g2, shl32_12 S e1 e2, shl32_16 m d1 d2, shl32_20 M c1 c2,
    shl32_24 h b1 b2, toU32_of_nonneg f j1 (by omega), toU32_of_nonneg H a1 (by omega), land_03,
    shl_28]
  have hH : H.toNat % 4 = H.toNat := Nat.mod_eq_of_lt (by omega)
  rw [hH]
  simp (disch := omega) only [lor_add_4, lor_add_8, lor_add_12, lor_add_16, lor_add_20,
    lor_add_24, lor_add_28]

/-! ## Frame counts to codes -/

theorem from_frames_norm (n fps df : Int) (hfpd : 0 < hdspe_ltc_fpd fps df) :
    hdspe_ltc32_from_frames n fps df =
      hdspe_ltc32_from_frames (n % hdspe_ltc_fpd fps df) fps df := by
  unfold hdspe_ltc32_from_frames
  simp only [tmod_fix _ _ hfpd, Int.emod_emod]

theorem tdiv_cast (a b : Nat) : Int.tdiv (a : Int) (b : Int) = ((a / b : Nat) : Int) := by
  rw [Int.tdiv_eq_ediv (Int.ofNat_nonneg a) (Int.ofNat_nonneg b)]
  norm_cast

theorem sub_mul_cast (a b : Nat) :
    (a : Int) - ((a / b : Nat) : Int) * (b : Int) = ((a % b : Nat) : Int) := by
  push_cast
  rw [Int.emod_def]
  ring

theorem tdiv_cast_10 (a : Nat) : Int.tdiv (a : Int) 10 = ((a / 10 : Nat) : Int) :=
  tdiv_cast a 10

theorem sub_mul_cast_10 (a : Nat) :
    (a : Int) - ((a / 10 : Nat) : Int) * 10 = ((a % 10 : Nat) : Int) :=
  sub_mul_cast a 10

theorem tdiv_cast_60 (a : Nat) : Int.tdiv (a : Int) 60 = ((a / 60 : Nat) : Int) :=
  tdiv_cast a 60

theorem sub_mul_cast_60 (a : Nat) :
    (a : Int) - ((a / 60 : Nat) : Int) * 60 = ((a % 60 : Nat) : Int) :=
  sub_mul_cast a 60

theorem tdiv_cast_30 (a : Nat) : Int.tdiv (a : Int) 30 = ((a / 30 : Nat) : Int) :=
  tdiv_cast a 30

theorem sub_mul_cast_30 (a : Nat) :
    (a : Int) - ((a / 30 : Nat) : Int) * 30 = ((a % 30 : Nat) : Int) :=
  sub_mul_cast a 30

theorem tdiv_cast_300 (a : Nat) : Int.tdiv (a : Int) 300 = ((a / 300 : Nat) : Int) :=
  tdiv_cast a 300

theorem sub_mul_cast_300 (a : Nat) :
    (a : Int) - ((a / 300 : Nat) : Int) * 300 = ((a % 300 : Nat) : Int) :=
  sub_mul_cast a 300

theorem tdiv_cast_1798 (a : Nat) : Int.tdiv (a : Int) 1798 = ((a / 1798 : Nat) : Int) :=
  tdiv_cast a 1798

theorem sub_mul_cast_1798 (a : Nat) :
    (a : Int) - ((a / 1798 : Nat) : Int) * 1798 = ((a % 1798 : Nat) : Int) :=
  sub_mul_cast a 1798

theorem tdiv_cast_17982 (a : Nat) : Int.tdiv (a : Int) 17982 = ((a / 17982 : Nat) : Int) :=
  tdiv_cast a 17982

theorem sub_mul_cast_17982 (a : Nat) :
    (a : Int) - ((a / 17982 : Nat) : Int) * 17982 = ((a % 17982 : Nat) : Int) :=
  sub_mul_cast a 17982

theorem tdiv_cast_107892 (a : Nat) : Int.tdiv (a : Int) 107892 = ((a / 107892 : Nat) : Int) :=
  tdiv_cast a 107892

theorem sub_mul_cast_107892 (a : Nat) :
    (a : Int) - ((a / 107892 : Nat) : Int) * 107892 = ((a % 107892 : Nat) : Int) :=
  sub_mul_cast a 107892

theorem tdiv_cast_1078920 (a : Nat) : Int.tdiv (a : Int) 1078920 = ((a / 1078920 : Nat) : Int) :=
  tdiv_cast a 1078920

theorem sub_mul_cast_1078920 (a : Nat) :
    (a : Int) - ((a / 1078920 : Nat) : Int) * 1078920 = ((a % 1078920 : Nat) : Int) :=
  sub_mul_cast a 1078920

theorem pack_nat_tcode (h m s f : Nat) (hh : h < 40) (hm : m < 80) (hs : s < 80) (hf : f < 40) :
    ltc32_pack ((h / 10 : Nat) : Int) ((h % 10 : Nat) : Int) ((m / 10 : Nat) : Int)
      ((m % 10 : Nat) : Int) ((s / 10 : Nat) : Int) ((s % 10 : Nat) : Int)
      ((f / 10 : Nat) : Int) ((f % 10 : Nat) : Int) = tcode h m s f := by
  rw [pack_int _ _ _ _ _ _ _ _ (by omega)]
  unfold tcode
  simp only [Int.toNat_ofNat]

theorem from_frames_ndf_nat (fps k : Nat) (hfps : fps = 24 ∨ fps = 25 ∨ fps = 30)
    (hk : k < 86400 * fps) :
    hdspe_ltc32_from_frames (k : Int) (fps : Int) 0 =
      tcode (k / fps / 60 / 60) (k / fps / 60 % 60) (k / fps % 60) (k % fps) := by
  have hfpd : hdspe_ltc_fpd (fps : Int) 0 = 24 * 60 * 60 * (fps : Int) := by
    unfold hdspe_ltc_fpd
    simp only [ne_eq, not_true_eq_false, if_false]
    exact wrapInt_of_range _ (by omega) (by omega)
  have hpos : 0 < hdspe_ltc_fpd (fps : Int) 0 := by
    rw [hfpd]
    omega
  unfold hdspe_ltc32_from_frames
  simp only [tmod_fix _ _ hpos]
  have hk' : (k : Int) % hdspe_ltc_fpd (fps : Int) 0 = (k : Int) := by
    rw [hfpd]
    apply Int.emod_eq_of_lt <;> omega
  simp only [hk', ne_eq, not_true_eq_false, not_false_eq_true, if_true]
  simp only [tdiv_cast, sub_mul_cast, tdiv_cast_10, sub_mul_cast_10, tdiv_cast_60, sub_mul_cast_60]
  apply pack_nat_tcode
  · rcases hfps with rfl | rfl | rfl <;> omega
  · omega
  · omega
  · have := Nat.mod_lt k (show 0 < fps by omega)
    omega

theorem pack_nat (H h M m S s F f : Nat) (hH : H < 4) (hh : h < 16) (hM : M < 16) (hm : m < 16)
    (hS : S < 16) (hs : s < 16) (hF : F < 16) (hf : f < 16) :
    ltc32_pack (H : Int) (h : Int) (M : Int) (m : Int) (S : Int) (s : Int) (F : Int) (f : Int) =
      H * 268435456 + h * 16777216 + M * 1048576 + m * 65536 + S * 4096 + s * 256 + F * 16 + f := by
  rw [pack_int _ _ _ _ _ _ _ _ (by omega)]
  simp only [Int.toNat_ofNat]

theorem tcode_of_digits (hh mm ss ff H h M m S s F f : Nat)
    (e1 : hh = 10 * H + h) (b1 : h < 10) (e2 : mm = 10 * M + m) (b2 : m < 10)
    (e3 : ss = 10 * S + s) (b3 : s < 10) (e4 : ff = 10 * F + f) (b4 : f < 10) :
    tcode hh mm ss ff =
      H * 268435456 + h * 16777216 + M * 1048576 + m * 65536 + S * 4096 + s * 256 + F * 16 + f := by
  have a1 : hh / 10 = H := by omega
  have a2 : hh % 10 = h := by omega
  have a3 : mm / 10 = M := by omega
  have a4 : mm % 10 = m := by omega
  have a5 : ss / 10 = S := by omega
  have a6 : ss % 10 = s := by omega
  have a7 : ff / 10 = F := by omega
  have a8 : ff % 10 = f := by omega
  unfold tcode
  rw [a1, a2, a3, a4, a5, a6, a7, a8]

theorem from_frames_df_nat (fps : Int) (df : Int) (hdf : df ≠ 0) (k : Nat) (hk : k < 2589408) :
    hdspe_ltc32_from_frames (k : Int) fps df =
      tcode (hmsfDf k).1 (hmsfDf k).2.1 (hmsfDf k).2.2.1 (hmsfDf k).2.2.2 := by
  have hfpd : hdspe_ltc_fpd fps df = 2589408 := by
    unfold hdspe_ltc_fpd
    rw [if_pos hdf]
    rfl
  have hpos : 0 < hdspe_ltc_fpd fps df := by omega
  have hk' : (k : Int) % hdspe_ltc_fpd fps df = (k : Int) := by
    rw [hfpd]
    omega
  unfold hdspe_ltc32_from_frames hmsfDf
  simp only [tmod_fix _ _ hpos, hk', hdf, ne_eq, not_false_eq_true, not_true_eq_false, if_false]
  simp only [tdiv_cast_1078920, sub_mul_cast_1078920, tdiv_cast_107892, sub_mul_cast_107892,
    tdiv_cast_17982, sub_mul_cast_17982]
  have hH : k / 1078920 < 4 := by omega
  have hh : k % 1078920 / 107892 < 10 := by omega
  have hM : k % 1078920 % 107892 / 17982 < 6 := by omega
  have hg : k % 1078920 % 107892 % 17982 < 17982 := by omega
  generalize k / 1078920 = H at *
  generalize k % 1078920 / 107892 = h at *
  generalize k % 1078920 % 107892 / 17982 = M at *
  generalize k % 1078920 % 107892 % 17982 = g at *
  clear hfpd hpos hk' hk
  by_cases hc : g < 1800
  · have hc' : (g : Int) < 1800 := by omega
    rw [if_pos hc, if_pos hc']
    simp only [tdiv_cast_300, sub_mul_cast_300, tdiv_cast_30, sub_mul_cast_30, tdiv_cast_10,
      sub_mul_cast_10]
    rw [pack_int _ _ _ _ _ _ _ _ (by omega)]
    simp only [Int.toNat_ofNat, Int.toNat_zero]
    exact (tcode_of_digits _ _ _ _ H h M 0 (g / 300) (g % 300 / 30) (g % 300 % 30 / 10)
      (g % 300 % 30 % 10) (by omega) (by omega) (by omega) (by omega) (by omega) (by omega)
      (by omega) (by omega)).symm
  · have hc' : ¬ (g : Int) < 1800 := by omega
    rw [if_neg hc, if_neg hc']
    have e1 : (g : Int) - 1800 = ((g - 1800 : Nat) : Int) := by omega
    rw [e1]
    simp only [tdiv_cast_1798]
    have e2 : ((g - 1800 : Nat) : Int) - (((g - 1800) / 1798 : Nat) * 1798 - 2)
        = (((g - 1800) % 1798 + 2 : Nat) : Int) := by omega
    have e3 : (((g - 1800) / 1798 : Nat) : Int) + 1 = (((g - 1800) / 1798 + 1 : Nat) : Int) := by
      omega
    rw [e2, e3]
    simp only [tdiv_cast_300, sub_mul_cast_300, tdiv_cast_30, sub_mul_cast_30, tdiv_cast_10,
      sub_mul_cast_10]
    rw [pack_nat _ _ _ _ _ _ _ _ (by omega) (by omega) (by omega) (by omega) (by omega)
      (by omega) (by omega) (by omega)]
    exact (tcode_of_digits _ _ _ _ H h M ((g - 1800) / 1798 + 1) (((g - 1800) % 1798 + 2) / 300)
      (((g - 1800) % 1798 + 2) % 300 / 30) (((g - 1800) % 1798 + 2) % 300 % 30 / 10)
      (((g - 1800) % 1798 + 2) % 300 % 30 % 10) (by omega) (by omega) (by omega) (by omega)
      (by omega) (by omega) (by omega) (by omega)).symm

/-! ## Arithmetic of frame counts -/

theorem fpd_cast (fps : Nat) (df : Int) (hc : CtxN fps df) :
    hdspe_ltc_fpd (fps : Int) df = ((fpdN fps df : Nat) : Int) := by
  obtain ⟨hfps, _⟩ := hc
  unfold hdspe_ltc_fpd fpdN
  split_ifs
  · rfl
  · rw [wrapInt_of_range _ (by omega) (by omega)]
    push_cast
    ring

theorem fpdN_pos (fps : Nat) (df : Int) (hc : CtxN fps df) : 0 < fpdN fps df := by
  obtain ⟨h1, h2⟩ := hc
  unfold fpdN
  split_ifs <;> omega

theorem to_frames_tcode (fps : Nat) (df : Int) (h m s f : Nat) (hc : CtxN fps df)
    (hv : ValidN fps (df ≠ 0) h m s f) :
    hdspe_ltc32_to_frames (tcode h m s f) (fps : Int) df = frameN fps df h m s f := by
  obtain ⟨hfps, hdf⟩ := hc
  obtain ⟨h1, h2, h3, h4, h5⟩ := hv
  have hfu : toU32 (fps : Int) = fps := toU32_natCast fps (by omega)
  obtain ⟨e0, e1, e2, e3, e4, e5, e6, e7⟩ :=
    tcode_fields h m s f (by omega) (by omega) (by omega) (by omega)
  generalize tcode h m s f = x at *
  unfold hdspe_ltc32_to_frames frameN hdspe_ltc32_to_frames_df hdspe_ltc32_to_frames_ndf
    frameDf frameNdf
  simp only [land_0f, land_03, land_07, shr_4, shr_8, shr_12, shr_16, shr_20, shr_24, shr_28,
    e0, e1, e2, e3, e4, e5, e6, e7, hfu]
  clear e0 e1 e2 e3 e4 e5 e6 e7 hfu
  split_ifs with hd
  · omega
  · rcases hfps with rfl | rfl | rfl <;> omega

theorem frameN_lt (fps : Nat) (df : Int) (h m s f : Nat) (hc : CtxN fps df)
    (hv : ValidN fps (df ≠ 0) h m s f) : frameN fps df h m s f < fpdN fps df := by
  obtain ⟨hfps, hdf⟩ := hc
  obtain ⟨h1, h2, h3, h4, h5⟩ := hv
  unfold frameN fpdN frameDf frameNdf
  split_ifs with hd
  · have := hdf hd
    omega
  · rcases hfps with rfl | rfl | rfl <;> omega

theorem hmsfOf_valid (fps : Nat) (df : Int) (k : Nat) (hc : CtxN fps df) (hk : k < fpdN fps df) :
    ValidN fps (df ≠ 0) (hmsfOf fps df k).1 (hmsfOf fps df k).2.1 (hmsfOf fps df k).2.2.1
      (hmsfOf fps df k).2.2.2 := by
  obtain ⟨hfps, hdf⟩ := hc
  unfold fpdN at hk
  unfold hmsfOf hmsfDf ValidN
  by_cases hd : df ≠ 0
  · have := hdf hd
    rw [if_pos hd] at hk
    simp only [if_pos hd]
    split_ifs <;> dsimp only <;> omega
  · rw [if_neg hd] at hk
    simp only [if_neg hd]
    have q1 : k / fps / 60 = k / (fps * 60) := Nat.div_div_eq_div_mul _ _ _
    have q2 : k / fps / 60 / 60 = k / (fps * 60 * 60) := by
      rw [Nat.div_div_eq_div_mul, Nat.div_div_eq_div_mul, Nat.mul_assoc]
    have q3 := Nat.mod_lt k (show 0 < fps by omega)
    rw [q2]
    rcases hfps with rfl | rfl | rfl <;> omega

theorem frameN_hmsfOf (fps : Nat) (df : Int) (k : Nat) (hc : CtxN fps df)
    (_hk : k < fpdN fps df) :
    frameN fps df (hmsfOf fps df k).1 (hmsfOf fps df k).2.1 (hmsfOf fps df k).2.2.1
      (hmsfOf fps df k).2.2.2 = k := by
  obtain ⟨hfps, hdf⟩ := hc
  unfold hmsfOf hmsfDf frameN frameDf frameNdf
  by_cases hd : df ≠ 0
  · have := hdf hd
    simp only [if_pos hd]
    split_ifs <;> dsimp only <;> omega
  · simp only [if_neg hd]
    have a1 := Nat.div_add_mod k fps
    have a2 := Nat.div_add_mod (k / fps) 60
    have a3 := Nat.div_add_mod (k / fps / 60) 60
    generalize k / fps / 60 / 60 = hh at *
    generalize k / fps / 60 % 60 = mm at *
    generalize k / fps / 60 = tm at *
    generalize k / fps % 60 = ss at *
    generalize k % fps = ff at *
    generalize k / fps = ts at *
    subst a3
    subst a2
    rw [← a1]
    ring

theorem hmsfOf_frameN (fps : Nat) (df : Int) (h m s f : Nat) (hc : CtxN fps df)
    (hv : ValidN fps (df ≠ 0) h m s f) :
    hmsfOf fps df (frameN fps df h m s f) = (h, m, s, f) := by
  obtain ⟨hfps, hdf⟩ := hc
  obtain ⟨h1, h2, h3, h4, h5⟩ := hv
  unfold hmsfOf frameN
  by_cases hd : df ≠ 0
  · have hfps30 := hdf hd
    have h5' := h5 hd
    simp only [if_pos hd]
    clear h5 hdf hfps hd
    subst hfps30
    -- split the frame count into hour, ten-minute block and rest
    have hk : frameDf h m s f = 107892 * h + (17982 * (m / 10) + (m % 10 * 1798 + s * 30 + f)) := by
      unfold frameDf; omega
    have hg : m % 10 * 1798 + s * 30 + f < 17982 := by omega
    have hM : m / 10 < 6 := by omega
    have hg0 : m % 10 = 0 → m % 10 * 1798 + s * 30 + f < 1800 := by omega
    have hg1 : m % 10 ≠ 0 → 1800 ≤ m % 10 * 1798 + s * 30 + f := by omega
    have hg2 : m % 10 ≠ 0 →
        m % 10 * 1798 + s * 30 + f - 1800 = 1798 * (m % 10 - 1) + (s * 30 + f - 2) := by omega
    have hm0 : m % 10 < 10 := by omega
    have hm : m = m / 10 * 10 + m % 10 := by omega
    have ht : m % 10 ≠ 0 → 2 ≤ s * 30 + f := by omega
    generalize hgdef : m % 10 * 1798 + s * 30 + f = g at *
    generalize m / 10 = M at *
    generalize m % 10 = m0 at *
    generalize frameDf h m s f = k at *
    subst hk
    have r1 : (107892 * h + (17982 * M + g)) / 1078920 * 10
        + (107892 * h + (17982 * M + g)) % 1078920 / 107892 = h := by
      have : 17982 * M + g < 107892 := by omega
      generalize 17982 * M + g = r at *
      omega
    have r2 : (107892 * h + (17982 * M + g)) % 1078920 % 107892 = 17982 * M + g := by
      have : 17982 * M + g < 107892 := by omega
      generalize 17982 * M + g = r at *
      omega
    have r3 : (17982 * M + g) / 17982 = M := by omega
    have r4 : (17982 * M + g) % 17982 = g := by omega
    unfold hmsfDf
    rw [r1, r2, r3, r4]
    clear r1 r2 r3 r4
    by_cases hz : m0 = 0
    · have := hg0 hz
      rw [if_pos this]
      subst hz
      simp only [Prod.mk.injEq]
      refine ⟨trivial, by omega, ?_, ?_⟩ <;> omega
    · have hge := hg1 hz
      have hsplit := hg2 hz
      have htt := ht hz
      rw [if_neg (by omega), hsplit]
      have hs2 : s * 30 + f - 2 < 1798 := by omega
      have r5 : (1798 * (m0 - 1) + (s * 30 + f - 2)) / 1798 = m0 - 1 := by
        generalize s * 30 + f - 2 = t at *
        omega
      have r6 : (1798 * (m0 - 1) + (s * 30 + f - 2)) % 1798 = s * 30 + f - 2 := by
        generalize s * 30 + f - 2 = t at *
        omega
      rw [r5, r6]
      simp only [Prod.mk.injEq]
      refine ⟨trivial, by omega, ?_, ?_⟩ <;> omega
  · simp only [if_neg hd]
    unfold frameNdf
    have hfp : 0 < fps := by omega
    have r1 : (((h * 60 + m) * 60 + s) * fps + f) / fps = (h * 60 + m) * 60 + s := by
      rw [Nat.mul_comm _ fps, Nat.mul_add_div hfp, Nat.div_eq_of_lt h4, Nat.add_zero]
    have r2 : (((h * 60 + m) * 60 + s) * fps + f) % fps = f := by
      rw [Nat.mul_comm _ fps, Nat.mul_add_mod, Nat.mod_eq_of_lt h4]
    rw [r1, r2]
    simp only [Prod.mk.injEq]
    refine ⟨by omega, by omega, by omega, trivial⟩

theorem nextN_valid (fps : Nat) (df : Int) (h m s f : Nat) (hc : CtxN fps df)
    (hv : ValidN fps (df ≠ 0) h m s f) :
    ValidN fps (df ≠ 0) (nextN fps (df ≠ 0) h m s f).1 (nextN fps (df ≠ 0) h m s f).2.1
      (nextN fps (df ≠ 0) h m s f).2.2.1 (nextN fps (df ≠ 0) h m s f).2.2.2 := by
  obtain ⟨hfps, hdf⟩ := hc
  obtain ⟨h1, h2, h3, h4, h5⟩ := hv
  unfold nextN ValidN
  split_ifs <;> dsimp only <;> omega

theorem frameN_nextN (fps : Nat) (df : Int) (h m s f : Nat) (hc : CtxN fps df)
    (hv : ValidN fps (df ≠ 0) h m s f) :
    frameN fps df (nextN fps (df ≠ 0) h m s f).1 (nextN fps (df ≠ 0) h m s f).2.1
      (nextN fps (df ≠ 0) h m s f).2.2.1 (nextN fps (df ≠ 0) h m s f).2.2.2
      = (frameN fps df h m s f + 1) % fpdN fps df := by
  have key : (frameN fps df h m s f + 1 < fpdN fps df ∧
      frameN fps df (nextN fps (df ≠ 0) h m s f).1 (nextN fps (df ≠ 0) h m s f).2.1
        (nextN fps (df ≠ 0) h m s f).2.2.1 (nextN fps (df ≠ 0) h m s f).2.2.2
        = frameN fps df h m s f + 1) ∨
      (frameN fps df h m s f + 1 = fpdN fps df ∧
      frameN fps df (nextN fps (df ≠ 0) h m s f).1 (nextN fps (df ≠ 0) h m s f).2.1
        (nextN fps (df ≠ 0) h m s f).2.2.1 (nextN fps (df ≠ 0) h m s f).2.2.2 = 0) := by
    obtain ⟨hfps, hdf⟩ := hc
    obtain ⟨h1, h2, h3, h4, h5⟩ := hv
    unfold nextN frameN fpdN frameDf frameNdf
    by_cases hd : df ≠ 0
    · have := hdf hd
      have h5' := h5 hd
      subst this
      simp only [if_pos hd, hd, true_and]
      split_ifs <;> dsimp only <;> omega
    · simp only [if_neg hd, hd, false_and, if_false]
      rcases hfps with rfl | rfl | rfl <;> split_ifs <;> dsimp only <;> omega
  rcases key with ⟨k1, k2⟩ | ⟨k1, k2⟩
  · rw [k2, Nat.mod_eq_of_lt k1]
  · rw [k2, k1, Nat.mod_self]

theorem prevN_nextN (fps : Nat) (df : Int) (h m s f : Nat) (hc : CtxN fps df)
    (hv : ValidN fps (df ≠ 0) h m s f) :
    prevN fps (df ≠ 0) (nextN fps (df ≠ 0) h m s f).1 (nextN fps (df ≠ 0) h m s f).2.1
      (nextN fps (df ≠ 0) h m s f).2.2.1 (nextN fps (df ≠ 0) h m s f).2.2.2 = (h, m, s, f) := by
  obtain ⟨hfps, hdf⟩ := hc
  obtain ⟨h1, h2, h3, h4, h5⟩ := hv
  unfold nextN prevN
  split_ifs <;> dsimp only at * <;> simp only [Prod.mk.injEq, true_and, and_true] <;> omega

/-! ## The claims -/

theorem compose_eq_tcode (h m s f : Nat) (hh : h < 40) (hm : m < 80) (hs : s < 80) (hf : f < 40) :
    hdspe_ltc32_compose (h : Int) (m : Int) (s : Int) (f : Int) = tcode h m s f := by
  unfold hdspe_ltc32_compose
  simp only [tdiv_cast_10, sub_mul_cast_10]
  simp (disch := omega) only [toU32_natCast, land_0f, land_03, land_07, Nat.mod_eq_of_lt,
    shl_4, shl_8, shl_12, shl_16, shl_20, shl_24, shl_28]
  simp (disch := omega) only [lor_add_4, lor_add_8, lor_add_12, lor_add_16, lor_add_20,
    lor_add_24, lor_add_28]
  rfl

theorem parse_tcode (h m s f : Nat) (hh : h < 40) (hm : m < 80) (hs : s < 80) (hf : f < 40) :
    hdspe_ltc32_parse (tcode h m s f) = ((h : Int), (m : Int), (s : Int), (f : Int)) := by
  obtain ⟨e0, e1, e2, e3, e4, e5, e6, e7⟩ := tcode_fields h m s f hh hm hs hf
  unfold hdspe_ltc32_parse
  simp only [land_0f, land_03, land_07, shr_0, shr_4, shr_8, shr_12, shr_16, shr_20, shr_24,
    shr_28, e0, e1, e2, e3, e4, e5, e6, e7]
  have a1 : h / 10 * 10 + h % 10 = h := by omega
  have a2 : m / 10 * 10 + m % 10 = m := by omega
  have a3 : s / 10 * 10 + s % 10 = s := by omega
  have a4 : f / 10 * 10 + f % 10 = f := by omega
  rw [a1, a2, a3, a4]

theorem lift_ctx (fps df : Int) (hc : LtcContext fps df) :
    ∃ fpsN : Nat, fps = (fpsN : Int) ∧ CtxN fpsN df := by
  unfold LtcContext at hc
  exact ⟨fps.toNat, by omega, ⟨by omega, by omega⟩⟩

theorem lift_valid (fps df h m s f : Int) (hc : LtcContext fps df)
    (hv : ValidHMSF fps df h m s f) :
    ∃ fpsN hN mN sN fN : Nat, fps = (fpsN : Int) ∧ h = (hN : Int) ∧ m = (mN : Int) ∧
      s = (sN : Int) ∧ f = (fN : Int) ∧ CtxN fpsN df ∧ ValidN fpsN (df ≠ 0) hN mN sN fN ∧
      hdspe_ltc32_compose h m s f = tcode hN mN sN fN := by
  obtain ⟨h0, h1, m0, m1, s0, s1, f0, f1, hdrop⟩ := hv
  have hfps : fps = 24 ∨ fps = 25 ∨ fps = 30 := by
    unfold LtcContext at hc
    omega
  have hdf : df ≠ 0 → fps = 30 := by
    unfold LtcContext at hc
    omega
  refine ⟨fps.toNat, h.toNat, m.toNat, s.toNat, f.toNat, by omega, by omega, by omega, by omega,
    by omega, ⟨by omega, by omega⟩, ⟨by omega, by omega, by omega, by omega, ?_⟩, ?_⟩
  · intro hd
    have := hdrop hd
    omega
  · have e1 : h = (h.toNat : Int) := by omega
    have e2 : m = (m.toNat : Int) := by omega
    have e3 : s = (s.toNat : Int) := by omega
    have e4 : f = (f.toNat : Int) := by omega
    rw [e1, e2, e3, e4]
    simp only [Int.toNat_ofNat]
    exact compose_eq_tcode _ _ _ _ (by omega) (by omega) (by omega) (by omega)

/-- C1: for every h in [0,24), m in [0,60), s in [0,60) and f in [0,30), parsing the
composed code gives back exactly (h,m,s,f). -/
theorem C1_parse_compose (h m s f : Int) (hh : 0 ≤ h ∧ h < 24) (hm : 0 ≤ m ∧ m < 60)
    (hs : 0 ≤ s ∧ s < 60) (hf : 0 ≤ f ∧ f < 30) :
    hdspe_ltc32_parse (hdspe_ltc32_compose h m s f) = (h, m, s, f) := by
  have e1 : h = (h.toNat : Int) := by omega
  have e2 : m = (m.toNat : Int) := by omega
  have e3 : s = (s.toNat : Int) := by omega
  have e4 : f = (f.toNat : Int) := by omega
  rw [e1, e2, e3, e4, compose_eq_tcode _ _ _ _ (by omega) (by omega) (by omega) (by omega),
    parse_tcode _ _ _ _ (by omega) (by omega) (by omega) (by omega)]

theorem C1_parse_compose_witness :
    hdspe_ltc32_parse (hdspe_ltc32_compose 23 59 59 29) = (23, 59, 59, 29) :=
  C1_parse_compose 23 59 59 29 (by decide) (by decide) (by decide) (by decide)

theorem from_frames_nat (fps : Nat) (df : Int) (k : Nat) (hc : CtxN fps df)
    (hk : k < fpdN fps df) :
    hdspe_ltc32_from_frames (k : Int) (fps : Int) df =
      tcode (hmsfOf fps df k).1 (hmsfOf fps df k).2.1 (hmsfOf fps df k).2.2.1
        (hmsfOf fps df k).2.2.2 := by
  obtain ⟨hfps, hdf⟩ := hc
  unfold fpdN at hk
  unfold hmsfOf
  by_cases hd : df ≠ 0
  · rw [if_pos hd] at hk
    rw [if_pos hd]
    exact from_frames_df_nat _ df hd k hk
  · rw [if_neg hd] at hk
    rw [if_neg hd]
    have hd0 : df = 0 := by omega
    subst hd0
    exact from_frames_ndf_nat fps k hfps hk

theorem from_frames_int (fps : Nat) (df : Int) (n : Int) (hc : CtxN fps df) :
    hdspe_ltc32_from_frames n (fps : Int) df =
      tcode (hmsfOf fps df (n % (fpdN fps df : Int)).toNat).1
        (hmsfOf fps df (n % (fpdN fps df : Int)).toNat).2.1
        (hmsfOf fps df (n % (fpdN fps df : Int)).toNat).2.2.1
        (hmsfOf fps df (n % (fpdN fps df : Int)).toNat).2.2.2 := by
  have hpos := fpdN_pos fps df hc
  have hpos' : 0 < hdspe_ltc_fpd (fps : Int) df := by
    rw [fpd_cast _ _ hc]
    omega
  have h0 : 0 ≤ n % (fpdN fps df : Int) := Int.emod_nonneg _ (by omega)
  have h1 : n % (fpdN fps df : Int) < (fpdN fps df : Int) := Int.emod_lt_of_pos _ (by omega)
  rw [from_frames_norm n _ _ hpos', fpd_cast _ _ hc]
  have e : n % (fpdN fps df : Int) = (((n % (fpdN fps df : Int)).toNat : Nat) : Int) := by omega
  rw [e, from_frames_nat fps df _ hc (by omega)]
  simp only [Int.toNat_ofNat]

theorem to_frames_from_frames (fps : Nat) (df : Int) (n : Int) (hc : CtxN fps df) :
    hdspe_ltc32_to_frames (hdspe_ltc32_from_frames n (fps : Int) df) (fps : Int) df =
      (n % (fpdN fps df : Int)).toNat := by
  have hpos := fpdN_pos fps df hc
  have h0 : 0 ≤ n % (fpdN fps df : Int) := Int.emod_nonneg _ (by omega)
  have h1 : n % (fpdN fps df : Int) < (fpdN fps df : Int) := Int.emod_lt_of_pos _ (by omega)
  have hk : (n % (fpdN fps df : Int)).toNat < fpdN fps df := by omega
  rw [from_frames_int fps df n hc, to_frames_tcode fps df _ _ _ _ hc (hmsfOf_valid fps df _ hc hk),
    frameN_hmsfOf fps df _ hc hk]

theorem fpdN_le (fps : Nat) (df : Int) (hc : CtxN fps df) : fpdN fps df ≤ 2592000 := by
  obtain ⟨hfps, hdf⟩ := hc
  unfold fpdN
  split_ifs <;> omega

theorem roundtrip_tcode (fps : Nat) (df : Int) (h m s f : Nat) (hc : CtxN fps df)
    (hv : ValidN fps (df ≠ 0) h m s f) :
    hdspe_ltc32_from_frames (toInt32 (hdspe_ltc32_to_frames (tcode h m s f) (fps : Int) df))
      (fps : Int) df = tcode h m s f := by
  have hlt := frameN_lt fps df h m s f hc hv
  have hle := fpdN_le fps df hc
  rw [to_frames_tcode fps df h m s f hc hv, toInt32_of_lt _ (by omega),
    from_frames_nat fps df _ hc hlt, hmsfOf_frameN fps df h m s f hc hv]

theorem tcode_masked (h m s f : Nat) (hh : h < 40) (hm : m < 80) (hs : s < 80) (hf : f < 40) :
    tcode h m s f &&& 0x3f7f7f3f = tcode h m s f := by
  obtain ⟨g0, g1, g2, g3, g4, hx⟩ := tcode_fields2 h m s f hh hm hs hf
  rw [mask_3f7f7f3f, g0, g1, g2, g3]
  unfold tcode
  omega

theorem cmp_self (x : Nat) : hdspe_ltc32_cmp x x = 0 := by
  unfold hdspe_ltc32_cmp
  omega

/-- C2: in each of the four contexts, converting a valid time code to frames since
midnight and back gives the same code, and `hdspe_ltc32_cmp` of the two is 0. -/
theorem C2_from_to_frames (fps df h m s f : Int) (hc : LtcContext fps df)
    (hv : ValidHMSF fps df h m s f) :
    hdspe_ltc32_from_frames
        (toInt32 (hdspe_ltc32_to_frames (hdspe_ltc32_compose h m s f) fps df)) fps df
      = hdspe_ltc32_compose h m s f ∧
    hdspe_ltc32_cmp (hdspe_ltc32_compose h m s f)
      (hdspe_ltc32_from_frames
        (toInt32 (hdspe_ltc32_to_frames (hdspe_ltc32_compose h m s f) fps df)) fps df) = 0 := by
  obtain ⟨fpsN, hN, mN, sN, fN, rfl, rfl, rfl, rfl, rfl, hcN, hvN, hcomp⟩ :=
    lift_valid fps df h m s f hc hv
  rw [hcomp, roundtrip_tcode fpsN df hN mN sN fN hcN hvN]
  exact ⟨rfl, cmp_self _⟩

theorem C2_from_to_frames_witness :
    hdspe_ltc32_from_frames
        (toInt32 (hdspe_ltc32_to_frames (hdspe_ltc32_compose 0 1 0 2) 30 1)) 30 1
      = hdspe_ltc32_compose 0 1 0 2 ∧
    hdspe_ltc32_cmp (hdspe_ltc32_compose 0 1 0 2)
      (hdspe_ltc32_from_frames
        (toInt32 (hdspe_ltc32_to_frames (hdspe_ltc32_compose 0 1 0 2) 30 1)) 30 1) = 0 :=
  C2_from_to_frames 30 1 0 1 0 2 (by unfold LtcContext; decide) (by unfold ValidHMSF; decide)

/-- C3: in each of the four contexts, incrementing a valid time code advances its frame
count by exactly one, modulo the frames per day. -/
theorem C3_incr_to_frames (fps df h m s f : Int) (hc : LtcContext fps df)
    (hv : ValidHMSF fps df h m s f) :
    ((hdspe_ltc32_to_frames (hdspe_ltc32_incr (hdspe_ltc32_compose h m s f) fps df) fps df : Nat)
        : Int)
      = (((hdspe_ltc32_to_frames (hdspe_ltc32_compose h m s f) fps df : Nat) : Int) + 1)
          % hdspe_ltc_fpd fps df := by
  obtain ⟨fpsN, hN, mN, sN, fN, rfl, rfl, rfl, rfl, rfl, hcN, hvN, hcomp⟩ :=
    lift_valid fps df h m s f hc hv
  rw [hcomp, incr_tcode fpsN df hN mN sN fN hcN.1 hvN,
    to_frames_tcode fpsN df _ _ _ _ hcN (nextN_valid fpsN df hN mN sN fN hcN hvN),
    frameN_nextN fpsN df hN mN sN fN hcN hvN, to_frames_tcode fpsN df _ _ _ _ hcN hvN,
    fpd_cast _ _ hcN]
  push_cast
  rfl

theorem C3_incr_to_frames_witness :
    ((hdspe_ltc32_to_frames (hdspe_ltc32_incr (hdspe_ltc32_compose 23 59 59 29) 30 1) 30 1 : Nat)
        : Int)
      = (((hdspe_ltc32_to_frames (hdspe_ltc32_compose 23 59 59 29) 30 1 : Nat) : Int) + 1)
          % hdspe_ltc_fpd 30 1 :=
  C3_incr_to_frames 30 1 23 59 59 29 (by unfold LtcContext; decide) (by unfold ValidHMSF; decide)

/-- C4: in each of the four contexts, decrementing the increment of a valid time code
gives the time code back. -/
theorem C4_decr_incr (fps df h m s f : Int) (hc : LtcContext fps df)
    (hv : ValidHMSF fps df h m s f) :
    hdspe_ltc32_decr (hdspe_ltc32_incr (hdspe_ltc32_compose h m s f) fps df) fps df
      = hdspe_ltc32_compose h m s f := by
  obtain ⟨fpsN, hN, mN, sN, fN, rfl, rfl, rfl, rfl, rfl, hcN, hvN, hcomp⟩ :=
    lift_valid fps df h m s f hc hv
  rw [hcomp, incr_tcode fpsN df hN mN sN fN hcN.1 hvN,
    decr_tcode fpsN df _ _ _ _ hcN.1 (nextN_valid fpsN df hN mN sN fN hcN hvN),
    prevN_nextN fpsN df hN mN sN fN hcN hvN]

theorem C4_decr_incr_witness :
    hdspe_ltc32_decr (hdspe_ltc32_incr (hdspe_ltc32_compose 0 0 59 29) 30 1) 30 1
      = hdspe_ltc32_compose 0 0 59 29 :=
  C4_decr_incr 30 1 0 0 59 29 (by unfold LtcContext; decide) (by unfold ValidHMSF; decide)

theorem to_frames_le (x : Nat) (fps : Nat) (df : Int) (hc : CtxN fps df) :
    hdspe_ltc32_to_frames x (fps : Int) df ≤ 5209545 := by
  obtain ⟨hfps, hdf⟩ := hc
  have hfu : toU32 (fps : Int) = fps := toU32_natCast fps (by omega)
  unfold hdspe_ltc32_to_frames hdspe_ltc32_to_frames_df hdspe_ltc32_to_frames_ndf
  simp only [land_0f, land_03, land_07, shr_4, shr_8, shr_12, shr_16, shr_20, shr_24, shr_28, hfu]
  have b0 : x % 16 < 16 := Nat.mod_lt _ (by omega)
  have b1 : x / 16 % 4 < 4 := Nat.mod_lt _ (by omega)
  have b2 : x / 256 % 16 < 16 := Nat.mod_lt _ (by omega)
  have b3 : x / 4096 % 8 < 8 := Nat.mod_lt _ (by omega)
  have b4 : x / 65536 % 16 < 16 := Nat.mod_lt _ (by omega)
  have b5 : x / 1048576 % 8 < 8 := Nat.mod_lt _ (by omega)
  have b6 : x / 16777216 % 16 < 16 := Nat.mod_lt _ (by omega)
  have b7 : x / 268435456 % 4 < 4 := Nat.mod_lt _ (by omega)
  generalize x % 16 = d0 at *
  generalize x / 16 % 4 = d1 at *
  generalize x / 256 % 16 = d2 at *
  generalize x / 4096 % 8 = d3 at *
  generalize x / 65536 % 16 = d4 at *
  generalize x / 1048576 % 8 = d5 at *
  generalize x / 16777216 % 16 = d6 at *
  generalize x / 268435456 % 4 = d7 at *
  split_ifs
  · omega
  · refine le_trans (Nat.mod_le _ _) ?_
    rcases hfps with rfl | rfl | rfl <;> omega

theorem diff_frames_eq (a b : Nat) (fps : Nat) (df : Int) (hc : CtxN fps df) :
    ((hdspe_ltc32_diff_frames a b (fps : Int) df : Nat) : Int) =
      (((hdspe_ltc32_to_frames a (fps : Int) df : Nat) : Int)
        - ((hdspe_ltc32_to_frames b (fps : Int) df : Nat) : Int)) % (fpdN fps df : Int) := by
  have ha := to_frames_le a fps df hc
  have hb := to_frames_le b fps df hc
  have hpos := fpdN_pos fps df hc
  have hle := fpdN_le fps df hc
  have hpos' : 0 < hdspe_ltc_fpd (fps : Int) df := by
    rw [fpd_cast _ _ hc]
    omega
  unfold hdspe_ltc32_diff_frames
  simp only [tmod_fix _ _ hpos']
  rw [toInt32_of_lt _ (by omega), toInt32_of_lt _ (by omega), wrapInt_of_range _ (by omega) (by omega),
    fpd_cast _ _ hc]
  generalize ((hdspe_ltc32_to_frames a (fps : Int) df : Nat) : Int)
    - ((hdspe_ltc32_to_frames b (fps : Int) df : Nat) : Int) = d
  have h0 : 0 ≤ d % (fpdN fps df : Int) := Int.emod_nonneg _ (by omega)
  have h1 : d % (fpdN fps df : Int) < (fpdN fps df : Int) := Int.emod_lt_of_pos _ (by omega)
  rw [toU32_of_nonneg _ h0 (by omega)]
  omega

/-- C10: in each of the four contexts and for every pair of 32-bit codes (valid or not,
with any flag bits), `hdspe_ltc32_diff_frames` is the non-negative remainder of the
difference of the two frame counts modulo the frames per day, hence lies in
0 .. fpd-1. -/
theorem C10_diff_frames_range (fps df : Int) (a b : Nat) (hc : LtcContext fps df) :
    ((hdspe_ltc32_diff_frames a b fps df : Nat) : Int) =
      (((hdspe_ltc32_to_frames a fps df : Nat) : Int)
        - ((hdspe_ltc32_to_frames b fps df : Nat) : Int)) % hdspe_ltc_fpd fps df ∧
    0 ≤ ((hdspe_ltc32_diff_frames a b fps df : Nat) : Int) ∧
    ((hdspe_ltc32_diff_frames a b fps df : Nat) : Int) ≤ hdspe_ltc_fpd fps df - 1 := by
  obtain ⟨fpsN, rfl, hcN⟩ := lift_ctx fps df hc
  have hpos := fpdN_pos fpsN df hcN
  rw [fpd_cast _ _ hcN, diff_frames_eq a b fpsN df hcN]
  have h0 := Int.emod_nonneg (((hdspe_ltc32_to_frames a (fpsN : Int) df : Nat) : Int)
        - ((hdspe_ltc32_to_frames b (fpsN : Int) df : Nat) : Int))
    (show ((fpdN fpsN df : Nat) : Int) ≠ 0 by omega)
  have h1 := Int.emod_lt_of_pos (((hdspe_ltc32_to_frames a (fpsN : Int) df : Nat) : Int)
        - ((hdspe_ltc32_to_frames b (fpsN : Int) df : Nat) : Int))
    (show (0 : Int) < ((fpdN fpsN df : Nat) : Int) by omega)
  exact ⟨rfl, h0, by omega⟩

theorem C10_diff_frames_range_witness :
    ((hdspe_ltc32_diff_frames 0xffffffff 0x00000001 30 1 : Nat) : Int) =
      (((hdspe_ltc32_to_frames 0xffffffff 30 1 : Nat) : Int)
        - ((hdspe_ltc32_to_frames 0x00000001 30 1 : Nat) : Int)) % hdspe_ltc_fpd 30 1 ∧
    0 ≤ ((hdspe_ltc32_diff_frames 0xffffffff 0x00000001 30 1 : Nat) : Int) ∧
    ((hdspe_ltc32_diff_frames 0xffffffff 0x00000001 30 1 : Nat) : Int)
      ≤ hdspe_ltc_fpd 30 1 - 1 :=
  C10_diff_frames_range 30 1 0xffffffff 0x00000001 (by unfold LtcContext; decide)

/-- C9: in each of the four contexts and for every signed 32-bit frame count `n`, the
frame count of `hdspe_ltc32_from_frames n` is the non-negative remainder of `n` modulo
the frames per day, and `from_frames n = from_frames (n mod fpd)`. -/
theorem C9_from_frames_normalises (fps df n : Int) (hc : LtcContext fps df)
    (_hn : -2147483648 ≤ n ∧ n < 2147483648) :
    ((hdspe_ltc32_to_frames (hdspe_ltc32_from_frames n fps df) fps df : Nat) : Int)
      = n % hdspe_ltc_fpd fps df ∧
    0 ≤ n % hdspe_ltc_fpd fps df ∧ n % hdspe_ltc_fpd fps df < hdspe_ltc_fpd fps df ∧
    hdspe_ltc32_from_frames n fps df
      = hdspe_ltc32_from_frames (n % hdspe_ltc_fpd fps df) fps df := by
  obtain ⟨fpsN, rfl, hcN⟩ := lift_ctx fps df hc
  have hpos := fpdN_pos fpsN df hcN
  have hpos' : 0 < hdspe_ltc_fpd (fpsN : Int) df := by
    rw [fpd_cast _ _ hcN]
    omega
  have h0 : 0 ≤ n % (fpdN fpsN df : Int) := Int.emod_nonneg _ (by omega)
  have h1 : n % (fpdN fpsN df : Int) < (fpdN fpsN df : Int) := Int.emod_lt_of_pos _ (by omega)
  refine ⟨?_, ?_, ?_, from_frames_norm n _ _ hpos'⟩
  · rw [to_frames_from_frames fpsN df n hcN, fpd_cast _ _ hcN]
    omega
  · rw [fpd_cast _ _ hcN]
    exact h0
  · rw [fpd_cast _ _ hcN]
    exact h1

theorem C9_from_frames_normalises_witness :
    ((hdspe_ltc32_to_frames (hdspe_ltc32_from_frames (-1) 30 1) 30 1 : Nat) : Int)
      = (-1) % hdspe_ltc_fpd 30 1 ∧
    0 ≤ (-1) % hdspe_ltc_fpd 30 1 ∧ (-1) % hdspe_ltc_fpd 30 1 < hdspe_ltc_fpd 30 1 ∧
    hdspe_ltc32_from_frames (-1) 30 1
      = hdspe_ltc32_from_frames ((-1) % hdspe_ltc_fpd 30 1) 30 1 :=
  C9_from_frames_normalises 30 1 (-1) (by unfold LtcContext; decide) (by decide)

theorem diff_add_tcode (fps : Nat) (df : Int) (h m s f : Nat) (n : Int) (hc : CtxN fps df)
    (hv : ValidN fps (df ≠ 0) h m s f)
    (hov : -2147483648 ≤ (frameN fps df h m s f : Int) + n ∧
      (frameN fps df h m s f : Int) + n < 2147483648) :
    ((hdspe_ltc32_diff_frames (hdspe_ltc32_add_frames n (tcode h m s f) (fps : Int) df)
        (tcode h m s f) (fps : Int) df : Nat) : Int) = n % (fpdN fps df : Int) := by
  have hlt := frameN_lt fps df h m s f hc hv
  have hle := fpdN_le fps df hc
  have hpos := fpdN_pos fps df hc
  rw [diff_frames_eq _ _ fps df hc]
  unfold hdspe_ltc32_add_frames
  simp only []
  rw [to_frames_tcode fps df h m s f hc hv, toInt32_of_lt _ (by omega),
    wrapInt_of_range _ hov.1 hov.2, to_frames_from_frames fps df _ hc]
  have h0 : 0 ≤ ((frameN fps df h m s f : Int) + n) % (fpdN fps df : Int) :=
    Int.emod_nonneg _ (by omega)
  rw [Int.toNat_of_nonneg h0, Int.sub_emod, Int.emod_emod, ← Int.sub_emod]
  congr 1
  omega

/-- C5: in each of the four contexts, for a valid time code `tc` and a frame offset `n`,
`diff_frames (add_frames n tc) tc` is `n` for `0 ≤ n < fpd` and `n + fpd` for
`-fpd < n < 0`; and it is the non-negative remainder of `n` modulo fpd for every 32-bit
`n` for which `to_frames tc + n` does not overflow a signed 32-bit integer. -/
theorem C5_diff_add (fps df h m s f n : Int) (hc : LtcContext fps df)
    (hv : ValidHMSF fps df h m s f) :
    (-hdspe_ltc_fpd fps df < n ∧ n < hdspe_ltc_fpd fps df →
      ((hdspe_ltc32_diff_frames
          (hdspe_ltc32_add_frames n (hdspe_ltc32_compose h m s f) fps df)
          (hdspe_ltc32_compose h m s f) fps df : Nat) : Int)
        = if 0 ≤ n then n else n + hdspe_ltc_fpd fps df) ∧
    (-2147483648 ≤ n ∧ n < 2147483648 ∧
      -2147483648 ≤ toInt32 (hdspe_ltc32_to_frames (hdspe_ltc32_compose h m s f) fps df) + n ∧
      toInt32 (hdspe_ltc32_to_frames (hdspe_ltc32_compose h m s f) fps df) + n < 2147483648 →
      ((hdspe_ltc32_diff_frames
          (hdspe_ltc32_add_frames n (hdspe_ltc32_compose h m s f) fps df)
          (hdspe_ltc32_compose h m s f) fps df : Nat) : Int)
        = n % hdspe_ltc_fpd fps df) := by
  obtain ⟨fpsN, hN, mN, sN, fN, rfl, rfl, rfl, rfl, rfl, hcN, hvN, hcomp⟩ :=
    lift_valid fps df h m s f hc hv
  have hlt := frameN_lt fpsN df hN mN sN fN hcN hvN
  have hle := fpdN_le fpsN df hcN
  have hpos := fpdN_pos fpsN df hcN
  rw [hcomp, fpd_cast _ _ hcN, to_frames_tcode fpsN df hN mN sN fN hcN hvN,
    toInt32_of_lt _ (by omega)]
  constructor
  · rintro ⟨h1, h2⟩
    rw [diff_add_tcode fpsN df hN mN sN fN n hcN hvN ⟨by omega, by omega⟩]
    split_ifs with hn0
    · exact Int.emod_eq_of_lt hn0 h2
    · rw [← Int.add_mul_emod_self_left n (fpdN fpsN df : Int) 1, Int.mul_one]
      exact Int.emod_eq_of_lt (by omega) (by omega)
  · rintro ⟨-, -, h3, h4⟩
    exact diff_add_tcode fpsN df hN mN sN fN n hcN hvN ⟨h3, h4⟩

theorem C5_diff_add_witness :
    ((hdspe_ltc32_diff_frames
        (hdspe_ltc32_add_frames (-5) (hdspe_ltc32_compose 0 1 0 2) 30 1)
        (hdspe_ltc32_compose 0 1 0 2) 30 1 : Nat) : Int) = -5 + hdspe_ltc_fpd 30 1 ∧
    ((hdspe_ltc32_diff_frames
        (hdspe_ltc32_add_frames (-5) (hdspe_ltc32_compose 0 1 0 2) 30 1)
        (hdspe_ltc32_compose 0 1 0 2) 30 1 : Nat) : Int) = (-5) % hdspe_ltc_fpd 30 1 :=
  ⟨(C5_diff_add 30 1 0 1 0 2 (-5) (by unfold LtcContext; decide)
      (by unfold ValidHMSF; decide)).1 (by decide),
    (C5_diff_add 30 1 0 1 0 2 (-5) (by unfold LtcContext; decide)
      (by unfold ValidHMSF; decide)).2 (by decide)⟩

/-- C7: at 30 fps drop-frame, for every hour `h` and minute `m < 59`, incrementing
`h:m:59:29` gives `h:(m+1):00:02` when `m+1` is not a multiple of ten and
`h:(m+1):00:00` when it is; non-drop-frame it always gives `h:(m+1):00:00`. -/
theorem C7_drop_frame_minute (h m : Int) (hh : 0 ≤ h ∧ h < 24) (hm : 0 ≤ m ∧ m < 59) :
    hdspe_ltc32_incr (hdspe_ltc32_compose h m 59 29) 30 1
      = (if (m + 1) % 10 ≠ 0 then hdspe_ltc32_compose h (m + 1) 0 2
          else hdspe_ltc32_compose h (m + 1) 0 0) ∧
    hdspe_ltc32_incr (hdspe_ltc32_compose h m 59 29) 30 0 = hdspe_ltc32_compose h (m + 1) 0 0 := by
  have e1 : h = (h.toNat : Int) := by omega
  have e2 : m = (m.toNat : Int) := by omega
  have e3 : m + 1 = ((m.toNat + 1 : Nat) : Int) := by omega
  have hcond : ((m + 1) % 10 ≠ 0) ↔ ((m.toNat + 1) % 10 ≠ 0) := by omega
  have hb1 : h.toNat < 24 := by omega
  have hb2 : m.toNat < 59 := by omega
  rw [e3, e1, e2]
  simp only [Int.toNat_ofNat]
  generalize h.toNat = hN at *
  generalize m.toNat = mN at *
  have c1 := compose_eq_tcode hN mN 59 29 (by omega) (by omega) (by omega) (by omega)
  have c2 := compose_eq_tcode hN (mN + 1) 0 2 (by omega) (by omega) (by omega) (by omega)
  have c3 := compose_eq_tcode hN (mN + 1) 0 0 (by omega) (by omega) (by omega) (by omega)
  simp only [Nat.cast_ofNat, Nat.cast_zero] at c1 c2 c3
  rw [c1, c2, c3]
  have i1 := incr_tcode 30 1 hN mN 59 29 (by omega) ⟨hb1, by omega, by omega, by omega, by omega⟩
  have i0 := incr_tcode 30 0 hN mN 59 29 (by omega) ⟨hb1, by omega, by omega, by omega, by omega⟩
  simp only [Nat.cast_ofNat] at i1 i0
  rw [i1, i0]
  unfold nextN
  have n1 : ¬ (29 + 1 < 30) := by decide
  have n2 : ¬ (59 + 1 < 60) := by decide
  have p3 : mN + 1 < 60 := by omega
  have hcond' : ((((mN + 1 : Nat) : Int)) % 10 ≠ 0) ↔ ((mN + 1) % 10 ≠ 0) := by omega
  simp only [n1, n2, p3, hcond', ne_eq, if_true, if_false, true_and, false_and, and_true,
    one_ne_zero, not_false_eq_true, not_true_eq_false]
  by_cases hz : (mN + 1) % 10 = 0
  · rw [if_neg (not_not.mpr hz), if_neg (not_not.mpr hz)]
  · rw [if_pos hz, if_pos hz]

theorem C7_drop_frame_minute_witness :
    hdspe_ltc32_incr (hdspe_ltc32_compose 0 0 59 29) 30 1
      = (if ((0 : Int) + 1) % 10 ≠ 0 then hdspe_ltc32_compose 0 (0 + 1) 0 2
          else hdspe_ltc32_compose 0 (0 + 1) 0 0) ∧
    hdspe_ltc32_incr (hdspe_ltc32_compose 0 0 59 29) 30 0 = hdspe_ltc32_compose 0 (0 + 1) 0 0 :=
  C7_drop_frame_minute 0 0 (by decide) (by decide)

/-- C8: in each of the four contexts, incrementing `23:59:59:(fps-1)` gives `00:00:00:00`
and decrementing `00:00:00:00` gives `23:59:59:(fps-1)`. -/
theorem C8_day_wraparound (fps df : Int) (hc : LtcContext fps df) :
    hdspe_ltc32_incr (hdspe_ltc32_compose 23 59 59 (fps - 1)) fps df
      = hdspe_ltc32_compose 0 0 0 0 ∧
    hdspe_ltc32_decr (hdspe_ltc32_compose 0 0 0 0) fps df
      = hdspe_ltc32_compose 23 59 59 (fps - 1) := by
  unfold LtcContext at hc
  rcases hc with ⟨rfl, rfl⟩ | ⟨rfl, rfl⟩ | ⟨rfl, rfl⟩ | ⟨rfl, rfl⟩ <;> exact ⟨by decide, by decide⟩

theorem C8_day_wraparound_witness :
    hdspe_ltc32_incr (hdspe_ltc32_compose 23 59 59 (24 - 1)) 24 0
      = hdspe_ltc32_compose 0 0 0 0 ∧
    hdspe_ltc32_decr (hdspe_ltc32_compose 0 0 0 0) 24 0
      = hdspe_ltc32_compose 23 59 59 (24 - 1) :=
  C8_day_wraparound 24 0 (by unfold LtcContext; decide)

theorem masked_lt (a : Nat) : a &&& 0x3f7f7f3f < 1073741824 := by
  rw [mask_3f7f7f3f]
  omega

theorem cmp_eq_zero_iff (a b : Nat) :
    hdspe_ltc32_cmp a b = 0 ↔ a &&& 0x3f7f7f3f = b &&& 0x3f7f7f3f := by
  unfold hdspe_ltc32_cmp
  have ha := masked_lt a
  have hb := masked_lt b
  rw [toInt32_of_lt _ (by omega), toInt32_of_lt _ (by omega)]
  omega

theorem tcode_inj (h m s f h2 m2 s2 f2 : Nat) (hh : h < 40) (hm : m < 80) (hs : s < 80)
    (hf : f < 40) (hh2 : h2 < 40) (hm2 : m2 < 80) (hs2 : s2 < 80) (hf2 : f2 < 40)
    (e : tcode h m s f = tcode h2 m2 s2 f2) : h2 = h ∧ m2 = m ∧ s2 = s ∧ f2 = f := by
  obtain ⟨a0, a1, a2, a3, a4, a5, a6, a7⟩ := tcode_fields h m s f hh hm hs hf
  obtain ⟨b0, b1, b2, b3, b4, b5, b6, b7⟩ := tcode_fields h2 m2 s2 f2 hh2 hm2 hs2 hf2
  rw [← e] at b0 b1 b2 b3 b4 b5 b6 b7
  generalize tcode h m s f = x at *
  clear e
  refine ⟨?_, ?_, ?_, ?_⟩ <;> omega

theorem tcode_succ (h m s f h2 m2 s2 f2 : Nat) (hh : h < 40) (hm : m < 80) (hs : s < 80)
    (hf : f < 40) (hh2 : h2 < 40) (hm2 : m2 < 80) (hs2 : s2 < 80) (hf2 : f2 < 40)
    (e : tcode h m s f + 1 = tcode h2 m2 s2 f2) : h2 = h ∧ m2 = m ∧ s2 = s ∧ f2 = f + 1 := by
  obtain ⟨a0, a1, a2, a3, a4, a5, a6, a7⟩ := tcode_fields h m s f hh hm hs hf
  obtain ⟨b0, b1, b2, b3, b4, b5, b6, b7⟩ := tcode_fields h2 m2 s2 f2 hh2 hm2 hs2 hf2
  rw [← e] at b0 b1 b2 b3 b4 b5 b6 b7
  generalize tcode h m s f = x at *
  clear e
  have c0 : x % 16 ≤ 9 := by omega
  have d1 : (x + 1) / 16 = x / 16 := by omega
  have d0 : (x + 1) % 16 = x % 16 + 1 := by omega
  have d2 : (x + 1) / 256 = x / 256 := by omega
  have d3 : (x + 1) / 4096 = x / 4096 := by omega
  have d4 : (x + 1) / 65536 = x / 65536 := by omega
  have d5 : (x + 1) / 1048576 = x / 1048576 := by omega
  have d6 : (x + 1) / 16777216 = x / 16777216 := by omega
  have d7 : (x + 1) / 268435456 = x / 268435456 := by omega
  rw [d0] at b0
  rw [d1] at b1
  rw [d2] at b2
  rw [d3] at b3
  rw [d4] at b4
  rw [d5] at b5
  rw [d6] at b6
  rw [d7] at b7
  clear d0 d1 d2 d3 d4 d5 d6 d7
  refine ⟨?_, ?_, ?_, ?_⟩ <;> omega

theorem tcode_succ_masked (h m s f : Nat) (hh : h < 40) (hm : m < 80) (hs : s < 80)
    (hf : f < 40) :
    ((tcode h m s f + 1) % 4294967296) &&& 0x3f7f7f3f = tcode h m s f + 1 := by
  obtain ⟨a0, a1, a2, a3, a4, a5, a6, a7⟩ := tcode_fields h m s f hh hm hs hf
  have hmk := tcode_masked h m s f hh hm hs hf
  obtain ⟨g0, g1, g2, g3, g4, hx⟩ := tcode_fields2 h m s f hh hm hs hf
  rw [mask_3f7f7f3f] at hmk
  generalize tcode h m s f = x at *
  have e32 : (x + 1) % 4294967296 = x + 1 := Nat.mod_eq_of_lt (by omega)
  rw [e32, mask_3f7f7f3f]
  have c0 : x % 16 ≤ 9 := by omega
  have d0 : (x + 1) % 64 = x % 64 + 1 := by omega
  have d2 : (x + 1) / 256 = x / 256 := by omega
  have d4 : (x + 1) / 65536 = x / 65536 := by omega
  have d6 : (x + 1) / 16777216 = x / 16777216 := by omega
  rw [d0, d2, d4, d6]
  omega

theorem frameN_inj (fps : Nat) (df : Int) (h m s f h2 m2 s2 f2 : Nat) (hc : CtxN fps df)
    (hv : ValidN fps (df ≠ 0) h m s f) (hv2 : ValidN fps (df ≠ 0) h2 m2 s2 f2)
    (e : frameN fps df h2 m2 s2 f2 = frameN fps df h m s f) :
    h2 = h ∧ m2 = m ∧ s2 = s ∧ f2 = f := by
  have r1 := hmsfOf_frameN fps df h m s f hc hv
  have r2 := hmsfOf_frameN fps df h2 m2 s2 f2 hc hv2
  rw [e, r1] at r2
  simp only [Prod.mk.injEq] at r2
  omega

theorem valid_bounds (fps : Nat) (df : Int) (h m s f : Nat) (hc : CtxN fps df)
    (hv : ValidN fps (df ≠ 0) h m s f) : h < 40 ∧ m < 80 ∧ s < 80 ∧ f < 40 := by
  obtain ⟨hfps, hdf⟩ := hc
  obtain ⟨h1, h2, h3, h4, h5⟩ := hv
  omega

theorem running_tcode (fps : Nat) (df : Int) (h m s f h2 m2 s2 f2 : Nat) (hc : CtxN fps df)
    (hv : ValidN fps (df ≠ 0) h m s f) (hv2 : ValidN fps (df ≠ 0) h2 m2 s2 f2) :
    hdspe_ltc32_running (tcode h m s f) (tcode h2 m2 s2 f2) (fps : Int) df =
      if frameN fps df h2 m2 s2 f2 = (frameN fps df h m s f + 1) % fpdN fps df then 1
      else if (frameN fps df h2 m2 s2 f2 + 1) % fpdN fps df = frameN fps df h m s f then -1
      else 0 := by
  obtain ⟨b1, b2, b3, b4⟩ := valid_bounds fps df h m s f hc hv
  obtain ⟨c1, c2, c3, c4⟩ := valid_bounds fps df h2 m2 s2 f2 hc hv2
  have hn := nextN_valid fps df h m s f hc hv
  have hn2 := nextN_valid fps df h2 m2 s2 f2 hc hv2
  have fn := frameN_nextN fps df h m s f hc hv
  have fn2 := frameN_nextN fps df h2 m2 s2 f2 hc hv2
  obtain ⟨d1, d2, d3, d4⟩ := valid_bounds fps df _ _ _ _ hc hn
  obtain ⟨d5, d6, d7, d8⟩ := valid_bounds fps df _ _ _ _ hc hn2
  have hlt2 := frameN_lt fps df h2 m2 s2 f2 hc hv2
  have i1 := incr_tcode fps df h m s f hc.1 hv
  have i2 := incr_tcode fps df h2 m2 s2 f2 hc.1 hv2
  have k0 := tcode_succ_masked h m s f b1 b2 b3 b4
  have k1 := tcode_masked h m s f b1 b2 b3 b4
  have k2 := tcode_masked h2 m2 s2 f2 c1 c2 c3 c4
  have k3 := tcode_masked _ _ _ _ d1 d2 d3 d4
  have k4 := tcode_masked _ _ _ _ d5 d6 d7 d8
  unfold hdspe_ltc32_running
  simp only [cmp_eq_zero_iff, i1, i2, k0, k1, k2, k3, k4]
  clear i1 i2 k0 k1 k2 k3 k4
  -- the +1 test
  have hA : (tcode h m s f + 1 = tcode h2 m2 s2 f2 ∨
      tcode (nextN fps (df ≠ 0) h m s f).1 (nextN fps (df ≠ 0) h m s f).2.1
        (nextN fps (df ≠ 0) h m s f).2.2.1 (nextN fps (df ≠ 0) h m s f).2.2.2
        = tcode h2 m2 s2 f2) ↔
      frameN fps df h2 m2 s2 f2 = (frameN fps df h m s f + 1) % fpdN fps df := by
    constructor
    · rintro (e | e)
      · obtain ⟨rfl, rfl, rfl, rfl⟩ := tcode_succ h m s f h2 m2 s2 f2 b1 b2 b3 b4 c1 c2 c3 c4 e
        have e1 : frameN fps df h2 m2 s2 (f + 1) = frameN fps df h2 m2 s2 f + 1 := by
          unfold frameN frameDf frameNdf
          split_ifs <;> omega
        rw [← e1, Nat.mod_eq_of_lt hlt2]
      · obtain ⟨r1, r2, r3, r4⟩ := tcode_inj _ _ _ _ h2 m2 s2 f2 d1 d2 d3 d4 c1 c2 c3 c4 e
        rw [← fn, ← r1, ← r2, ← r3, ← r4]
    · intro e
      right
      rw [← fn] at e
      obtain ⟨r1, r2, r3, r4⟩ := frameN_inj fps df _ _ _ _ h2 m2 s2 f2 hc hn hv2 e
      rw [r1, r2, r3, r4]
  -- the -1 test
  have hB : (tcode (nextN fps (df ≠ 0) h2 m2 s2 f2).1 (nextN fps (df ≠ 0) h2 m2 s2 f2).2.1
        (nextN fps (df ≠ 0) h2 m2 s2 f2).2.2.1 (nextN fps (df ≠ 0) h2 m2 s2 f2).2.2.2
        = tcode h m s f) ↔
      (frameN fps df h2 m2 s2 f2 + 1) % fpdN fps df = frameN fps df h m s f := by
    constructor
    · intro e
      obtain ⟨r1, r2, r3, r4⟩ := tcode_inj _ _ _ _ h m s f d5 d6 d7 d8 b1 b2 b3 b4 e
      rw [← fn2, ← r1, ← r2, ← r3, ← r4]
    · intro e
      rw [← fn2] at e
      obtain ⟨r1, r2, r3, r4⟩ := frameN_inj fps df _ _ _ _ h m s f hc hn2 hv e.symm
      rw [r1, r2, r3, r4]
  simp only [hA, hB]

theorem fpdN_cases (fps : Nat) (df : Int) (hc : CtxN fps df) :
    fpdN fps df = 2073600 ∨ fpdN fps df = 2160000 ∨ fpdN fps df = 2592000 ∨
      fpdN fps df = 2589408 := by
  obtain ⟨hfps, hdf⟩ := hc
  unfold fpdN
  split_ifs <;> omega

theorem running_arith (d F : Nat) (n : Int)
    (hd : d = 2073600 ∨ d = 2160000 ∨ d = 2592000 ∨ d = 2589408) (hF : F < d)
    (hn : -(d : Int) < n ∧ n < (d : Int)) :
    (if (((F : Int) + n) % (d : Int)).toNat = (F + 1) % d then (1 : Int)
      else if ((((F : Int) + n) % (d : Int)).toNat + 1) % d = F then -1 else 0) =
    (if n = 1 ∨ n = 1 - (d : Int) then 1 else if n = -1 ∨ n = (d : Int) - 1 then -1 else 0) := by
  rcases hd with rfl | rfl | rfl | rfl <;> split_ifs <;> omega

/-- C6: in each of the four contexts, for a valid time code `tc` and `-fpd < n < fpd`,
the running direction from `tc` to `add_frames n tc` is +1 when `n = 1` or `n = 1 - fpd`,
-1 when `n = -1` or `n = fpd - 1`, and 0 otherwise. -/
theorem C6_running_shifted (fps df h m s f n : Int) (hc : LtcContext fps df)
    (hv : ValidHMSF fps df h m s f)
    (hn : -hdspe_ltc_fpd fps df < n ∧ n < hdspe_ltc_fpd fps df) :
    hdspe_ltc32_running (hdspe_ltc32_compose h m s f)
        (hdspe_ltc32_add_frames n (hdspe_ltc32_compose h m s f) fps df) fps df
      = if n = 1 ∨ n = 1 - hdspe_ltc_fpd fps df then 1
        else if n = -1 ∨ n = hdspe_ltc_fpd fps df - 1 then -1 else 0 := by
  obtain ⟨fpsN, hN, mN, sN, fN, rfl, rfl, rfl, rfl, rfl, hcN, hvN, hcomp⟩ :=
    lift_valid fps df h m s f hc hv
  have hlt := frameN_lt fpsN df hN mN sN fN hcN hvN
  have hle := fpdN_le fpsN df hcN
  have hpos := fpdN_pos fpsN df hcN
  rw [fpd_cast _ _ hcN] at hn
  have h0 : 0 ≤ ((frameN fpsN df hN mN sN fN : Int) + n) % (fpdN fpsN df : Int) :=
    Int.emod_nonneg _ (by omega)
  have h1 : ((frameN fpsN df hN mN sN fN : Int) + n) % (fpdN fpsN df : Int)
      < (fpdN fpsN df : Int) := Int.emod_lt_of_pos _ (by omega)
  have hk : (((frameN fpsN df hN mN sN fN : Int) + n) % (fpdN fpsN df : Int)).toNat
      < fpdN fpsN df := by omega
  have hadd : hdspe_ltc32_add_frames n (tcode hN mN sN fN) (fpsN : Int) df =
      tcode (hmsfOf fpsN df
          (((frameN fpsN df hN mN sN fN : Int) + n) % (fpdN fpsN df : Int)).toNat).1
        (hmsfOf fpsN df
          (((frameN fpsN df hN mN sN fN : Int) + n) % (fpdN fpsN df : Int)).toNat).2.1
        (hmsfOf fpsN df
          (((frameN fpsN df hN mN sN fN : Int) + n) % (fpdN fpsN df : Int)).toNat).2.2.1
        (hmsfOf fpsN df
          (((frameN fpsN df hN mN sN fN : Int) + n) % (fpdN fpsN df : Int)).toNat).2.2.2 := by
    unfold hdspe_ltc32_add_frames
    simp only []
    rw [to_frames_tcode fpsN df hN mN sN fN hcN hvN, toInt32_of_lt _ (by omega),
      wrapInt_of_range _ (by omega) (by omega), from_frames_int fpsN df _ hcN]
  rw [hcomp, hadd, fpd_cast _ _ hcN,
    running_tcode fpsN df hN mN sN fN _ _ _ _ hcN hvN (hmsfOf_valid fpsN df _ hcN hk),
    frameN_hmsfOf fpsN df _ hcN hk]
  exact running_arith _ _ n (fpdN_cases fpsN df hcN) hlt hn

theorem C6_running_shifted_witness :
    hdspe_ltc32_running (hdspe_ltc32_compose 23 59 59 29)
        (hdspe_ltc32_add_frames (1 - hdspe_ltc_fpd 30 1) (hdspe_ltc32_compose 23 59 59 29) 30 1)
        30 1
      = if 1 - hdspe_ltc_fpd 30 1 = 1 ∨ 1 - hdspe_ltc_fpd 30 1 = 1 - hdspe_ltc_fpd 30 1 then 1
        else if 1 - hdspe_ltc_fpd 30 1 = -1 ∨ 1 - hdspe_ltc_fpd 30 1 = hdspe_ltc_fpd 30 1 - 1
          then -1 else 0 :=
  C6_running_shifted 30 1 23 59 59 29 (1 - hdspe_ltc_fpd 30 1) (by unfold LtcContext; decide)
    (by unfold ValidHMSF; decide) (by decide)

/-! ## Increment, decrement and `add_frames` -/

theorem pred_succ_mod (d F : Nat) (hd : 0 < d) (hF : F < d) : ((F + d - 1) % d + 1) % d = F := by
  by_cases h0 : F = 0
  · subst h0
    have e1 : (0 + d - 1) % d = 0 + d - 1 := Nat.mod_eq_of_lt (by omega)
    have e2 : 0 + d - 1 + 1 = d := by omega
    rw [e1, e2, Nat.mod_self]
  · have e : F + d - 1 = (F - 1) + d := by omega
    have e1 : (F - 1) % d = F - 1 := Nat.mod_eq_of_lt (by omega)
    have e2 : (F - 1 + 1) % d = F - 1 + 1 := Nat.mod_eq_of_lt (by omega)
    rw [e, Nat.add_mod_right, e1, e2]
    omega

theorem succ_emod_toNat (d F : Nat) : (((F : Int) + 1) % (d : Int)).toNat = (F + 1) % d := by
  have e : ((F : Int) + 1) % (d : Int) = (((F + 1) % d : Nat) : Int) := by
    push_cast
    rfl
  rw [e, Int.toNat_ofNat]

theorem pred_emod_toNat (d F : Nat) (hd : 0 < d) :
    (((F : Int) + -1) % (d : Int)).toNat = (F + d - 1) % d := by
  have e : ((F : Int) + -1) % (d : Int) = (((F + d - 1) % d : Nat) : Int) := by
    rw [← Int.add_emod_self]
    have e2 : (F : Int) + -1 + (d : Int) = ((F + d - 1 : Nat) : Int) := by omega
    rw [e2]
    rfl
  rw [e, Int.toNat_ofNat]

theorem add_frames_tcode (fps : Nat) (df : Int) (h m s f : Nat) (n : Int) (hc : CtxN fps df)
    (hv : ValidN fps (df ≠ 0) h m s f)
    (hov : -2147483648 ≤ (frameN fps df h m s f : Int) + n ∧
      (frameN fps df h m s f : Int) + n < 2147483648) :
    hdspe_ltc32_add_frames n (tcode h m s f) (fps : Int) df =
      tcode (hmsfOf fps df (((frameN fps df h m s f : Int) + n) % (fpdN fps df : Int)).toNat).1
        (hmsfOf fps df (((frameN fps df h m s f : Int) + n) % (fpdN fps df : Int)).toNat).2.1
        (hmsfOf fps df (((frameN fps df h m s f : Int) + n) % (fpdN fps df : Int)).toNat).2.2.1
        (hmsfOf fps df (((frameN fps df h m s f : Int) + n) % (fpdN fps df : Int)).toNat).2.2.2 := by
  have hlt := frameN_lt fps df h m s f hc hv
  have hle := fpdN_le fps df hc
  unfold hdspe_ltc32_add_frames
  simp only []
  rw [to_frames_tcode fps df h m s f hc hv, toInt32_of_lt _ (by omega),
    wrapInt_of_range _ hov.1 hov.2, from_frames_int fps df _ hc]

theorem nextN_eq_hmsfOf (fps : Nat) (df : Int) (h m s f : Nat) (hc : CtxN fps df)
    (hv : ValidN fps (df ≠ 0) h m s f) :
    nextN fps (df ≠ 0) h m s f = hmsfOf fps df ((frameN fps df h m s f + 1) % fpdN fps df) := by
  rw [← frameN_nextN fps df h m s f hc hv,
    hmsfOf_frameN fps df _ _ _ _ hc (nextN_valid fps df h m s f hc hv)]

theorem prevN_eq_hmsfOf (fps : Nat) (df : Int) (h m s f : Nat) (hc : CtxN fps df)
    (hv : ValidN fps (df ≠ 0) h m s f) :
    prevN fps (df ≠ 0) h m s f =
      hmsfOf fps df ((frameN fps df h m s f + fpdN fps df - 1) % fpdN fps df) := by
  have hpos := fpdN_pos fps df hc
  have hlt := frameN_lt fps df h m s f hc hv
  have hk : (frameN fps df h m s f + fpdN fps df - 1) % fpdN fps df < fpdN fps df :=
    Nat.mod_lt _ hpos
  have hq := hmsfOf_valid fps df _ hc hk
  have fq := frameN_hmsfOf fps df _ hc hk
  have fn := frameN_nextN fps df _ _ _ _ hc hq
  rw [fq, pred_succ_mod _ _ hpos hlt] at fn
  obtain ⟨r1, r2, r3, r4⟩ := frameN_inj fps df h m s f _ _ _ _ hc hv
    (nextN_valid fps df _ _ _ _ hc hq) fn
  have hp := prevN_nextN fps df _ _ _ _ hc hq
  rw [r1, r2, r3, r4] at hp
  exact hp

/-- C11: in each of the four contexts and for every valid time code, the field-wise
increment is `add_frames 1` and the field-wise decrement is `add_frames (-1)`. -/
theorem C11_incr_decr_add_frames (fps df h m s f : Int) (hc : LtcContext fps df)
    (hv : ValidHMSF fps df h m s f) :
    hdspe_ltc32_incr (hdspe_ltc32_compose h m s f) fps df
      = hdspe_ltc32_add_frames 1 (hdspe_ltc32_compose h m s f) fps df ∧
    hdspe_ltc32_decr (hdspe_ltc32_compose h m s f) fps df
      = hdspe_ltc32_add_frames (-1) (hdspe_ltc32_compose h m s f) fps df := by
  obtain ⟨fpsN, hN, mN, sN, fN, rfl, rfl, rfl, rfl, rfl, hcN, hvN, hcomp⟩ :=
    lift_valid fps df h m s f hc hv
  have hlt := frameN_lt fpsN df hN mN sN fN hcN hvN
  have hle := fpdN_le fpsN df hcN
  have hpos := fpdN_pos fpsN df hcN
  rw [hcomp]
  constructor
  · rw [incr_tcode fpsN df hN mN sN fN hcN.1 hvN,
      add_frames_tcode fpsN df hN mN sN fN 1 hcN hvN (by omega), succ_emod_toNat,
      nextN_eq_hmsfOf fpsN df hN mN sN fN hcN hvN]
  · rw [decr_tcode fpsN df hN mN sN fN hcN.1 hvN,
      add_frames_tcode fpsN df hN mN sN fN (-1) hcN hvN (by omega), pred_emod_toNat _ _ hpos,
      prevN_eq_hmsfOf fpsN df hN mN sN fN hcN hvN]

theorem C11_incr_decr_add_frames_witness :
    hdspe_ltc32_incr (hdspe_ltc32_compose 0 0 59 29) 30 1
      = hdspe_ltc32_add_frames 1 (hdspe_ltc32_compose 0 0 59 29) 30 1 ∧
    hdspe_ltc32_decr (hdspe_ltc32_compose 0 0 59 29) 30 1
      = hdspe_ltc32_add_frames (-1) (hdspe_ltc32_compose 0 0 59 29) 30 1 :=
  C11_incr_decr_add_frames 30 1 0 0 59 29 (by unfold LtcContext; decide)
    (by unfold ValidHMSF; decide)

/-! ## Comparison and chronological order -/

theorem land_lor_distrib (a b c : Nat) : (a ||| b) &&& c = (a &&& c) ||| (b &&& c) := by
  apply Nat.eq_of_testBit_eq
  intro i
  simp only [Nat.testBit_and, Nat.testBit_or]
  cases a.testBit i <;> cases b.testBit i <;> cases c.testBit i <;> rfl

theorem flags_masked (a fa : Nat) (ha : a &&& 0x3f7f7f3f = a) (hfa : fa &&& 0x3f7f7f3f = 0) :
    (a ||| fa) &&& 0x3f7f7f3f = a := by
  rw [land_lor_distrib, ha, hfa, Nat.or_zero]

theorem lex_total (h m s f h2 m2 s2 f2 : Nat) :
    LexLt h m s f h2 m2 s2 f2 ∨ (h = h2 ∧ m = m2 ∧ s = s2 ∧ f = f2) ∨
      LexLt h2 m2 s2 f2 h m s f := by
  unfold LexLt
  omega

theorem lex_lt_tcode (h m s f h2 m2 s2 f2 : Nat) (hm : m < 60) (hs : s < 60) (hf : f < 30)
    (hl : LexLt h m s f h2 m2 s2 f2) :
    tcode h m s f < tcode h2 m2 s2 f2 := by
  unfold LexLt at hl
  unfold tcode
  omega

theorem lex_lt_frameN (fps : Nat) (df : Int) (h m s f h2 m2 s2 f2 : Nat) (hc : CtxN fps df)
    (hv : ValidN fps (df ≠ 0) h m s f) (hv2 : ValidN fps (df ≠ 0) h2 m2 s2 f2)
    (hl : LexLt h m s f h2 m2 s2 f2) :
    frameN fps df h m s f < frameN fps df h2 m2 s2 f2 := by
  obtain ⟨hfps, hdf⟩ := hc
  obtain ⟨h1, h2', h3, h4, h5⟩ := hv
  obtain ⟨g1, g2, g3, g4, g5⟩ := hv2
  unfold LexLt at hl
  unfold frameN frameDf frameNdf
  by_cases hd : df ≠ 0
  · have := hdf hd
    have h5' := h5 hd
    have g5' := g5 hd
    subst this
    simp only [if_pos hd]
    omega
  · simp only [if_neg hd]
    rcases hfps with rfl | rfl | rfl <;> omega

theorem cmp_tcode_flags (fps : Nat) (df : Int) (h m s f h2 m2 s2 f2 fa fb : Nat)
    (hc : CtxN fps df) (hv : ValidN fps (df ≠ 0) h m s f)
    (hv2 : ValidN fps (df ≠ 0) h2 m2 s2 f2)
    (hfa : fa &&& 0x3f7f7f3f = 0) (hfb : fb &&& 0x3f7f7f3f = 0) :
    hdspe_ltc32_cmp (tcode h m s f ||| fa) (tcode h2 m2 s2 f2 ||| fb)
        = (tcode h m s f : Int) - (tcode h2 m2 s2 f2 : Int) ∧
    (tcode h m s f ||| fa) &&& 0x3f7f7f3f = tcode h m s f ∧
    (tcode h2 m2 s2 f2 ||| fb) &&& 0x3f7f7f3f = tcode h2 m2 s2 f2 ∧
    tcode h m s f < 1073741824 ∧ tcode h2 m2 s2 f2 < 1073741824 ∧
    ((tcode h m s f < tcode h2 m2 s2 f2 ∧
        frameN fps df h m s f < frameN fps df h2 m2 s2 f2) ∨
      (tcode h m s f = tcode h2 m2 s2 f2 ∧
        frameN fps df h m s f = frameN fps df h2 m2 s2 f2) ∨
      (tcode h2 m2 s2 f2 < tcode h m s f ∧
        frameN fps df h2 m2 s2 f2 < frameN fps df h m s f)) := by
  obtain ⟨b1, b2, b3, b4⟩ := valid_bounds fps df h m s f hc hv
  obtain ⟨c1, c2, c3, c4⟩ := valid_bounds fps df h2 m2 s2 f2 hc hv2
  have k1 := flags_masked _ fa (tcode_masked h m s f b1 b2 b3 b4) hfa
  have k2 := flags_masked _ fb (tcode_masked h2 m2 s2 f2 c1 c2 c3 c4) hfb
  have l1 : tcode h m s f < 1073741824 := by
    have := masked_lt (tcode h m s f)
    rwa [tcode_masked h m s f b1 b2 b3 b4] at this
  have l2 : tcode h2 m2 s2 f2 < 1073741824 := by
    have := masked_lt (tcode h2 m2 s2 f2)
    rwa [tcode_masked h2 m2 s2 f2 c1 c2 c3 c4] at this
  refine ⟨?_, k1, k2, l1, l2, ?_⟩
  · unfold hdspe_ltc32_cmp
    rw [k1, k2, toInt32_of_lt _ (lt_trans l1 (by decide)),
      toInt32_of_lt _ (lt_trans l2 (by decide))]
  · have hf30 : f < 30 ∧ f2 < 30 := by
      obtain ⟨hfps, _⟩ := hc
      obtain ⟨_, _, _, h4, _⟩ := hv
      obtain ⟨_, _, _, g4, _⟩ := hv2
      omega
    rcases lex_total h m s f h2 m2 s2 f2 with hl | ⟨rfl, rfl, rfl, rfl⟩ | hl
    · exact Or.inl ⟨lex_lt_tcode _ _ _ _ _ _ _ _ hv.2.1 hv.2.2.1 hf30.1 hl,
        lex_lt_frameN fps df _ _ _ _ _ _ _ _ hc hv hv2 hl⟩
    · exact Or.inr (Or.inl ⟨rfl, rfl⟩)
    · exact Or.inr (Or.inr ⟨lex_lt_tcode _ _ _ _ _ _ _ _ hv2.2.1 hv2.2.2.1 hf30.2 hl,
        lex_lt_frameN fps df _ _ _ _ _ _ _ _ hc hv2 hv hl⟩)

/-- C12: in each of the four contexts, for valid time codes `a`, `b` and 32-bit flag
patterns `fa`, `fb` that have no bit inside the value mask `0x3f7f7f3f`, the sign of
`hdspe_ltc32_cmp (a|fa) (b|fb)` is the order of the frame counts of `a` and `b`; the
result is the exact difference of the masked values, which fits a signed 32-bit integer,
and it is 0 exactly when the masked values are equal. -/
theorem C12_cmp_chronological (fps df h m s f h2 m2 s2 f2 : Int) (fa fb : Nat)
    (hc : LtcContext fps df) (hv : ValidHMSF fps df h m s f)
    (hv2 : ValidHMSF fps df h2 m2 s2 f2)
    (_hfa32 : fa < 4294967296) (_hfb32 : fb < 4294967296)
    (hfa : fa &&& 0x3f7f7f3f = 0) (hfb : fb &&& 0x3f7f7f3f = 0) :
    (0 < hdspe_ltc32_cmp (hdspe_ltc32_compose h m s f ||| fa)
          (hdspe_ltc32_compose h2 m2 s2 f2 ||| fb) ↔
      hdspe_ltc32_to_frames (hdspe_ltc32_compose h2 m2 s2 f2) fps df
        < hdspe_ltc32_to_frames (hdspe_ltc32_compose h m s f) fps df) ∧
    (hdspe_ltc32_cmp (hdspe_ltc32_compose h m s f ||| fa)
          (hdspe_ltc32_compose h2 m2 s2 f2 ||| fb) = 0 ↔
      hdspe_ltc32_to_frames (hdspe_ltc32_compose h m s f) fps df
        = hdspe_ltc32_to_frames (hdspe_ltc32_compose h2 m2 s2 f2) fps df) ∧
    (hdspe_ltc32_cmp (hdspe_ltc32_compose h m s f ||| fa)
          (hdspe_ltc32_compose h2 m2 s2 f2 ||| fb) < 0 ↔
      hdspe_ltc32_to_frames (hdspe_ltc32_compose h m s f) fps df
        < hdspe_ltc32_to_frames (hdspe_ltc32_compose h2 m2 s2 f2) fps df) ∧
    (hdspe_ltc32_cmp (hdspe_ltc32_compose h m s f ||| fa)
          (hdspe_ltc32_compose h2 m2 s2 f2 ||| fb)
        = (((hdspe_ltc32_compose h m s f ||| fa) &&& 0x3f7f7f3f : Nat) : Int)
          - (((hdspe_ltc32_compose h2 m2 s2 f2 ||| fb) &&& 0x3f7f7f3f : Nat) : Int) ∧
      -2147483648 ≤ (((hdspe_ltc32_compose h m s f ||| fa) &&& 0x3f7f7f3f : Nat) : Int)
          - (((hdspe_ltc32_compose h2 m2 s2 f2 ||| fb) &&& 0x3f7f7f3f : Nat) : Int) ∧
      (((hdspe_ltc32_compose h m s f ||| fa) &&& 0x3f7f7f3f : Nat) : Int)
          - (((hdspe_ltc32_compose h2 m2 s2 f2 ||| fb) &&& 0x3f7f7f3f : Nat) : Int)
        < 2147483648) ∧
    (hdspe_ltc32_cmp (hdspe_ltc32_compose h m s f ||| fa)
          (hdspe_ltc32_compose h2 m2 s2 f2 ||| fb) = 0 ↔
      (hdspe_ltc32_compose h m s f ||| fa) &&& 0x3f7f7f3f
        = (hdspe_ltc32_compose h2 m2 s2 f2 ||| fb) &&& 0x3f7f7f3f) := by
  obtain ⟨fpsN, hN, mN, sN, fN, rfl, rfl, rfl, rfl, rfl, hcN, hvN, hcomp⟩ :=
    lift_valid fps df h m s f hc hv
  obtain ⟨fpsN2, hN2, mN2, sN2, fN2, e2, rfl, rfl, rfl, rfl, _, hvN2, hcomp2⟩ :=
    lift_valid _ df h2 m2 s2 f2 hc hv2
  have e3 : fpsN2 = fpsN := by omega
  subst e3
  obtain ⟨k0, k1, k2, l1, l2, tri⟩ :=
    cmp_tcode_flags fpsN2 df hN mN sN fN hN2 mN2 sN2 fN2 fa fb hcN hvN hvN2 hfa hfb
  rw [hcomp, hcomp2, k0, k1, k2, to_frames_tcode fpsN2 df _ _ _ _ hcN hvN,
    to_frames_tcode fpsN2 df _ _ _ _ hcN hvN2]
  generalize tcode hN mN sN fN = x at *
  generalize tcode hN2 mN2 sN2 fN2 = y at *
  generalize frameN fpsN2 df hN mN sN fN = p at *
  generalize frameN fpsN2 df hN2 mN2 sN2 fN2 = q at *
  omega

theorem C12_cmp_chronological_witness :
    (0 < hdspe_ltc32_cmp (hdspe_ltc32_compose 0 1 0 2 ||| 0xc08080c0)
          (hdspe_ltc32_compose 0 0 59 29 ||| 0x00000040) ↔
      hdspe_ltc32_to_frames (hdspe_ltc32_compose 0 0 59 29) 30 1
        < hdspe_ltc32_to_frames (hdspe_ltc32_compose 0 1 0 2) 30 1) ∧
    (hdspe_ltc32_cmp (hdspe_ltc32_compose 0 1 0 2 ||| 0xc08080c0)
          (hdspe_ltc32_compose 0 0 59 29 ||| 0x00000040) = 0 ↔
      hdspe_ltc32_to_frames (hdspe_ltc32_compose 0 1 0 2) 30 1
        = hdspe_ltc32_to_frames (hdspe_ltc32_compose 0 0 59 29) 30 1) ∧
    (hdspe_ltc32_cmp (hdspe_ltc32_compose 0 1 0 2 ||| 0xc08080c0)
          (hdspe_ltc32_compose 0 0 59 29 ||| 0x00000040) < 0 ↔
      hdspe_ltc32_to_frames (hdspe_ltc32_compose 0 1 0 2) 30 1
        < hdspe_ltc32_to_frames (hdspe_ltc32_compose 0 0 59 29) 30 1) ∧
    (hdspe_ltc32_cmp (hdspe_ltc32_compose 0 1 0 2 ||| 0xc08080c0)
          (hdspe_ltc32_compose 0 0 59 29 ||| 0x00000040)
        = (((hdspe_ltc32_compose 0 1 0 2 ||| 0xc08080c0) &&& 0x3f7f7f3f : Nat) : Int)
          - (((hdspe_ltc32_compose 0 0 59 29 ||| 0x00000040) &&& 0x3f7f7f3f : Nat) : Int) ∧
      -2147483648 ≤ (((hdspe_ltc32_compose 0 1 0 2 ||| 0xc08080c0) &&& 0x3f7f7f3f : Nat) : Int)
          - (((hdspe_ltc32_compose 0 0 59 29 ||| 0x00000040) &&& 0x3f7f7f3f : Nat) : Int) ∧
      (((hdspe_ltc32_compose 0 1 0 2 ||| 0xc08080c0) &&& 0x3f7f7f3f : Nat) : Int)
          - (((hdspe_ltc32_compose 0 0 59 29 ||| 0x00000040) &&& 0x3f7f7f3f : Nat) : Int)
        < 2147483648) ∧
    (hdspe_ltc32_cmp (hdspe_ltc32_compose 0 1 0 2 ||| 0xc08080c0)
          (hdspe_ltc32_compose 0 0 59 29 ||| 0x00000040) = 0 ↔
      (hdspe_ltc32_compose 0 1 0 2 ||| 0xc08080c0) &&& 0x3f7f7f3f
        = (hdspe_ltc32_compose 0 0 59 29 ||| 0x00000040) &&& 0x3f7f7f3f) :=
  C12_cmp_chronological 30 1 0 1 0 2 0 0 59 29 0xc08080c0 0x00000040
    (by unfold LtcContext; decide) (by unfold ValidHMSF; decide) (by unfold ValidHMSF; decide)
    (by decide) (by decide) (by decide) (by decide)

/-! ## Parse and compose, frames per day, frame-rate contexts -/

theorem compose_parse_bcd (x : Nat) (hu : BcdClean x) : compose_parse x = x &&& 0x3f7f7f3f := by
  obtain ⟨u0, u1, u2, u3⟩ := hu
  simp only [land_0f, shr_0, shr_8, shr_16, shr_24] at u0 u1 u2 u3
  unfold compose_parse hdspe_ltc32_parse
  simp only [land_0f, land_03, land_07, shr_0, shr_4, shr_8, shr_12, shr_16, shr_20, shr_24,
    shr_28]
  rw [compose_eq_tcode _ _ _ _ (by omega) (by omega) (by omega) (by omega),
    tcode_of_digits _ _ _ _ (x / 268435456 % 4) (x / 16777216 % 16) (x / 1048576 % 8)
      (x / 65536 % 16) (x / 4096 % 8) (x / 256 % 16) (x / 16 % 4) (x % 16)
      (by omega) (by omega) (by omega) (by omega) (by omega) (by omega) (by omega) (by omega),
    mask_3f7f7f3f]
  omega

/-- C13 (as written): the masked code `0x0000000a`, whose frame-units nibble is ten, is
not restored by `compose` after `parse`: it parses to frame 10 and is composed to
`0x00000010`. -/
theorem C13_masked_counterexample :
    (0x0000000a : Nat) < 4294967296 ∧ (0x0000000a : Nat) &&& 0x3f7f7f3f = 0x0000000a ∧
    hdspe_ltc32_parse 0x0000000a = (0, 0, 0, 10) ∧
    compose_parse 0x0000000a = 0x00000010 ∧
    compose_parse 0x0000000a ≠ 0x0000000a &&& 0x3f7f7f3f := by
  decide

/-- C13 (amended): for every 32-bit `x` with `x & 0x3f7f7f3f == x` whose four units
nibbles are decimal digits, `compose (parse x) == x & 0x3f7f7f3f` (which is `x`). -/
theorem C13_compose_parse_masked (x : Nat) (_hx : x < 4294967296)
    (hm : x &&& 0x3f7f7f3f = x) (hu : BcdClean x) :
    compose_parse x = x &&& 0x3f7f7f3f ∧ compose_parse x = x := by
  have e := compose_parse_bcd x hu
  exact ⟨e, e.trans hm⟩

theorem C13_compose_parse_masked_witness :
    compose_parse 0x39797939 = 0x39797939 &&& 0x3f7f7f3f ∧ compose_parse 0x39797939 = 0x39797939 :=
  C13_compose_parse_masked 0x39797939 (by decide) (by decide) (by unfold BcdClean; decide)

/-- C14 (as written): the 30 fps drop-frame day is not 2591280 frames long. -/
theorem C14_fpd_30_drop_counterexample : hdspe_ltc_fpd 30 1 ≠ 2591280 := by
  decide

/-- C14 (amended): `hdspe_ltc_fpd 30 1` is `24 * 107892 = 2589408`, which is
`30 * 86400` less the `2 * 54 * 24 = 2592` frame numbers dropped in a day. -/
theorem C14_fpd_30_drop :
    hdspe_ltc_fpd 30 1 = 2589408 ∧ (2589408 : Int) = 24 * 107892 ∧
      (2589408 : Int) = 30 * 86400 - 2 * 54 * 24 := by
  decide

/-- C15: in each of the four contexts the frame count of a valid time code is in
`0 .. fpd-1`; midnight has frame count 0 and the last time code of the day,
`23:59:59:(fps-1)`, has frame count `fpd - 1`; `fpd` is `24*60*60*fps` without drop-frame
and `24*107892` with drop-frame. -/
theorem C15_to_frames_range (fps df h m s f : Int) (hc : LtcContext fps df)
    (hv : ValidHMSF fps df h m s f) :
    (0 ≤ ((hdspe_ltc32_to_frames (hdspe_ltc32_compose h m s f) fps df : Nat) : Int) ∧
      ((hdspe_ltc32_to_frames (hdspe_ltc32_compose h m s f) fps df : Nat) : Int)
        < hdspe_ltc_fpd fps df) ∧
    hdspe_ltc32_to_frames (hdspe_ltc32_compose 0 0 0 0) fps df = 0 ∧
    ((hdspe_ltc32_to_frames (hdspe_ltc32_compose 23 59 59 (fps - 1)) fps df : Nat) : Int) + 1
      = hdspe_ltc_fpd fps df ∧
    (df = 0 → hdspe_ltc_fpd fps df = 24 * 60 * 60 * fps) ∧
    (df = 1 → hdspe_ltc_fpd fps df = 24 * 107892) := by
  refine ⟨?_, ?_⟩
  · obtain ⟨fpsN, hN, mN, sN, fN, rfl, rfl, rfl, rfl, rfl, hcN, hvN, hcomp⟩ :=
      lift_valid fps df h m s f hc hv
    rw [hcomp, to_frames_tcode fpsN df hN mN sN fN hcN hvN, fpd_cast _ _ hcN]
    have hlt := frameN_lt fpsN df hN mN sN fN hcN hvN
    omega
  · rcases hc with ⟨rfl, rfl⟩ | ⟨rfl, rfl⟩ | ⟨rfl, rfl⟩ | ⟨rfl, rfl⟩ <;> decide

theorem C15_to_frames_range_witness :
    (0 ≤ ((hdspe_ltc32_to_frames (hdspe_ltc32_compose 12 34 56 7) 30 1 : Nat) : Int) ∧
      ((hdspe_ltc32_to_frames (hdspe_ltc32_compose 12 34 56 7) 30 1 : Nat) : Int)
        < hdspe_ltc_fpd 30 1) ∧
    hdspe_ltc32_to_frames (hdspe_ltc32_compose 0 0 0 0) 30 1 = 0 ∧
    ((hdspe_ltc32_to_frames (hdspe_ltc32_compose 23 59 59 (30 - 1)) 30 1 : Nat) : Int) + 1
      = hdspe_ltc_fpd 30 1 ∧
    ((1 : Int) = 0 → hdspe_ltc_fpd 30 1 = 24 * 60 * 60 * 30) ∧
    ((1 : Int) = 1 → hdspe_ltc_fpd 30 1 = 24 * 107892) :=
  C15_to_frames_range 30 1 12 34 56 7 (by unfold LtcContext; decide)
    (by unfold ValidHMSF; decide)

/-- C16 (as written): in the invalid context 24 fps drop-frame `hdspe_ltc_fpd` and
`hdspe_ltc32_to_frames` return computed values, those of 30 fps drop-frame; and at
60 fps, a rate outside 24, 25 and 30, `hdspe_ltc_fpd` returns `86400 * 60`. -/
theorem C16_invalid_context_counterexample :
    ¬ LtcContext 24 1 ∧ hdspe_ltc_fpd 24 1 = 2589408 ∧
    hdspe_ltc32_to_frames (hdspe_ltc32_compose 1 0 0 0) 24 1 = 107892 ∧
    ¬ LtcContext 60 0 ∧ hdspe_ltc_fpd 60 0 = 5184000 := by
  unfold LtcContext
  decide

/-- C16 (amended): the day arithmetic has no frame-rate-context check and no error
result. For every `fps` and every `df ≠ 0` the functions `hdspe_ltc_fpd`, `to_frames`,
`from_frames`, `add_frames` and `diff_frames` return what they return in the 30 fps
drop-frame context; for `df = 0` `hdspe_ltc_fpd` returns `86400 * fps` for every `fps0`
from -24855 to 24855 and the 32-bit wrap of that product for every other `fps1`, such
as -2147408896 for 24856. -/
theorem C16_no_context_check (fps df n : Int) (x y : Nat) (fps0 fps1 : Int) (hdf : df ≠ 0)
    (hfps0 : -24855 ≤ fps0 ∧ fps0 ≤ 24855) :
    (hdspe_ltc_fpd fps df = 2589408 ∧
      hdspe_ltc32_to_frames x fps df = hdspe_ltc32_to_frames x 30 1 ∧
      hdspe_ltc32_from_frames n fps df = hdspe_ltc32_from_frames n 30 1 ∧
      hdspe_ltc32_add_frames n x fps df = hdspe_ltc32_add_frames n x 30 1 ∧
      hdspe_ltc32_diff_frames x y fps df = hdspe_ltc32_diff_frames x y 30 1) ∧
    hdspe_ltc_fpd fps0 0 = 86400 * fps0 ∧
    hdspe_ltc_fpd fps1 0 = wrapInt (86400 * fps1) ∧
    hdspe_ltc_fpd 24856 0 = -2147408896 := by
  refine ⟨?_, ?_, ?_, by decide⟩
  · have h1 : (1 : Int) ≠ 0 := by decide
    have e1 : hdspe_ltc_fpd fps df = 2589408 := by
      unfold hdspe_ltc_fpd
      rw [if_pos hdf]
      rfl
    have e1' : hdspe_ltc_fpd 30 1 = 2589408 := by decide
    have e2 : ∀ z, hdspe_ltc32_to_frames z fps df = hdspe_ltc32_to_frames z 30 1 := by
      intro z
      unfold hdspe_ltc32_to_frames
      rw [if_pos hdf, if_pos h1]
    have e3 : ∀ k, hdspe_ltc32_from_frames k fps df = hdspe_ltc32_from_frames k 30 1 := by
      intro k
      unfold hdspe_ltc32_from_frames
      simp only [e1, e1', hdf, h1, not_true_eq_false, if_false, ne_eq, not_false_eq_true]
    refine ⟨e1, e2 x, e3 n, ?_, ?_⟩
    · unfold hdspe_ltc32_add_frames
      simp only [e2, e3]
    · unfold hdspe_ltc32_diff_frames
      simp only [e1, e1', e2]
  · unfold hdspe_ltc_fpd
    rw [if_neg (by simp), wrapInt_of_range _ (by omega) (by omega)]
    ring
  · have e : (24 * 60 * 60 * fps1 : Int) = 86400 * fps1 := by ring
    unfold hdspe_ltc_fpd
    rw [if_neg (by simp), e]

theorem C16_no_context_check_witness :
    (hdspe_ltc_fpd 24 1 = 2589408 ∧
      hdspe_ltc32_to_frames 0x01000000 24 1 = hdspe_ltc32_to_frames 0x01000000 30 1 ∧
      hdspe_ltc32_from_frames 7 24 1 = hdspe_ltc32_from_frames 7 30 1 ∧
      hdspe_ltc32_add_frames 7 0x01000000 24 1 = hdspe_ltc32_add_frames 7 0x01000000 30 1 ∧
      hdspe_ltc32_diff_frames 0x01000000 0x00000005 24 1
        = hdspe_ltc32_diff_frames 0x01000000 0x00000005 30 1) ∧
    hdspe_ltc_fpd 60 0 = 86400 * 60 ∧
    hdspe_ltc_fpd (-24856) 0 = wrapInt (86400 * (-24856)) ∧
    hdspe_ltc_fpd 24856 0 = -2147408896 :=
  C16_no_context_check 24 1 7 0x01000000 0x00000005 60 (-24856) (by decide) (by decide)

/-! ## The LTC input estimator -/

theorem sumTo_update (d : Nat → Nat) (n v k : Nat) :
    sumTo (fun i => if i = n then v else d i) k + (if n < k then d n else 0)
      = sumTo d k + (if n < k then v else 0) := by
  induction k with
  | zero => simp [sumTo]
  | succ k ih =>
    simp only [sumTo]
    by_cases h1 : n < k
    · have h2 : n < k + 1 := by omega
      have h3 : ¬ k = n := by omega
      simp only [if_pos h1, if_pos h2, if_neg h3] at ih ⊢
      omega
    · by_cases h2 : k = n
      · subst h2
        simp only [if_neg h1, lt_add_one, if_true] at ih ⊢
        omega
      · have h3 : ¬ n < k + 1 := by omega
        simp only [if_neg h1, if_neg h3, if_neg h2] at ih ⊢
        omega

theorem sumTo_le (d : Nat → Nat) (B : Nat) (hB : ∀ i, d i < B) (k : Nat) :
    sumTo d k ≤ k * B := by
  induction k with
  | zero => simp [sumTo]
  | succ k ih =>
    simp only [sumTo]
    have := hB k
    have e : (k + 1) * B = k * B + B := by ring
    omega

theorem mtc_step (c : hdspe_tco) (buf : List Nat) (count : Int) (now : Nat)
    (hnew : mtc_newtc buf count = true) (hinv : EstInv c)
    (hnow : now < 18446744073709551616) :
    EstInv (hdspe_tco_mtc c buf count now) ∧
    (hdspe_tco_mtc c buf count now).prev_ltc_time = now ∧
    (hdspe_tco_mtc c buf count now).ltc_count = (c.ltc_count + 1) % 4294967296 ∧
    (c.prev_ltc_time = 0 →
      (hdspe_tco_mtc c buf count now).ltc_duration = c.ltc_duration ∧
      (hdspe_tco_mtc c buf count now).ltc_duration_sum = c.ltc_duration_sum) ∧
    (0 < c.prev_ltc_time →
      (hdspe_tco_mtc c buf count now).ltc_duration =
        fun i => if i = c.ltc_count % LTC_CACHE_SIZE then
          ((now + 18446744073709551616 - c.prev_ltc_time) % 18446744073709551616) % 4294967296
        else c.ltc_duration i) := by
  obtain ⟨h1, h2, h3, h4⟩ := hinv
  unfold hdspe_tco_mtc
  rw [if_pos hnew]
  by_cases hp : c.prev_ltc_time > 0
  · simp only [if_pos hp]
    refine ⟨⟨?_, ?_, ?_, hnow⟩, trivial, trivial, ?_, ?_⟩
    · dsimp only
      have hu := sumTo_update c.ltc_duration (c.ltc_count % LTC_CACHE_SIZE)
        (((now + 18446744073709551616 - c.prev_ltc_time) % 18446744073709551616) % 4294967296)
        LTC_CACHE_SIZE
      have hlt : c.ltc_count % LTC_CACHE_SIZE < LTC_CACHE_SIZE := Nat.mod_lt _ (by decide)
      rw [if_pos hlt, if_pos hlt] at hu
      have hb := sumTo_le c.ltc_duration 4294967296 h2 LTC_CACHE_SIZE
      have hb2 := sumTo_le (fun i => if i = c.ltc_count % LTC_CACHE_SIZE then
          ((now + 18446744073709551616 - c.prev_ltc_time) % 18446744073709551616) % 4294967296
          else c.ltc_duration i) 4294967296 (by
            intro i
            dsimp only
            split_ifs
            · exact Nat.mod_lt _ (by decide)
            · exact h2 i) LTC_CACHE_SIZE
      have hn := h2 (c.ltc_count % LTC_CACHE_SIZE)
      have hd : ((now + 18446744073709551616 - c.prev_ltc_time) % 18446744073709551616)
          % 4294967296 < 4294967296 := Nat.mod_lt _ (by decide)
      have e60 : LTC_CACHE_SIZE * 4294967296 = 257698037760 := by decide
      rw [e60] at hb hb2
      rw [h1]
      generalize sumTo c.ltc_duration LTC_CACHE_SIZE = S at *
      generalize sumTo _ LTC_CACHE_SIZE = S2 at *
      generalize c.ltc_duration (c.ltc_count % LTC_CACHE_SIZE) = old at *
      generalize ((now + 18446744073709551616 - c.prev_ltc_time) % 18446744073709551616)
        % 4294967296 = dn at *
      omega
    · intro i
      dsimp only
      split_ifs
      · exact Nat.mod_lt _ (by decide)
      · exact h2 i
    · exact Nat.mod_lt _ (by decide)
    · intro h0
      omega
    · intro _
      trivial
  · simp only [if_neg hp]
    refine ⟨⟨h1, h2, Nat.mod_lt _ (by decide), hnow⟩, trivial, trivial, ?_, ?_⟩
    · intro _
      exact ⟨trivial, trivial⟩
    · intro h0
      omega

theorem run_mtc_append (c : hdspe_tco) (evs : List mtc_event) (e : mtc_event) :
    run_mtc c (evs ++ [e]) = hdspe_tco_mtc (run_mtc c evs) e.buf e.count e.now := by
  unfold run_mtc
  rw [List.foldl_append]
  rfl

theorem estInv_zero : EstInv hdspe_tco_zero := by
  refine ⟨by decide, ?_, by decide, by decide⟩
  intro i
  exact (by decide : (0 : Nat) < 4294967296)

theorem run_mtc_inv (evs : List mtc_event)
    (hev : ∀ x ∈ evs, mtc_newtc x.buf x.count = true ∧ 0 < x.now ∧
      x.now < 18446744073709551616) :
    EstInv (run_mtc hdspe_tco_zero evs) ∧
    (run_mtc hdspe_tco_zero evs).ltc_count = evs.length % 4294967296 ∧
    (evs = [] → (run_mtc hdspe_tco_zero evs).prev_ltc_time = 0 ∧
      ∀ i, (run_mtc hdspe_tco_zero evs).ltc_duration i = 0) ∧
    (evs ≠ [] → 0 < (run_mtc hdspe_tco_zero evs).prev_ltc_time) := by
  induction evs using List.reverseRecOn with
  | nil =>
    refine ⟨estInv_zero, rfl, ?_, ?_⟩
    · intro _
      exact ⟨rfl, fun _ => rfl⟩
    · intro h
      exact absurd rfl h
  | append_singleton evs e ih =>
    have hev1 : ∀ x ∈ evs, mtc_newtc x.buf x.count = true ∧ 0 < x.now ∧
        x.now < 18446744073709551616 := by
      intro x hx
      exact hev x (List.mem_append_left _ hx)
    obtain ⟨hnew, hpos, hlt⟩ := hev e (List.mem_append_right _ (List.mem_singleton_self e))
    obtain ⟨i1, i2, _, _⟩ := ih hev1
    obtain ⟨s1, s2, s3, _, _⟩ := mtc_step _ e.buf e.count e.now hnew i1 hlt
    rw [run_mtc_append]
    refine ⟨s1, ?_, ?_, ?_⟩
    · rw [s3, i2, List.length_append, List.length_singleton]
      omega
    · intro h
      exact absurd h (by simp)
    · intro _
      rw [s2]
      exact hpos

/-- C18: from the zero-initialised state, after any sequence of new-frame calls of
`hdspe_tco_mtc` with non-zero 64-bit time stamps, `ltc_duration_sum` is the sum of the 60
entries of `ltc_duration`, each a 32-bit value; the first call stores nothing, every later
call `e` rewrites only slot `ltc_count % 60`, with the 32-bit truncation of the time since
the previous call, and every call increments `ltc_count` by one (modulo `2^32`). -/
theorem C18_estimator_sum_invariant (evs : List mtc_event) (e : mtc_event)
    (hev : ∀ x ∈ evs ++ [e], mtc_newtc x.buf x.count = true ∧ 0 < x.now ∧
      x.now < 18446744073709551616) :
    (run_mtc hdspe_tco_zero evs).ltc_duration_sum
      = sumTo (run_mtc hdspe_tco_zero evs).ltc_duration LTC_CACHE_SIZE ∧
    (run_mtc hdspe_tco_zero (evs ++ [e])).ltc_duration_sum
      = sumTo (run_mtc hdspe_tco_zero (evs ++ [e])).ltc_duration LTC_CACHE_SIZE ∧
    (∀ i, (run_mtc hdspe_tco_zero (evs ++ [e])).ltc_duration i < 4294967296) ∧
    (run_mtc hdspe_tco_zero (evs ++ [e])).ltc_count
      = ((run_mtc hdspe_tco_zero evs).ltc_count + 1) % 4294967296 ∧
    (run_mtc hdspe_tco_zero (evs ++ [e])).ltc_count = (evs.length + 1) % 4294967296 ∧
    (run_mtc hdspe_tco_zero (evs ++ [e])).prev_ltc_time = e.now ∧
    (evs = [] → ∀ i, (run_mtc hdspe_tco_zero (evs ++ [e])).ltc_duration i = 0) ∧
    (evs ≠ [] → ∀ i, (run_mtc hdspe_tco_zero (evs ++ [e])).ltc_duration i =
      if i = (run_mtc hdspe_tco_zero evs).ltc_count % LTC_CACHE_SIZE then
        ((e.now + 18446744073709551616 - (run_mtc hdspe_tco_zero evs).prev_ltc_time)
          % 18446744073709551616) % 4294967296
      else (run_mtc hdspe_tco_zero evs).ltc_duration i) := by
  have hev1 : ∀ x ∈ evs, mtc_newtc x.buf x.count = true ∧ 0 < x.now ∧
      x.now < 18446744073709551616 := by
    intro x hx
    exact hev x (List.mem_append_left _ hx)
  obtain ⟨hnew, _, hlt⟩ := hev e (List.mem_append_right _ (List.mem_singleton_self e))
  obtain ⟨i1, _, i3, i4⟩ := run_mtc_inv evs hev1
  obtain ⟨j1, j2, _, _⟩ := run_mtc_inv (evs ++ [e]) hev
  obtain ⟨_, s2, s3, s4, s5⟩ := mtc_step _ e.buf e.count e.now hnew i1 hlt
  rw [List.length_append, List.length_singleton] at j2
  rw [run_mtc_append] at j1 j2 ⊢
  refine ⟨i1.1, j1.1, j1.2.1, s3, j2, s2, ?_, ?_⟩
  · intro h i
    rw [(s4 (i3 h).1).1]
    exact (i3 h).2 i
  · intro h i
    rw [s5 (i4 h)]

theorem C18_estimator_sum_invariant_witness :
    (run_mtc hdspe_tco_zero [quarter_frame 1000]).ltc_duration_sum
      = sumTo (run_mtc hdspe_tco_zero [quarter_frame 1000]).ltc_duration LTC_CACHE_SIZE ∧
    (run_mtc hdspe_tco_zero ([quarter_frame 1000] ++ [quarter_frame 33334333])).ltc_duration_sum
      = sumTo (run_mtc hdspe_tco_zero
          ([quarter_frame 1000] ++ [quarter_frame 33334333])).ltc_duration LTC_CACHE_SIZE ∧
    (∀ i, (run_mtc hdspe_tco_zero
        ([quarter_frame 1000] ++ [quarter_frame 33334333])).ltc_duration i < 4294967296) ∧
    (run_mtc hdspe_tco_zero ([quarter_frame 1000] ++ [quarter_frame 33334333])).ltc_count
      = ((run_mtc hdspe_tco_zero [quarter_frame 1000]).ltc_count + 1) % 4294967296 ∧
    (run_mtc hdspe_tco_zero ([quarter_frame 1000] ++ [quarter_frame 33334333])).ltc_count
      = ([quarter_frame 1000].length + 1) % 4294967296 ∧
    (run_mtc hdspe_tco_zero
      ([quarter_frame 1000] ++ [quarter_frame 33334333])).prev_ltc_time
      = (quarter_frame 33334333).now ∧
    ([quarter_frame 1000] = [] → ∀ i, (run_mtc hdspe_tco_zero
      ([quarter_frame 1000] ++ [quarter_frame 33334333])).ltc_duration i = 0) ∧
    ([quarter_frame 1000] ≠ [] → ∀ i, (run_mtc hdspe_tco_zero
        ([quarter_frame 1000] ++ [quarter_frame 33334333])).ltc_duration i =
      if i = (run_mtc hdspe_tco_zero [quarter_frame 1000]).ltc_count % LTC_CACHE_SIZE then
        (((quarter_frame 33334333).now + 18446744073709551616
            - (run_mtc hdspe_tco_zero [quarter_frame 1000]).prev_ltc_time)
          % 18446744073709551616) % 4294967296
      else (run_mtc hdspe_tco_zero [quarter_frame 1000]).ltc_duration i) :=
  C18_estimator_sum_invariant [quarter_frame 1000] (quarter_frame 33334333) (by decide)

/-! ## Pull factor and output scheduler -/

theorem sumTo_const (d : Nat → Nat) (v k : Nat) (h : ∀ i, i < k → d i = v) :
    sumTo d k = k * v := by
  induction k with
  | zero => simp [sumTo]
  | succ k ih =>
    simp only [sumTo]
    rw [ih (fun i hi => h i (by omega)), h k (by omega)]
    ring

theorem pullfac_formula (sum fps : Nat) (hfps : 0 < fps ∧ fps < 256)
    (hd : 0 < (sum / 60000) % 4294967296) :
    period_elapsed_realfps1k sum fps
      = some ((1000000000 / ((sum / 60000) % 4294967296) : Nat) : Int) ∧
    period_elapsed_pullfac sum fps
      = some ((1000000000 / ((sum / 60000) % 4294967296) + fps / 2) / fps) := by
  have hs : sum ≠ 0 := by
    intro h
    rw [h] at hd
    exact absurd hd (by decide)
  have hq : 1000000000 / ((sum / 60000) % 4294967296) ≤ 1000000000 := Nat.div_le_self _ _
  have e1 : period_elapsed_realfps1k sum fps
      = some ((1000000000 / ((sum / 60000) % 4294967296) : Nat) : Int) := by
    unfold period_elapsed_realfps1k
    have e60 : LTC_CACHE_SIZE * 1000 = 60000 := by decide
    simp only [if_neg hs, e60, if_neg (Nat.pos_iff_ne_zero.mp hd)]
    rw [toInt32_of_lt _ (by omega)]
  refine ⟨e1, ?_⟩
  unfold period_elapsed_pullfac
  rw [e1]
  simp only [if_neg (Nat.pos_iff_ne_zero.mp hfps.1)]
  have e2 : Int.tdiv (fps : Int) 2 = ((fps / 2 : Nat) : Int) := tdiv_cast fps 2
  have h2 : fps / 2 < 128 := by omega
  rw [e2]
  generalize 1000000000 / ((sum / 60000) % 4294967296) = q at *
  generalize fps / 2 = r at *
  have e3 : (q : Int) + (r : Int) = ((q + r : Nat) : Int) := by
    push_cast
    rfl
  rw [wrapInt_of_range _ (by omega) (by omega), e3, tdiv_cast, toU32_natCast]
  exact lt_of_le_of_lt (Nat.div_le_self _ _) (by omega)

/-- C19 (evaluation at the failing input): after two new-frame calls 33333333 ns apart
from the zero-initialised state one duration is stored, the running sum is 33333333, and
at 30 fps the estimate `realfps1k` is 1801801 and the pull factor is 60060. -/
theorem C19_warmup_eval :
    (run_mtc hdspe_tco_zero [quarter_frame 1000, quarter_frame 33334333]).ltc_count = 2 ∧
    (run_mtc hdspe_tco_zero [quarter_frame 1000, quarter_frame 33334333]).ltc_duration 1
      = 33333333 ∧
    (∀ i, i < LTC_CACHE_SIZE → i ≠ 1 →
      (run_mtc hdspe_tco_zero [quarter_frame 1000, quarter_frame 33334333]).ltc_duration i
        = 0) ∧
    (run_mtc hdspe_tco_zero [quarter_frame 1000, quarter_frame 33334333]).ltc_duration_sum
      = 33333333 ∧
    period_elapsed_realfps1k
      (run_mtc hdspe_tco_zero [quarter_frame 1000, quarter_frame 33334333]).ltc_duration_sum
      30 = some 1801801 ∧
    period_elapsed_pullfac
      (run_mtc hdspe_tco_zero [quarter_frame 1000, quarter_frame 33334333]).ltc_duration_sum
      30 = some 60060 := by
  decide

/-- C20 (evaluation at the failing input): at 48 kHz, single speed, 30 fps (`fs = 1600`)
with `cfc = 0`, `ps = 1024` and a request for frame count 7048, later than the window,
`hdspe_tco_start_timecode` computes `n = -1889785614` and the target frame 4294968328,
which is outside the window, moves the time code by that `n`, and issues the
out-of-range warning for the offset -6. A request for frame count 100 with `cfc = 5000`,
earlier than the window, gives `n = 5` and the target 8100 inside the window
`7048 .. 8648`, and a request for frame count 3000 with `cfc = 0`, inside the window,
gives `n = 0`. -/
theorem C20_later_target_eval :
    (hdspe_tco_start_timecode (request_at 7048) (env_48k 0 1024)).fs = 1600 ∧
    (hdspe_tco_start_timecode (request_at 7048) (env_48k 0 1024)).n = -1889785614 ∧
    (hdspe_tco_start_timecode (request_at 7048) (env_48k 0 1024)).fc = 4294968328 ∧
    ¬ ((hdspe_tco_start_timecode (request_at 7048) (env_48k 0 1024)).fc
        ≤ 0 + 2 * 1024 + 1600) ∧
    (hdspe_tco_start_timecode (request_at 7048) (env_48k 0 1024)).tc
      = hdspe_ltc32_add_frames (-1889785614) 0x01000000 30 0 ∧
    (hdspe_tco_start_timecode (request_at 7048) (env_48k 0 1024)).tc
      ≠ hdspe_ltc32_add_frames (-3) 0x01000000 30 0 ∧
    (hdspe_tco_start_timecode (request_at 7048) (env_48k 0 1024)).offset = -6 ∧
    (hdspe_tco_start_timecode (request_at 7048) (env_48k 0 1024)).warn = true ∧
    (hdspe_tco_start_timecode (request_at 100) (env_48k 5000 1024)).n = 5 ∧
    (hdspe_tco_start_timecode (request_at 100) (env_48k 5000 1024)).fc = 8100 ∧
    (hdspe_tco_start_timecode (request_at 3000) (env_48k 0 1024)).n = 0 ∧
    (hdspe_tco_start_timecode (request_at 3000) (env_48k 0 1024)).fc = 3000 := by
  decide

/-! ## Validity of results, `add_frames` as an action, parse and compose -/

theorem validCode_tcode (fps : Nat) (df : Int) (h m s f : Nat) (hc : CtxN fps df)
    (hv : ValidN fps (df ≠ 0) h m s f) : ValidCode (fps : Int) df (tcode h m s f) := by
  obtain ⟨b1, b2, b3, b4⟩ := valid_bounds fps df h m s f hc hv
  obtain ⟨e0, _, e2, _, e4, _, e6, _⟩ := tcode_fields h m s f b1 b2 b3 b4
  refine ⟨tcode_masked h m s f b1 b2 b3 b4, ?_, ?_⟩
  · unfold BcdClean
    simp only [land_0f, shr_0, shr_8, shr_16, shr_24, e0, e2, e4, e6]
    omega
  · rw [parse_tcode h m s f b1 b2 b3 b4]
    obtain ⟨h1, h2, h3, h4, h5⟩ := hv
    unfold ValidHMSF
    dsimp only
    refine ⟨by omega, by omega, by omega, by omega, by omega, by omega, by omega, by omega, ?_⟩
    intro hd
    have := h5 hd
    omega

theorem prevN_valid (fps : Nat) (df : Int) (h m s f : Nat) (hc : CtxN fps df)
    (hv : ValidN fps (df ≠ 0) h m s f) :
    ValidN fps (df ≠ 0) (prevN fps (df ≠ 0) h m s f).1 (prevN fps (df ≠ 0) h m s f).2.1
      (prevN fps (df ≠ 0) h m s f).2.2.1 (prevN fps (df ≠ 0) h m s f).2.2.2 := by
  rw [prevN_eq_hmsfOf fps df h m s f hc hv]
  exact hmsfOf_valid fps df _ hc (Nat.mod_lt _ (fpdN_pos fps df hc))

theorem emod_toNat_lt (n : Int) (d : Nat) (hd : 0 < d) : (n % (d : Int)).toNat < d := by
  have h0 : 0 ≤ n % (d : Int) := Int.emod_nonneg _ (by omega)
  have h1 : n % (d : Int) < (d : Int) := Int.emod_lt_of_pos _ (by omega)
  omega

theorem validCode_from_frames (fps : Nat) (df : Int) (n : Int) (hc : CtxN fps df) :
    ValidCode (fps : Int) df (hdspe_ltc32_from_frames n (fps : Int) df) := by
  rw [from_frames_int fps df n hc]
  exact validCode_tcode fps df _ _ _ _ hc
    (hmsfOf_valid fps df _ hc (emod_toNat_lt n _ (fpdN_pos fps df hc)))

/-- C24: in each of the four contexts, `incr` and `decr` of a valid time code, and
`from_frames n` and `add_frames n x` for every signed 32-bit `n` and every code `x`, are
valid time codes: no bit outside `0x3f7f7f3f`, decimal units digits, `h < 24`, `m < 60`,
`s < 60`, `f < fps`, and in drop-frame never frame 0 or 1 of the first second of a minute
that is not a multiple of ten. -/
theorem C24_results_valid (fps df h m s f n : Int) (x : Nat) (hc : LtcContext fps df)
    (hv : ValidHMSF fps df h m s f) (_hn : -2147483648 ≤ n ∧ n < 2147483648) :
    ValidCode fps df (hdspe_ltc32_incr (hdspe_ltc32_compose h m s f) fps df) ∧
    ValidCode fps df (hdspe_ltc32_decr (hdspe_ltc32_compose h m s f) fps df) ∧
    ValidCode fps df (hdspe_ltc32_from_frames n fps df) ∧
    ValidCode fps df (hdspe_ltc32_add_frames n x fps df) := by
  obtain ⟨fpsN, hN, mN, sN, fN, rfl, rfl, rfl, rfl, rfl, hcN, hvN, hcomp⟩ :=
    lift_valid fps df h m s f hc hv
  rw [hcomp, incr_tcode fpsN df hN mN sN fN hcN.1 hvN, decr_tcode fpsN df hN mN sN fN hcN.1 hvN]
  refine ⟨validCode_tcode fpsN df _ _ _ _ hcN (nextN_valid fpsN df hN mN sN fN hcN hvN),
    validCode_tcode fpsN df _ _ _ _ hcN (prevN_valid fpsN df hN mN sN fN hcN hvN),
    validCode_from_frames fpsN df n hcN, ?_⟩
  unfold hdspe_ltc32_add_frames
  exact validCode_from_frames fpsN df _ hcN

theorem C24_results_valid_witness :
    ValidCode 30 1 (hdspe_ltc32_incr (hdspe_ltc32_compose 0 0 59 29) 30 1) ∧
    ValidCode 30 1 (hdspe_ltc32_decr (hdspe_ltc32_compose 0 0 59 29) 30 1) ∧
    ValidCode 30 1 (hdspe_ltc32_from_frames (-1) 30 1) ∧
    ValidCode 30 1 (hdspe_ltc32_add_frames (-1) 0xffffffff 30 1) :=
  C24_results_valid 30 1 0 0 59 29 (-1) 0xffffffff (by unfold LtcContext; decide)
    (by unfold ValidHMSF; decide) (by decide)

theorem add_frames_valid_eq (fps : Nat) (df : Int) (h m s f : Nat) (n : Int) (k : Nat)
    (hc : CtxN fps df) (hv : ValidN fps (df ≠ 0) h m s f)
    (hov : -2147483648 ≤ (frameN fps df h m s f : Int) + n ∧
      (frameN fps df h m s f : Int) + n < 2147483648)
    (hk : (((frameN fps df h m s f : Int) + n) % (fpdN fps df : Int)).toNat = k) :
    hdspe_ltc32_add_frames n (tcode h m s f) (fps : Int) df =
      tcode (hmsfOf fps df k).1 (hmsfOf fps df k).2.1 (hmsfOf fps df k).2.2.1
        (hmsfOf fps df k).2.2.2 := by
  rw [add_frames_tcode fps df h m s f n hc hv hov, hk]

/-- C29: in each of the four contexts, for a valid time code `tc` and integers `a`, `b`
of absolute value below `2^29`: `add_frames a (add_frames b tc) = add_frames (a + b) tc`,
`add_frames 0 tc = tc` and `add_frames fpd tc = tc`. -/
theorem C29_add_frames_action (fps df h m s f a b : Int) (hc : LtcContext fps df)
    (hv : ValidHMSF fps df h m s f) (ha : -536870912 < a ∧ a < 536870912)
    (hb : -536870912 < b ∧ b < 536870912) :
    hdspe_ltc32_add_frames a
        (hdspe_ltc32_add_frames b (hdspe_ltc32_compose h m s f) fps df) fps df
      = hdspe_ltc32_add_frames (a + b) (hdspe_ltc32_compose h m s f) fps df ∧
    hdspe_ltc32_add_frames 0 (hdspe_ltc32_compose h m s f) fps df
      = hdspe_ltc32_compose h m s f ∧
    hdspe_ltc32_add_frames (hdspe_ltc_fpd fps df) (hdspe_ltc32_compose h m s f) fps df
      = hdspe_ltc32_compose h m s f := by
  obtain ⟨fpsN, hN, mN, sN, fN, rfl, rfl, rfl, rfl, rfl, hcN, hvN, hcomp⟩ :=
    lift_valid fps df h m s f hc hv
  have hlt := frameN_lt fpsN df hN mN sN fN hcN hvN
  have hle := fpdN_le fpsN df hcN
  have hpos := fpdN_pos fpsN df hcN
  have hkb := emod_toNat_lt ((frameN fpsN df hN mN sN fN : Int) + b) _ hpos
  have hself := hmsfOf_frameN fpsN df hN mN sN fN hcN hvN
  rw [hcomp, fpd_cast _ _ hcN]
  refine ⟨?_, ?_, ?_⟩
  · rw [add_frames_tcode fpsN df hN mN sN fN b hcN hvN (by omega),
      add_frames_tcode fpsN df hN mN sN fN (a + b) hcN hvN (by omega)]
    have hvb := hmsfOf_valid fpsN df _ hcN hkb
    have hfb := frameN_hmsfOf fpsN df _ hcN hkb
    rw [add_frames_tcode fpsN df _ _ _ _ a hcN hvb (by rw [hfb]; omega), hfb,
      Int.toNat_of_nonneg (Int.emod_nonneg _ (by omega)), Int.emod_add_emod]
    have e : (frameN fpsN df hN mN sN fN : Int) + b + a
        = (frameN fpsN df hN mN sN fN : Int) + (a + b) := by ring
    rw [e]
  · rw [add_frames_valid_eq fpsN df hN mN sN fN 0 (frameN fpsN df hN mN sN fN) hcN hvN
      (by omega) (by
        rw [Int.add_zero, Int.emod_eq_of_lt (by omega) (by omega), Int.toNat_ofNat]), hself]
  · rw [add_frames_valid_eq fpsN df hN mN sN fN (fpdN fpsN df : Int)
      (frameN fpsN df hN mN sN fN) hcN hvN (by omega) (by
        rw [Int.add_emod_self, Int.emod_eq_of_lt (by omega) (by omega), Int.toNat_ofNat]),
      hself]

theorem C29_add_frames_action_witness :
    hdspe_ltc32_add_frames (-7)
        (hdspe_ltc32_add_frames 536870911 (hdspe_ltc32_compose 23 59 59 29) 30 1) 30 1
      = hdspe_ltc32_add_frames (-7 + 536870911) (hdspe_ltc32_compose 23 59 59 29) 30 1 ∧
    hdspe_ltc32_add_frames 0 (hdspe_ltc32_compose 23 59 59 29) 30 1
      = hdspe_ltc32_compose 23 59 59 29 ∧
    hdspe_ltc32_add_frames (hdspe_ltc_fpd 30 1) (hdspe_ltc32_compose 23 59 59 29) 30 1
      = hdspe_ltc32_compose 23 59 59 29 :=
  C29_add_frames_action 30 1 23 59 59 29 (-7) 536870911 (by unfold LtcContext; decide)
    (by unfold ValidHMSF; decide) (by decide) (by decide)

/-- C30: for every 32-bit `x` whose four units nibbles are decimal digits,
`compose (parse x) = x & 0x3f7f7f3f`, whatever the tens fields and the flag bits of `x`
are. -/
theorem C30_compose_parse_bcd_clean (x : Nat) (_hx : x < 4294967296) (hu : BcdClean x) :
    compose_parse x = x &&& 0x3f7f7f3f :=
  compose_parse_bcd x hu

theorem C30_compose_parse_bcd_clean_witness :
    compose_parse 0xf9f9f9f9 = 0xf9f9f9f9 &&& 0x3f7f7f3f :=
  C30_compose_parse_bcd_clean 0xf9f9f9f9 (by decide) (by unfold BcdClean; decide)

/-! ## The output scheduler -/

theorem start_timecode_fs (c : hdspe_tco) (env : tco_start_env) :
    (hdspe_tco_start_timecode c env).fs = start_fs c env := rfl

theorem start_timecode_n (c : hdspe_tco) (env : tco_start_env) :
    (hdspe_tco_start_timecode c env).n
      = start_n (start_cfc env) (start_ps env) (start_fs c env) (start_target c env).2 := rfl

theorem start_timecode_fc (c : hdspe_tco) (env : tco_start_env) :
    (hdspe_tco_start_timecode c env).fc
      = start_fc (start_fs c env) (start_target c env).2
          (start_n (start_cfc env) (start_ps env) (start_fs c env) (start_target c env).2) :=
  rfl

theorem start_timecode_tc (c : hdspe_tco) (env : tco_start_env) :
    (hdspe_tco_start_timecode c env).tc
      = hdspe_ltc32_add_frames
          (start_n (start_cfc env) (start_ps env) (start_fs c env) (start_target c env).2)
          (start_target c env).1 (hdspe_fps_tab c.ltc_fps : Int)
          (if c.ltc_drop ≠ 0 then 1 else 0) := rfl

theorem start_timecode_offset (c : hdspe_tco) (env : tco_start_env) :
    (hdspe_tco_start_timecode c env).offset
      = start_offset (start_cfc env) (start_ps env)
          (start_fc (start_fs c env) (start_target c env).2
            (start_n (start_cfc env) (start_ps env) (start_fs c env) (start_target c env).2))
          (hdspe_ltc_offset (hdspe_fps_tab c.ltc_fps)
            (hdspe_sample_rate_freq (hdspe_tco_get_sample_rate env.tco_48KHz))) := rfl

theorem start_timecode_warn (c : hdspe_tco) (env : tco_start_env) :
    (hdspe_tco_start_timecode c env).warn
      = decide ((hdspe_tco_start_timecode c env).offset < 0 ∨
          toU32 (hdspe_tco_start_timecode c env).offset &&& 0xffffc000 ≠ 0) := rfl

theorem frame_count_lt (w p q : Nat) (hw : w < 4294967296) (hp : p < 4294967296) :
    hdspe_update_frame_count w p q < 140737488355328 := by
  unfold hdspe_update_frame_count
  have h1 : p &&& (4294967295 - (q + 4294967295) % 4294967296) ≤ p := Nat.and_le_left
  refine lt_of_le_of_lt (Nat.mod_le _ _) ?_
  omega

theorem land_high_of_lt (x : Nat) (hx : x < 16384) : x &&& 0xffffc000 = 0 := by
  have h := land_field 18 14 x
  have e : x / 2 ^ 14 = 0 := Nat.div_eq_of_lt hx
  rw [e] at h
  exact h

theorem start_not_later (cfc ps fs fc coff : Nat) (hfs : 1470 ≤ fs ∧ fs ≤ 2000)
    (hcfc : cfc < 140737488355328) (hps : ps ≤ 8192) (hcoff : coff ≤ 16)
    (hwin : fc ≤ cfc + 2 * ps + fs) (hpast : cfc < fc + 2147483648) :
    start_n cfc ps fs fc = ((frames_to_horizon cfc ps fs fc : Nat) : Int) ∧
    start_fc fs fc ((frames_to_horizon cfc ps fs fc : Nat) : Int)
      = fc + frames_to_horizon cfc ps fs fc * fs ∧
    cfc + 2 * ps ≤ fc + frames_to_horizon cfc ps fs fc * fs ∧
    fc + frames_to_horizon cfc ps fs fc * fs ≤ cfc + 2 * ps + fs ∧
    start_offset cfc ps (fc + frames_to_horizon cfc ps fs fc * fs) coff
      = ((fc + frames_to_horizon cfc ps fs fc * fs : Nat) : Int) - (cfc : Int) - (ps : Int)
        - (coff : Int) := by
  have hhor : (cfc + 2 * ps % 4294967296) % 18446744073709551616 = cfc + 2 * ps := by omega
  have hend : (cfc + 2 * ps + fs) % 18446744073709551616 = cfc + 2 * ps + fs := by omega
  -- the number of frames and its product with the frame size
  have hk : ∃ k P : Nat, frames_to_horizon cfc ps fs fc = k ∧ k * fs = P ∧ k < 1500000 ∧
      cfc + 2 * ps ≤ fc + P ∧ fc + P ≤ cfc + 2 * ps + fs ∧
      (if fc < cfc + 2 * ps then (cfc + 2 * ps - fc) / fs + 1 else 0) = k := by
    unfold frames_to_horizon
    by_cases h : fc < cfc + 2 * ps
    · rw [if_pos h]
      refine ⟨_, _, rfl, rfl, ?_, ?_, ?_, rfl⟩
      · have h1 := Nat.div_mul_le_self (cfc + 2 * ps - fc) fs
        have h2 : (cfc + 2 * ps - fc) / fs * 1470 ≤ (cfc + 2 * ps - fc) / fs * fs :=
          Nat.mul_le_mul_left _ hfs.1
        generalize (cfc + 2 * ps - fc) / fs = q at *
        generalize q * fs = Q at *
        omega
      · have h1 := Nat.lt_div_mul_add (a := cfc + 2 * ps - fc) (b := fs) (by omega)
        have e : ((cfc + 2 * ps - fc) / fs + 1) * fs = (cfc + 2 * ps - fc) / fs * fs + fs := by
          ring
        rw [e]
        generalize (cfc + 2 * ps - fc) / fs * fs = Q at *
        omega
      · have h1 := Nat.div_mul_le_self (cfc + 2 * ps - fc) fs
        have e : ((cfc + 2 * ps - fc) / fs + 1) * fs = (cfc + 2 * ps - fc) / fs * fs + fs := by
          ring
        rw [e]
        generalize (cfc + 2 * ps - fc) / fs * fs = Q at *
        omega
    · rw [if_neg h]
      refine ⟨0, 0, rfl, by simp, by omega, by omega, by omega, rfl⟩
  obtain ⟨k, P, ek, eP, hk1, hk2, hk3, ek2⟩ := hk
  rw [ek, eP]
  have hn : start_n cfc ps fs fc = (k : Int) := by
    unfold start_n
    simp only [hhor, hend, if_neg (not_lt.mpr hwin)]
    by_cases h : fc < cfc + 2 * ps
    · rw [if_pos h] at ek2
      have e1 : (cfc + 2 * ps + 18446744073709551616 - fc) % 18446744073709551616
          = cfc + 2 * ps - fc := by omega
      rw [if_pos h, e1, ek2, Nat.mod_eq_of_lt (by omega), toInt32_of_lt _ (by omega)]
    · rw [if_neg h] at ek2
      rw [if_neg h, ← ek2]
      rfl
  refine ⟨hn, ?_, hk2, hk3, ?_⟩
  · unfold start_fc
    rw [toU32_natCast _ (by omega), eP, Nat.mod_eq_of_lt (by omega), Nat.mod_eq_of_lt (by omega)]
  · unfold start_offset
    have e1 : (fc + P + 18446744073709551616 - (cfc + ps) % 18446744073709551616)
        % 18446744073709551616 = fc + P - (cfc + ps) := by omega
    rw [e1, toInt32_of_lt _ (by omega), wrapInt_of_range _ (by omega) (by omega)]
    omega

theorem start_params (c : hdspe_tco) (env : tco_start_env) (hidx : c.ltc_fps < 4) :
    start_fs c env
      = hdspe_tco_get_sample_rate env.tco_48KHz * 1000
        / (hdspe_fps_tab c.ltc_fps * hdspe_scale_tab c.ltc_fps) ∧
    1470 ≤ start_fs c env ∧ start_fs c env ≤ 2000 ∧
    hdspe_ltc_offset (hdspe_fps_tab c.ltc_fps)
        (hdspe_sample_rate_freq (hdspe_tco_get_sample_rate env.tco_48KHz)) ≤ 16 ∧
    hdspe_ltc_offset (hdspe_fps_tab c.ltc_fps)
        (hdspe_sample_rate_freq (hdspe_tco_get_sample_rate env.tco_48KHz))
      = (if env.tco_48KHz = true then
          (if hdspe_fps_tab c.ltc_fps = 24 then 16
            else if hdspe_fps_tab c.ltc_fps = 25 then 16 else 14)
        else
          (if hdspe_fps_tab c.ltc_fps = 24 then 13
            else if hdspe_fps_tab c.ltc_fps = 25 then 15 else 13)) := by
  have hi : c.ltc_fps = 0 ∨ c.ltc_fps = 1 ∨ c.ltc_fps = 2 ∨ c.ltc_fps = 3 := by omega
  unfold start_fs
  cases env.tco_48KHz <;> rcases hi with e | e | e | e <;> rw [e] <;> decide

theorem start_target_now (c : hdspe_tco) (env : tco_start_env) (hqs : env.qs = false)
    (hds : env.ds = false) (htc : c.ltc_out &&& 0x3f7f7f3f ≠ 0x3f7f7f3f)
    (hnow : c.ltc_out_frame_count = 18446744073709551615) :
    start_cfc env = env.frame_count ∧ start_ps env = env.period_size ∧
    start_target c env = (c.ltc_out, env.frame_count) := by
  have hs : hdspe_speed_factor env.qs env.ds = 1 := by
    rw [hqs, hds]
    rfl
  unfold start_target start_cfc start_ps
  simp only [hs, Nat.div_one, if_neg htc, hnow, if_true, and_self]

theorem start_cfc_lt (env : tco_start_env) (w p q : Nat) (hw : w < 4294967296)
    (hp : p < 4294967296) (hcfc : env.frame_count = hdspe_update_frame_count w p q) :
    start_cfc env < 140737488355328 := by
  unfold start_cfc
  rw [hcfc]
  exact lt_of_le_of_lt (Nat.div_le_self _ _) (frame_count_lt w p q hw hp)

/-- C22: at single speed, for a request with a time code `tc` and the start frame 'now',
a period size from 32 to 8192 and every frame counter that `hdspe_update_frame_count`
computes, `hdspe_tco_start_timecode` has `fs = sr*1000/(fps*scale)`, chooses
`n = (2*ps)/fs + 1`, stages the time code `add_frames n tc` and the offset
`n*fs - ps - c`, where `c = hdspe_ltc_offset fps class` is 16, 16, 14 at 48 kHz and
13, 15, 13 at 44.1 kHz for 24, 25, 30 fps; at 48 kHz, frame-rate index 3 and `ps = 1024`
this is `fs = 1600`, `n = 2`, offset 2162. -/
theorem C22_now_single_speed (c : hdspe_tco) (env : tco_start_env) (w p q : Nat)
    (hw : w < 4294967296) (hp : p < 4294967296)
    (hcfc : env.frame_count = hdspe_update_frame_count w p q)
    (hqs : env.qs = false) (hds : env.ds = false) (hidx : c.ltc_fps < 4)
    (hps : 32 ≤ env.period_size ∧ env.period_size ≤ 8192)
    (htc : c.ltc_out &&& 0x3f7f7f3f ≠ 0x3f7f7f3f)
    (hnow : c.ltc_out_frame_count = 18446744073709551615) :
    (hdspe_tco_start_timecode c env).fs
      = hdspe_tco_get_sample_rate env.tco_48KHz * 1000
        / (hdspe_fps_tab c.ltc_fps * hdspe_scale_tab c.ltc_fps) ∧
    (hdspe_tco_start_timecode c env).n
      = ((2 * env.period_size / (hdspe_tco_start_timecode c env).fs + 1 : Nat) : Int) ∧
    (hdspe_tco_start_timecode c env).tc
      = hdspe_ltc32_add_frames (hdspe_tco_start_timecode c env).n c.ltc_out
          (hdspe_fps_tab c.ltc_fps : Int) (if c.ltc_drop ≠ 0 then 1 else 0) ∧
    (hdspe_tco_start_timecode c env).offset
      = (hdspe_tco_start_timecode c env).n * ((hdspe_tco_start_timecode c env).fs : Int)
        - (env.period_size : Int)
        - (hdspe_ltc_offset (hdspe_fps_tab c.ltc_fps)
            (hdspe_sample_rate_freq (hdspe_tco_get_sample_rate env.tco_48KHz)) : Int) ∧
    hdspe_ltc_offset (hdspe_fps_tab c.ltc_fps)
        (hdspe_sample_rate_freq (hdspe_tco_get_sample_rate env.tco_48KHz))
      = (if env.tco_48KHz = true then
          (if hdspe_fps_tab c.ltc_fps = 24 then 16
            else if hdspe_fps_tab c.ltc_fps = 25 then 16 else 14)
        else
          (if hdspe_fps_tab c.ltc_fps = 24 then 13
            else if hdspe_fps_tab c.ltc_fps = 25 then 15 else 13)) ∧
    ((hdspe_tco_start_timecode (request_at 18446744073709551615) (env_48k 0 1024)).fs = 1600 ∧
      (hdspe_tco_start_timecode (request_at 18446744073709551615) (env_48k 0 1024)).n = 2 ∧
      (hdspe_tco_start_timecode (request_at 18446744073709551615) (env_48k 0 1024)).offset
        = 2162) := by
  obtain ⟨p1, p2, p3, p4, p5⟩ := start_params c env hidx
  obtain ⟨t1, t2, t3⟩ := start_target_now c env hqs hds htc hnow
  have hlt := start_cfc_lt env w p q hw hp hcfc
  rw [t1] at hlt
  obtain ⟨s1, s2, _, _, s5⟩ := start_not_later env.frame_count env.period_size (start_fs c env)
    env.frame_count _ ⟨p2, p3⟩ hlt hps.2 p4 (by omega) (by omega)
  have ek : frames_to_horizon env.frame_count env.period_size (start_fs c env) env.frame_count
      = 2 * env.period_size / start_fs c env + 1 := by
    unfold frames_to_horizon
    rw [if_pos (by omega)]
    congr 2
    omega
  rw [start_timecode_tc c env, start_timecode_offset c env, start_timecode_n c env,
    start_timecode_fs c env, t1, t2, t3, s1, s2, s5, ek]
  refine ⟨p1, rfl, rfl, ?_, p5, by decide⟩
  push_cast
  ring

theorem C22_now_single_speed_witness :
    (hdspe_tco_start_timecode (request_at 18446744073709551615) (env_48k 0 1024)).fs
      = hdspe_tco_get_sample_rate (env_48k 0 1024).tco_48KHz * 1000
        / (hdspe_fps_tab (request_at 18446744073709551615).ltc_fps
            * hdspe_scale_tab (request_at 18446744073709551615).ltc_fps) ∧
    (hdspe_tco_start_timecode (request_at 18446744073709551615) (env_48k 0 1024)).n
      = ((2 * (env_48k 0 1024).period_size
          / (hdspe_tco_start_timecode (request_at 18446744073709551615) (env_48k 0 1024)).fs
          + 1 : Nat) : Int) ∧
    (hdspe_tco_start_timecode (request_at 18446744073709551615) (env_48k 0 1024)).tc
      = hdspe_ltc32_add_frames
          (hdspe_tco_start_timecode (request_at 18446744073709551615) (env_48k 0 1024)).n
          (request_at 18446744073709551615).ltc_out
          (hdspe_fps_tab (request_at 18446744073709551615).ltc_fps : Int)
          (if (request_at 18446744073709551615).ltc_drop ≠ 0 then 1 else 0) ∧
    (hdspe_tco_start_timecode (request_at 18446744073709551615) (env_48k 0 1024)).offset
      = (hdspe_tco_start_timecode (request_at 18446744073709551615) (env_48k 0 1024)).n
          * ((hdspe_tco_start_timecode (request_at 18446744073709551615)
              (env_48k 0 1024)).fs : Int)
        - ((env_48k 0 1024).period_size : Int)
        - (hdspe_ltc_offset (hdspe_fps_tab (request_at 18446744073709551615).ltc_fps)
            (hdspe_sample_rate_freq
              (hdspe_tco_get_sample_rate (env_48k 0 1024).tco_48KHz)) : Int) ∧
    hdspe_ltc_offset (hdspe_fps_tab (request_at 18446744073709551615).ltc_fps)
        (hdspe_sample_rate_freq (hdspe_tco_get_sample_rate (env_48k 0 1024).tco_48KHz))
      = (if (env_48k 0 1024).tco_48KHz = true then
          (if hdspe_fps_tab (request_at 18446744073709551615).ltc_fps = 24 then 16
            else if hdspe_fps_tab (request_at 18446744073709551615).ltc_fps = 25 then 16
            else 14)
        else
          (if hdspe_fps_tab (request_at 18446744073709551615).ltc_fps = 24 then 13
            else if hdspe_fps_tab (request_at 18446744073709551615).ltc_fps = 25 then 15
            else 13)) ∧
    ((hdspe_tco_start_timecode (request_at 18446744073709551615) (env_48k 0 1024)).fs = 1600 ∧
      (hdspe_tco_start_timecode (request_at 18446744073709551615) (env_48k 0 1024)).n = 2 ∧
      (hdspe_tco_start_timecode (request_at 18446744073709551615) (env_48k 0 1024)).offset
        = 2162) :=
  C22_now_single_speed (request_at 18446744073709551615) (env_48k 0 1024) 0 0 1024
    (by decide) (by decide) (by decide) rfl rfl (by decide) (by decide) (by decide) rfl

/-- C28: for every frame counter that `hdspe_update_frame_count` computes, every
frame-rate index 0 .. 3, both sample rates, a single-speed period size from 16 to 8192
and a resolved target frame `fc` that is not later than the window,
`fc ≤ cfc + 2*ps + fs`, and less than `2^31` samples in the past, the offset handed to
`hdspe_tco_set_timecode` is in `0 .. 0x3fff` and the out-of-range warning is not
issued. -/
theorem C28_offset_addressable (c : hdspe_tco) (env : tco_start_env) (w p q : Nat)
    (hw : w < 4294967296) (hp : p < 4294967296)
    (hcfc : env.frame_count = hdspe_update_frame_count w p q)
    (hidx : c.ltc_fps < 4) (hps : 16 ≤ start_ps env ∧ start_ps env ≤ 8192)
    (hwin : (start_target c env).2 ≤ start_cfc env + 2 * start_ps env + start_fs c env)
    (hpast : start_cfc env < (start_target c env).2 + 2147483648) :
    0 ≤ (hdspe_tco_start_timecode c env).offset ∧
    (hdspe_tco_start_timecode c env).offset ≤ 0x3fff ∧
    (hdspe_tco_start_timecode c env).warn = false := by
  obtain ⟨_, p2, p3, p4, _⟩ := start_params c env hidx
  have hlt := start_cfc_lt env w p q hw hp hcfc
  obtain ⟨s1, s2, s3, s4, s5⟩ := start_not_later (start_cfc env) (start_ps env)
    (start_fs c env) (start_target c env).2 _ ⟨p2, p3⟩ hlt hps.2 p4 hwin hpast
  have hoff : 0 ≤ (hdspe_tco_start_timecode c env).offset ∧
      (hdspe_tco_start_timecode c env).offset ≤ 0x3fff := by
    rw [start_timecode_offset, s1, s2, s5]
    generalize frames_to_horizon (start_cfc env) (start_ps env) (start_fs c env)
      (start_target c env).2 * start_fs c env = P at *
    omega
  refine ⟨hoff.1, hoff.2, ?_⟩
  rw [start_timecode_warn, decide_eq_false_iff_not]
  rintro (h | h)
  · omega
  · apply h
    rw [toU32_of_nonneg _ hoff.1 (by omega)]
    exact land_high_of_lt _ (by omega)

theorem C28_offset_addressable_witness :
    0 ≤ (hdspe_tco_start_timecode (request_at 100) (env_48k 5000 16)).offset ∧
    (hdspe_tco_start_timecode (request_at 100) (env_48k 5000 16)).offset ≤ 0x3fff ∧
    (hdspe_tco_start_timecode (request_at 100) (env_48k 5000 16)).warn = false :=
  C28_offset_addressable (request_at 100) (env_48k 5000 16) 0 5000 1 (by decide) (by decide)
    (by decide) (by decide) (by decide) (by decide) (by decide)

/-! ## The period interrupt, and evaluations -/

theorem period_elapsed_some (c : hdspe_tco) (env : tco_period_env) :
    ((hdspe_tco_period_elapsed c env).isSome = true ↔
      (c.ltc_changed = true →
        (period_elapsed_pullfac c.ltc_duration_sum (hdspe_tco_read_ltc env).fps).isSome
          = true)) ∧
    ∀ c1, hdspe_tco_period_elapsed c env = some c1 →
      c1.ltc_out = 0xffffffff ∧ (c1.ltc_set = true ↔ c.ltc_out ≠ 0xffffffff) ∧
      (c1.ltc_run = true ↔ (c.ltc_run = true ∨ c.ltc_out ≠ 0xffffffff)) := by
  unfold hdspe_tco_period_elapsed hdspe_tco_reset_timecode
  cases hch : c.ltc_changed
  · simp only [Bool.false_eq_true, if_false, false_implies, iff_true, Option.isSome_some,
      Option.some.injEq, true_and]
    intro c1 h1
    subst h1
    by_cases ho : c.ltc_out = 0xffffffff <;> cases hs : c.ltc_set <;> cases hr : c.ltc_run <;>
      simp [hdspe_tco_start_timecode, ho, hs, hr]
  · simp only [if_true, true_implies]
    cases hp : period_elapsed_pullfac c.ltc_duration_sum (hdspe_tco_read_ltc env).fps with
    | none => simp
    | some pf =>
      simp only [Option.isSome_some, Option.some.injEq, true_and]
      intro c1 h1
      subst h1
      by_cases ho : c.ltc_out = 0xffffffff <;> cases hs : c.ltc_set <;> cases hr : c.ltc_run <;>
        simp [hdspe_tco_start_timecode, ho, hs, hr]

/-- C21 (evaluation at the failing input): a 'now' request (start frame count
`0xffffffffffffffff`) at 48 kHz, 30 fps, with `cfc = 0` and period size 1024. At single
speed the target frame is resolved to `cfc` and `n = 2*1024/1600 + 1 = 2`. At double
speed the start frame count is halved before it is compared with the sentinel, the
target frame stays `2^63 - 1`, `n = 1202590843` instead of `2*512/1600 + 1 = 1`, and the
out-of-range warning is issued; at quad speed `n = -343597384`. -/
theorem C21_now_double_speed_eval :
    (hdspe_tco_start_timecode (request_at 18446744073709551615)
        (env_48k_speed 0 1024 false false)).n = 2 ∧
    (hdspe_tco_start_timecode (request_at 18446744073709551615)
        (env_48k_speed 0 1024 false false)).fc = 0 + 2 * 1600 ∧
    (start_target (request_at 18446744073709551615) (env_48k_speed 0 1024 false true)).2
      = 9223372036854775807 ∧
    start_cfc (env_48k_speed 0 1024 false true) = 0 ∧
    start_ps (env_48k_speed 0 1024 false true) = 512 ∧
    (hdspe_tco_start_timecode (request_at 18446744073709551615)
        (env_48k_speed 0 1024 false true)).fs = 1600 ∧
    (hdspe_tco_start_timecode (request_at 18446744073709551615)
        (env_48k_speed 0 1024 false true)).n = 1202590843 ∧
    (hdspe_tco_start_timecode (request_at 18446744073709551615)
        (env_48k_speed 0 1024 false true)).fc = 9223372036854775999 ∧
    (hdspe_tco_start_timecode (request_at 18446744073709551615)
        (env_48k_speed 0 1024 false true)).offset = -335 ∧
    (hdspe_tco_start_timecode (request_at 18446744073709551615)
        (env_48k_speed 0 1024 false true)).warn = true ∧
    (start_target (request_at 18446744073709551615) (env_48k_speed 0 1024 true false)).2
      = 4611686018427387903 ∧
    (hdspe_tco_start_timecode (request_at 18446744073709551615)
        (env_48k_speed 0 1024 true false)).n = -343597384 := by
  decide

/-- C25 (evaluation at the failing input): at 30 fps drop-frame the codes `0x00010042`
and `0x00010002` have the same masked value, 00:01:00:02; `hdspe_ltc32_decr` takes the
second to `0x00005929` (00:00:59:29) and the first, which has flag bit 6 set, to
`0x00010001` (00:01:00:01, a frame number that drop-frame skips). -/
theorem C25_decr_flag_eval :
    (0x00010042 : Nat) &&& 0x3f7f7f3f = 0x00010002 &&& 0x3f7f7f3f ∧
    hdspe_ltc32_compose 0 1 0 2 = 0x00010002 ∧
    hdspe_ltc32_decr 0x00010002 30 1 = 0x00005929 ∧
    hdspe_ltc32_decr 0x00010042 30 1 = 0x00010001 ∧
    hdspe_ltc32_decr 0x00010042 30 1 ≠ hdspe_ltc32_decr 0x00010002 30 1 ∧
    (0x00010042 : Nat) &&& 0x00007ff0 = 0x40 ∧ (0x00010002 : Nat) &&& 0x00007ff0 = 0 := by
  decide

/-- C27 (evaluation at the failing input): after two new-frame calls 5 ns apart from the
zero-initialised state the running sum is 5, not zero, the divisor `(u32)(sum / 60000)`
is zero, and the pull factor computation divides by zero. -/
theorem C27_division_by_zero_eval :
    (run_mtc hdspe_tco_zero [quarter_frame 1000, quarter_frame 1005]).ltc_duration_sum = 5 ∧
    ((run_mtc hdspe_tco_zero [quarter_frame 1000, quarter_frame 1005]).ltc_duration_sum
        / (LTC_CACHE_SIZE * 1000)) % 4294967296 = 0 ∧
    period_elapsed_realfps1k
      (run_mtc hdspe_tco_zero [quarter_frame 1000, quarter_frame 1005]).ltc_duration_sum 30
      = none ∧
    period_elapsed_pullfac
      (run_mtc hdspe_tco_zero [quarter_frame 1000, quarter_frame 1005]).ltc_duration_sum 30
      = none ∧
    (hdspe_tco_read_ltc { start := env_48k 0 1024, tco0 := 0, tco1 := 0x800 }).fps = 30 ∧
    (hdspe_tco_period_elapsed
      (run_mtc hdspe_tco_zero [quarter_frame 1000, quarter_frame 1005])
      { start := env_48k 0 1024, tco0 := 0, tco1 := 0x800 }).isSome = false := by
  decide

/-! ## The pull factor through the period interrupt -/

theorem period_elapsed_pullfac_stored (c : hdspe_tco) (env : tco_period_env)
    (hch : c.ltc_changed = true) :
    (hdspe_tco_period_elapsed c env).map hdspe_tco.ltc_in_pullfac
      = period_elapsed_pullfac c.ltc_duration_sum (hdspe_tco_read_ltc env).fps ∧
    (hdspe_tco_period_elapsed c env).map hdspe_tco.last_ltc_in_pullfac
      = period_elapsed_pullfac c.ltc_duration_sum (hdspe_tco_read_ltc env).fps := by
  unfold hdspe_tco_period_elapsed hdspe_tco_reset_timecode
  simp only [hch, if_true]
  cases hp : period_elapsed_pullfac c.ltc_duration_sum (hdspe_tco_read_ltc env).fps with
  | none => simp
  | some pf =>
    by_cases ho : c.ltc_out = 0xffffffff <;> cases hs : c.ltc_set <;>
      simp [hdspe_tco_start_timecode, ho, hs]

/-- C17: when all 60 ring slots hold the same duration `d` the running sum of the
estimator is `60 * d`, and a call of `hdspe_tco_period_elapsed` after a new frame, with
the TCO reporting 30 fps, returns and stores in `ltc_in_pullfac` the value
`((1000000000 / (sum / 60000)) + 15) / 30` whenever `sum / 60000` is a non-zero 32-bit
value; it stores 999 for `d = 33366700` and 1000 for `d = 33333333`. -/
theorem C17_steady_pull_factor (c : hdspe_tco) (env : tco_period_env) (d : Nat)
    (hsum : c.ltc_duration_sum = sumTo c.ltc_duration LTC_CACHE_SIZE)
    (hall : ∀ i, i < LTC_CACHE_SIZE → c.ltc_duration i = d)
    (hch : c.ltc_changed = true) (hfps : (hdspe_tco_read_ltc env).fps = 30) :
    c.ltc_duration_sum = 60 * d ∧
    (0 < c.ltc_duration_sum / 60000 ∧ c.ltc_duration_sum / 60000 < 4294967296 →
      (hdspe_tco_period_elapsed c env).map hdspe_tco.ltc_in_pullfac
        = some ((1000000000 / (c.ltc_duration_sum / 60000) + 15) / 30)) ∧
    (d = 33366700 →
      (hdspe_tco_period_elapsed c env).map hdspe_tco.ltc_in_pullfac = some 999) ∧
    (d = 33333333 →
      (hdspe_tco_period_elapsed c env).map hdspe_tco.ltc_in_pullfac = some 1000) := by
  have e : c.ltc_duration_sum = 60 * d := by
    rw [hsum, sumTo_const c.ltc_duration d LTC_CACHE_SIZE hall]
    rfl
  rw [(period_elapsed_pullfac_stored c env hch).1, hfps]
  refine ⟨e, ?_, ?_, ?_⟩
  · intro h
    have hm : (c.ltc_duration_sum / 60000) % 4294967296 = c.ltc_duration_sum / 60000 :=
      Nat.mod_eq_of_lt h.2
    have := (pullfac_formula c.ltc_duration_sum 30 (by decide) (by rw [hm]; exact h.1)).2
    rw [hm] at this
    exact this
  · intro hd
    rw [e, hd]
    decide
  · intro hd
    rw [e, hd]
    decide

set_option maxRecDepth 100000 in
theorem C17_steady_pull_factor_witness :
    (run_mtc hdspe_tco_zero (steady_events 1000 33366700 61)).ltc_duration_sum
      = 60 * 33366700 ∧
    (0 < (run_mtc hdspe_tco_zero (steady_events 1000 33366700 61)).ltc_duration_sum / 60000 ∧
      (run_mtc hdspe_tco_zero (steady_events 1000 33366700 61)).ltc_duration_sum / 60000
        < 4294967296 →
      (hdspe_tco_period_elapsed (run_mtc hdspe_tco_zero (steady_events 1000 33366700 61))
          (period_env_30fps 0 1024)).map hdspe_tco.ltc_in_pullfac
        = some ((1000000000
            / ((run_mtc hdspe_tco_zero (steady_events 1000 33366700 61)).ltc_duration_sum
                / 60000) + 15) / 30)) ∧
    (33366700 = 33366700 →
      (hdspe_tco_period_elapsed (run_mtc hdspe_tco_zero (steady_events 1000 33366700 61))
          (period_env_30fps 0 1024)).map hdspe_tco.ltc_in_pullfac = some 999) ∧
    (33366700 = 33333333 →
      (hdspe_tco_period_elapsed (run_mtc hdspe_tco_zero (steady_events 1000 33366700 61))
          (period_env_30fps 0 1024)).map hdspe_tco.ltc_in_pullfac = some 1000) :=
  C17_steady_pull_factor (run_mtc hdspe_tco_zero (steady_events 1000 33366700 61))
    (period_env_30fps 0 1024) 33366700 (by decide) (by decide) (by decide) (by decide)

theorem period_elapsed_next (c : hdspe_tco) (env env2 : tco_period_env) :
    ((hdspe_tco_period_elapsed c env).isSome = true ↔
      (c.ltc_changed = true →
        (period_elapsed_pullfac c.ltc_duration_sum (hdspe_tco_read_ltc env).fps).isSome
          = true)) ∧
    ∀ c1, hdspe_tco_period_elapsed c env = some c1 →
      c1.ltc_out = 0xffffffff ∧ (c1.ltc_set = true ↔ c.ltc_out ≠ 0xffffffff) ∧
      (c1.ltc_run = true ↔ (c.ltc_run = true ∨ c.ltc_out ≠ 0xffffffff)) ∧
      ∀ c2, hdspe_tco_period_elapsed c1 env2 = some c2 →
        c2.ltc_out = 0xffffffff ∧ c2.ltc_set = false ∧ c2.ltc_run = c1.ltc_run := by
  refine ⟨(period_elapsed_some c env).1, ?_⟩
  intro c1 h1
  obtain ⟨a1, a2, a3⟩ := (period_elapsed_some c env).2 c1 h1
  refine ⟨a1, a2, a3, ?_⟩
  intro c2 h2
  obtain ⟨b1, b2, b3⟩ := (period_elapsed_some c1 env2).2 c2 h2
  refine ⟨b1, ?_, ?_⟩
  · cases hs : c2.ltc_set
    · rfl
    · exact absurd a1 (b2.mp hs)
  · cases hr : c1.ltc_run <;> cases hr2 : c2.ltc_run
    · rfl
    · rcases b3.mp hr2 with h | h
      · rw [hr] at h
        exact absurd h (by decide)
      · exact absurd a1 h
    · exact absurd (b3.mpr (Or.inl hr)) (by rw [hr2]; decide)
    · rfl

/-- C23 (evaluation at the failing input): in the state that two new-frame calls 5 ns
apart leave from the zero-initialised state a request is pending (`ltc_out` is 0, not
`0xffffffff`), `ltc_changed` is set and the running sum is 5; the pull factor estimate of
`hdspe_tco_period_elapsed` divides by zero, so the call does not return and the request
stays pending. The same call on a pending request without a new frame returns with
`ltc_out = 0xffffffff`, `ltc_set` and `ltc_run`. -/
theorem C23_pending_request_eval :
    (run_mtc hdspe_tco_zero [quarter_frame 1000, quarter_frame 1005]).ltc_out = 0 ∧
    (run_mtc hdspe_tco_zero [quarter_frame 1000, quarter_frame 1005]).ltc_out ≠ 0xffffffff ∧
    (run_mtc hdspe_tco_zero [quarter_frame 1000, quarter_frame 1005]).ltc_changed = true ∧
    (run_mtc hdspe_tco_zero [quarter_frame 1000, quarter_frame 1005]).ltc_duration_sum = 5 ∧
    period_elapsed_pullfac
      (run_mtc hdspe_tco_zero [quarter_frame 1000, quarter_frame 1005]).ltc_duration_sum
      (hdspe_tco_read_ltc (period_env_30fps 0 1024)).fps = none ∧
    (hdspe_tco_period_elapsed
      (run_mtc hdspe_tco_zero [quarter_frame 1000, quarter_frame 1005])
      (period_env_30fps 0 1024)).isSome = false ∧
    (hdspe_tco_period_elapsed (request_at 7048) (period_env_30fps 0 1024)).map
      hdspe_tco.ltc_out = some 0xffffffff ∧
    (hdspe_tco_period_elapsed (request_at 7048) (period_env_30fps 0 1024)).map
      hdspe_tco.ltc_set = some true ∧
    (hdspe_tco_period_elapsed (request_at 7048) (period_env_30fps 0 1024)).map
      hdspe_tco.ltc_run = some true := by
  decide

/-! ## Running direction and flag bits -/

end Hdspe
